import Mathlib

/-! EventEase backend: booking, payment and sign-in handlers of `server.js`.

A shallow embedding of the request handlers of `src/server.js`.

* A request-body field is a `JVal`: `undefined` (field absent) or a JSON scalar; arrays and
  objects as field values are outside the model. Numbers are the integers (exact for
  JavaScript while magnitudes stay below `2^53`); `nan` is the only other number value kept,
  because `*` can produce it. The operators `*` and `+` round their result to a double
  (`roundToDouble`); numbers that are not integers, and the texts that denote them, are
  outside the model, and the theorems about arithmetic name the operands they take.
* The process state is `Server`: the module-level array `inMemoryBookings`, the documents of
  the `Booking` collection (a list searched with the same `===` test as the array), and the
  confirmation mails handed to the mail transport.
* Everything a handler reads from outside is in `Env`: clock readings, random draws, whether a
  store call resolves or throws, whether the mail transport accepts, and the QR encoder.
* `JSON.stringify` is modelled on object literals of scalars and `JSON.parse` on flat objects
  of scalars with integer numbers, which is the shape of the QR payload.
* The auth routes read two identifiers that `server.js` never declares; `AuthScope` makes the
  bindings explicit so that the handler can be evaluated both as written and as intended.
* An event is an `Obj`, a JavaScript object as the list of its properties, because the update
  route merges an arbitrary request body into it. The event routes run on
  `global.inMemoryEvents` only: their store branch tests an identifier that is never
  declared. `Process` is the booking state together with the event list, and `Endpoint` has
  one constructor for every registered route that writes state.
* `Client` is the page state of the payment flow of `app.js`; what `fetch` answers is an
  input of `processPayment`, and the 2000 ms timer is a pending callback fired by
  `fireReopenTimer`.
* The read routes that claims are about return their answers: `getEvents`, `getFeatured` and
  `getEventBookings`. `String.prototype.toLowerCase` and `Date.parse` are parameters of these
  handlers, and `Array.prototype.sort` is a stable insertion sort. `routes` is the route table
  in registration order and `dispatch` picks the first route that matches.
* `loadAllEvents` and the sign-in form handler of `app.js` are functions of what `fetch`
  answers and of what local storage holds.
-/

namespace EventEase

/-! ## JavaScript values -/

/-- A JavaScript value met in a request body: an absent field or a JSON scalar. -/
inductive JVal where
  | undefined
  | null
  | bool (b : Bool)
  | num (n : Int)
  | nan
  | str (s : String)
  deriving DecidableEq

namespace JVal

/-- ToBoolean: `undefined`, `null`, `false`, `0`, `NaN` and the empty string are falsy. -/
def truthy : JVal → Bool
  | undefined => false
  | null => false
  | bool b => b
  | num n => n != 0
  | nan => false
  | str s => s != ""

/-- The operator `a || b`. -/
def or (a b : JVal) : JVal := if a.truthy then a else b

/-- The operator `a === b` on scalars (`NaN` equals nothing). -/
def strictEq : JVal → JVal → Bool
  | nan, _ => false
  | _, nan => false
  | a, b => a == b

end JVal

/-- White space and line terminators that `ToNumber` strips from both ends of a string. -/
def isJsSpace (c : Char) : Bool :=
  c = ' ' || c = '\t' || c = '\n' || c = '\r' || c.toNat = 11 || c.toNat = 12 ||
  c.toNat = 160 || c.toNat = 65279 || c.toNat = 8232 || c.toNat = 8233 ||
  c.toNat = 5760 || (8192 ≤ c.toNat && c.toNat ≤ 8202) || c.toNat = 8239 ||
  c.toNat = 8287 || c.toNat = 12288

/-- Value of a run of decimal digits, `none` when a character is not a digit. -/
def digitsValue : Nat → List Char → Option Nat
  | acc, [] => some acc
  | acc, c :: cs => if c.isDigit then digitsValue (acc * 10 + (c.toNat - 48)) cs else none

/-- StringToNumber on the integer fragment: optional sign and decimal digits between
white space, the empty string being `0`; every other text is `NaN` here. -/
def stringToNumber (s : String) : JVal :=
  let cs := ((s.data.dropWhile isJsSpace).reverse.dropWhile isJsSpace).reverse
  match cs with
  | [] => JVal.num 0
  | c :: rest =>
    if c = '-' then
      match rest, digitsValue 0 rest with
      | _ :: _, some n => JVal.num (-(n : Int))
      | _, _ => JVal.nan
    else if c = '+' then
      match rest, digitsValue 0 rest with
      | _ :: _, some n => JVal.num n
      | _, _ => JVal.nan
    else
      match digitsValue 0 cs with
      | some n => JVal.num n
      | none => JVal.nan

/-- ToNumber on scalars. -/
def JVal.toNumber : JVal → JVal
  | JVal.undefined => JVal.nan
  | JVal.null => JVal.num 0
  | JVal.bool b => JVal.num (if b then 1 else 0)
  | JVal.num n => JVal.num n
  | JVal.nan => JVal.nan
  | JVal.str s => stringToNumber s

/-- How many low bits an integer loses when it is stored as a double: none below `2^53`, and
one more for every further binary digit. `fuel` bounds the number of digits. -/
def dropBits : Nat → Nat → Nat
  | 0, _ => 0
  | fuel + 1, n => if n < 2 ^ 53 then 0 else dropBits fuel (n / 2) + 1

/-- The double nearest to a natural number: the leading 53 binary digits are kept and the
rest is rounded to nearest, a tie going to the even neighbour. -/
def roundNat (n : Nat) : Nat :=
  if 2 * (n % 2 ^ dropBits n n) > 2 ^ dropBits n n ∨
      (2 * (n % 2 ^ dropBits n n) = 2 ^ dropBits n n ∧ n / 2 ^ dropBits n n % 2 = 1) then
    (n / 2 ^ dropBits n n + 1) * 2 ^ dropBits n n
  else n / 2 ^ dropBits n n * 2 ^ dropBits n n

/-- The double nearest to an integer, which is what an arithmetic operator returns for an
exact integer result. Magnitudes below `2^53` are exact. A result of magnitude `2^1024` or
more is `Infinity` in JavaScript, a value outside the model. -/
def roundToDouble : Int → Int
  | Int.ofNat n => roundNat n
  | Int.negSucc n => -(roundNat (n + 1) : Int)

/-- The operator `a * b`: the product of the two numbers, rounded to a double. -/
def JVal.mul (a b : JVal) : JVal :=
  match a.toNumber, b.toNumber with
  | JVal.num x, JVal.num y => JVal.num (roundToDouble (x * y))
  | _, _ => JVal.nan

/-! ## Identifier generation -/

/-- The call `s.substr(start, len)` for non-negative arguments. -/
def substr (s : String) (start len : Nat) : String := String.mk ((s.data.drop start).take len)

/-- The call `s.toUpperCase()` on ASCII text. -/
def toUpperCase (s : String) : String := String.mk (s.data.map Char.toUpper)

/-- The helper `generateBookingId`: `now` is what `Date.now()` returns and `rnd` is the text
`Math.random().toString(36)` of the draw. -/
def generateBookingId (now : Nat) (rnd : String) : String :=
  "BK" ++ toString now ++ toUpperCase (substr rnd 2 9)

/-- The helper `generateTransactionId`, with the same two readings. -/
def generateTransactionId (now : Nat) (rnd : String) : String :=
  "TXN" ++ toString now ++ toUpperCase (substr rnd 2 9)

/-! ## JSON text: `JSON.stringify` of a flat object and `JSON.parse` -/

/-- The double quote. -/
def dquote : Char := Char.ofNat 34

/-- The reverse solidus. -/
def backslash : Char := Char.ofNat 92

/-- The left brace. -/
def lbrace : Char := Char.ofNat 123

/-- The right brace. -/
def rbrace : Char := Char.ofNat 125

/-- QuoteJSONString, one character: the escapes `JSON.stringify` writes. -/
def escapeChar (c : Char) : List Char :=
  if c = dquote then [backslash, dquote]
  else if c = backslash then [backslash, backslash]
  else if c.toNat = 8 then [backslash, 'b']
  else if c.toNat = 12 then [backslash, 'f']
  else if c.toNat = 10 then [backslash, 'n']
  else if c.toNat = 13 then [backslash, 'r']
  else if c.toNat = 9 then [backslash, 't']
  else if c.toNat < 32 then
    [backslash, 'u', '0', '0', Nat.digitChar (c.toNat / 16), Nat.digitChar (c.toNat % 16)]
  else [c]

/-- The escaped characters of a string body. -/
def escapeChars : List Char → List Char
  | [] => []
  | c :: cs => escapeChar c ++ escapeChars cs

/-- QuoteJSONString. -/
def quoteJSONString (s : String) : List Char := dquote :: (escapeChars s.data ++ [dquote])

/-- Number::toString on an integer. -/
def numberToString : Int → List Char
  | Int.ofNat k => Nat.toDigits 10 k
  | Int.negSucc k => '-' :: Nat.toDigits 10 (k + 1)

/-- SerializeJSONProperty on a scalar: `none` for `undefined` (the property is left out),
`null` for `NaN`. -/
def serializeValue : JVal → Option (List Char)
  | JVal.undefined => none
  | JVal.null => some ['n', 'u', 'l', 'l']
  | JVal.bool true => some ['t', 'r', 'u', 'e']
  | JVal.bool false => some ['f', 'a', 'l', 's', 'e']
  | JVal.num n => some (numberToString n)
  | JVal.nan => some ['n', 'u', 'l', 'l']
  | JVal.str s => some (quoteJSONString s)

/-- The members of an object literal, comma separated, in property order. -/
def serializeMembers : List (String × JVal) → List Char
  | [] => []
  | (k, v) :: rest =>
    match serializeValue v with
    | none => serializeMembers rest
    | some t =>
      quoteJSONString k ++ (':' :: t) ++
        (if serializeMembers rest = [] then [] else ',' :: serializeMembers rest)

/-- The call `JSON.stringify` on an object literal whose property values are scalars. -/
def JSON.stringify (members : List (String × JVal)) : String :=
  String.mk (lbrace :: (serializeMembers members ++ [rbrace]))

/-- JSON white space. -/
def isWs (c : Char) : Bool := c = ' ' || c = '\t' || c = '\n' || c = '\r'

/-- Drop leading JSON white space. -/
def skipWs : List Char → List Char
  | [] => []
  | c :: cs => if isWs c then skipWs cs else c :: cs

/-- Value of a hexadecimal digit. -/
def hexValue (c : Char) : Option Nat :=
  if c.isDigit then some (c.toNat - 48)
  else if 97 ≤ c.toNat ∧ c.toNat ≤ 102 then some (c.toNat - 87)
  else if 65 ≤ c.toNat ∧ c.toNat ≤ 70 then some (c.toNat - 55)
  else none

/-- The character of a `\uXXXX` escape; surrogate code units have no character here. -/
def codeUnitChar (h1 h2 h3 h4 : Char) : Option Char :=
  match hexValue h1, hexValue h2, hexValue h3, hexValue h4 with
  | some a, some b, some c, some d =>
    let v := ((a * 16 + b) * 16 + c) * 16 + d
    if 55296 ≤ v ∧ v < 57344 then none else some (Char.ofNat v)
  | _, _, _, _ => none

/-- The character a single-letter escape stands for. -/
def simpleEscape (e : Char) : Option Char :=
  if e = dquote then some dquote
  else if e = backslash then some backslash
  else if e = '/' then some '/'
  else if e = 'b' then some (Char.ofNat 8)
  else if e = 'f' then some (Char.ofNat 12)
  else if e = 'n' then some (Char.ofNat 10)
  else if e = 'r' then some (Char.ofNat 13)
  else if e = 't' then some (Char.ofNat 9)
  else none

/-- Parse a JSON string after its opening quote: the decoded characters and the input left
after the closing quote. `fuel` bounds the number of characters read. -/
def parseStringBody : Nat → List Char → Option (List Char × List Char)
  | 0, _ => none
  | _ + 1, [] => none
  | fuel + 1, c :: rest =>
    if c = dquote then some ([], rest)
    else if c = backslash then
      match rest with
      | [] => none
      | e :: rest2 =>
        if e = 'u' then
          match rest2 with
          | h1 :: h2 :: h3 :: h4 :: rest3 =>
            match codeUnitChar h1 h2 h3 h4, parseStringBody fuel rest3 with
            | some ch, some (cs, r) => some (ch :: cs, r)
            | _, _ => none
          | _ => none
        else
          match simpleEscape e, parseStringBody fuel rest2 with
          | some ch, some (cs, r) => some (ch :: cs, r)
          | _, _ => none
    else if c.toNat < 32 then none
    else
      match parseStringBody fuel rest with
      | some (cs, r) => some (c :: cs, r)
      | none => none

/-- Match a literal at the head of the input. -/
def expect : List Char → List Char → Option (List Char)
  | [], cs => some cs
  | _ :: _, [] => none
  | l :: ls, c :: cs => if l = c then expect ls cs else none

/-- Parse a JSON integer (`-`? then `0` or a digit run without leading zero); a fraction or
an exponent is outside the integer fragment and gives `none`. -/
def parseNumber (cs : List Char) : Option (JVal × List Char) :=
  let neg := decide (cs.head? = some '-')
  let body := if neg then cs.drop 1 else cs
  let ds := body.takeWhile Char.isDigit
  let rest := body.dropWhile Char.isDigit
  if ds = [] then none
  else if ds.head? = some '0' ∧ ds.length ≠ 1 then none
  else if rest.head? = some '.' ∨ rest.head? = some 'e' ∨ rest.head? = some 'E' then none
  else
    match digitsValue 0 ds with
    | some n => some (JVal.num (if neg then -(n : Int) else n), rest)
    | none => none

/-- Parse a scalar JSON value; arrays and objects are outside the flat fragment. -/
def parseScalar (cs : List Char) : Option (JVal × List Char) :=
  match cs with
  | [] => none
  | c :: rest =>
    if c = dquote then
      match parseStringBody (rest.length + 1) rest with
      | some (s, r) => some (JVal.str (String.mk s), r)
      | none => none
    else if c = 't' then (expect ['r', 'u', 'e'] rest).map (fun r => (JVal.bool true, r))
    else if c = 'f' then (expect ['a', 'l', 's', 'e'] rest).map (fun r => (JVal.bool false, r))
    else if c = 'n' then (expect ['u', 'l', 'l'] rest).map (fun r => (JVal.null, r))
    else parseNumber cs

/-- Parse the members of an object, the input standing at the first key; returns the members
and the input left after the closing brace. -/
def parseMembers : Nat → List Char → Option (List (String × JVal) × List Char)
  | 0, _ => none
  | _ + 1, [] => none
  | fuel + 1, c :: cs1 =>
    if c = dquote then
      match parseStringBody (cs1.length + 1) cs1 with
      | none => none
      | some (k, cs2) =>
        match skipWs cs2 with
        | [] => none
        | colon :: cs3 =>
          if colon = ':' then
            match parseScalar (skipWs cs3) with
            | none => none
            | some (v, cs4) =>
              match skipWs cs4 with
              | [] => none
              | d :: cs5 =>
                if d = ',' then
                  match parseMembers fuel (skipWs cs5) with
                  | some (ms, r) => some ((String.mk k, v) :: ms, r)
                  | none => none
                else if d = rbrace then some ([(String.mk k, v)], cs5)
                else none
          else none
    else none

/-- The call `JSON.parse` on the text of a flat object: its members in source order, `none` when the
text is not a flat JSON object of scalars. -/
def JSON.parse (text : String) : Option (List (String × JVal)) :=
  match skipWs text.data with
  | [] => none
  | c :: cs =>
    if c = lbrace then
      match skipWs cs with
      | [] => none
      | d :: cs1 =>
        if d = rbrace then (if skipWs cs1 = [] then some [] else none)
        else
          match parseMembers (cs.length + 1) (d :: cs1) with
          | some (ms, r) => if skipWs r = [] then some ms else none
          | none => none
    else none

/-- The value `JSON.parse` reads back for a stringified scalar: `NaN` has become `null`. -/
def jsonValue : JVal → JVal
  | JVal.nan => JVal.null
  | v => v

/-- The members `JSON.parse` reads back from `JSON.stringify`: properties that were
`undefined` are gone, the others keep their order. -/
def jsonMembers : List (String × JVal) → List (String × JVal)
  | [] => []
  | (k, v) :: rest =>
    if v = JVal.undefined then jsonMembers rest else (k, jsonValue v) :: jsonMembers rest

/-- Property read `obj.key` on a parsed object: the last member with that key wins, an absent
key reads as `undefined`. -/
def getProp (obj : List (String × JVal)) (key : String) : JVal :=
  match obj.reverse.find? (fun m => m.1 == key) with
  | some m => m.2
  | none => JVal.undefined

/-! ## Data model and environment -/

/-- A booking record: the object literal `bookingData` of the two booking routes, which is
also the document handed to the `Booking` model. Payment fields the plain booking route
never sets are `undefined`; `refundDate` is set by the in-memory refund. -/
structure Booking where
  bookingId : String
  eventTitle : JVal
  eventDate : JVal
  eventTime : JVal
  eventLocation : JVal
  ticketQuantity : JVal
  totalAmount : JVal
  userName : JVal
  userEmail : JVal
  userPhone : JVal
  price : JVal
  qrCode : String
  bookingDate : Nat
  status : String
  paymentStatus : String
  paymentMethod : JVal := JVal.undefined
  paymentId : JVal := JVal.undefined
  paymentToken : JVal := JVal.undefined
  paymentDate : Option Nat := none
  refundDate : Option Nat := none
  deriving DecidableEq

/-- The fields the booking routes destructure from `req.body`; an absent field is
`undefined`. -/
structure BookingRequest where
  eventTitle : JVal := JVal.undefined
  eventDate : JVal := JVal.undefined
  eventTime : JVal := JVal.undefined
  eventLocation : JVal := JVal.undefined
  ticketQuantity : JVal := JVal.undefined
  userName : JVal := JVal.undefined
  userEmail : JVal := JVal.undefined
  userPhone : JVal := JVal.undefined
  price : JVal := JVal.undefined
  totalAmount : JVal := JVal.undefined
  paymentMethod : JVal := JVal.undefined
  paymentToken : JVal := JVal.undefined
  paymentId : JVal := JVal.undefined
  deriving DecidableEq

/-- The `booking` object of a 201 response. The plain booking route sends no payment keys
(`undefined` here). -/
structure BookingView where
  bookingId : String
  eventId : String
  eventTitle : JVal
  eventDate : JVal
  eventTime : JVal
  eventLocation : JVal
  quantity : JVal
  totalAmount : JVal
  userName : JVal
  userEmail : JVal
  userPhone : JVal
  price : JVal
  qrCode : String
  status : String
  paymentStatus : JVal := JVal.undefined
  paymentMethod : JVal := JVal.undefined
  paymentId : JVal := JVal.undefined
  bookingDate : Nat
  deriving DecidableEq

/-- The `payment` object of `GET /api/payments/:bookingId`. -/
structure PaymentView where
  bookingId : String
  paymentStatus : String
  paymentMethod : JVal
  paymentId : JVal
  amount : JVal
  paymentDate : Option Nat
  deriving DecidableEq

/-- An HTTP answer: the status code, the `success`, `error` and `message` keys of the JSON
body when present, and the route's own payload key when present. -/
structure Response (α : Type) where
  status : Nat
  success : Option Bool := none
  error : Option String := none
  message : Option String := none
  payload : Option α := none
  deriving DecidableEq

/-- Process state: the module-level array `inMemoryBookings`, the documents of the `Booking`
collection in the document store, and the confirmation mails the transport accepted
(recipient and booking id). -/
structure Server where
  inMemoryBookings : List Booking := []
  bookingCollection : List Booking := []
  outbox : List (JVal × String) := []
  deriving DecidableEq

/-- What one request reads from outside the process. Clock and random readings are indexed by
their place in the handler: slot 0 the booking id, slot 1 the transaction id, slot 2 the QR
timestamp, slot 3 `bookingDate`, slot 4 `paymentDate` (or `refundDate`), slot 5 the response
`eventId`. `storeOk k` tells whether the k-th store call of the handler resolves (`true`) or
throws. `toDataURL` is `QRCode.toDataURL`, which rejects with a message when it cannot encode
the text. -/
structure Env where
  clock : Nat → Nat
  random36 : Nat → String
  isoString : Nat → String
  storeOk : Nat → Bool
  mailOk : Bool
  toDataURL : String → Except String String

/-! ## Handlers -/

/-- The helper `sendConfirmationEmail`: hands the mail to the transport; a transport failure is caught
inside and answered with `false`. -/
def sendConfirmationEmail (env : Env) (s : Server) (userEmail : JVal) (booking : Booking) :
    Server × Bool :=
  if env.mailOk then ({ s with outbox := s.outbox ++ [(userEmail, booking.bookingId)] }, true)
  else (s, false)

/-- The test `b.bookingId === bookingId` used by every lookup. -/
def idMatches (bookingId : JVal) (b : Booking) : Bool :=
  JVal.strictEq (JVal.str b.bookingId) bookingId

/-- Apply `f` to the first element satisfying `p`: the effect of mutating the object that
`Array.prototype.find` returned, and of `updateOne` on a collection. -/
def updateFirst (p : Booking → Bool) (f : Booking → Booking) : List Booking → List Booking
  | [] => []
  | b :: bs => if p b then f b :: bs else b :: updateFirst p f bs

/-- The object literal passed to `JSON.stringify` in `POST /api/bookings/with-payment`. -/
def paymentQrMembers (env : Env) (bookingId : String) (body : BookingRequest) :
    List (String × JVal) :=
  [("type", JVal.str "EventEase_Ticket"),
   ("bookingId", JVal.str bookingId),
   ("eventTitle", body.eventTitle),
   ("eventDate", body.eventDate),
   ("eventTime", body.eventTime),
   ("eventLocation", body.eventLocation),
   ("userName", body.userName),
   ("ticketQuantity", body.ticketQuantity),
   ("totalAmount", body.totalAmount),
   ("timestamp", JVal.str (env.isoString (env.clock 2))),
   ("verificationUrl", JVal.str ("https://eventease.com/verify/" ++ bookingId))]

/-- The object literal passed to `JSON.stringify` in `POST /api/bookings`. -/
def bookingQrMembers (env : Env) (bookingId : String) (body : BookingRequest) :
    List (String × JVal) :=
  [("type", JVal.str "EventEase_Ticket"),
   ("bookingId", JVal.str bookingId),
   ("eventTitle", body.eventTitle),
   ("userName", body.userName),
   ("ticketQuantity", body.ticketQuantity),
   ("eventDate", body.eventDate),
   ("eventLocation", body.eventLocation),
   ("timestamp", JVal.str (env.isoString (env.clock 2)))]

/-- The response `booking` object built from `bookingData`. -/
def bookingView (env : Env) (b : Booking) : BookingView :=
  { bookingId := b.bookingId
    eventId := toString (env.clock 5)
    eventTitle := b.eventTitle
    eventDate := b.eventDate
    eventTime := b.eventTime
    eventLocation := b.eventLocation
    quantity := b.ticketQuantity
    totalAmount := b.totalAmount
    userName := b.userName
    userEmail := b.userEmail
    userPhone := b.userPhone
    price := b.price
    qrCode := b.qrCode
    status := b.status
    bookingDate := b.bookingDate }

/-- The inner `try { new Booking(data).save() } catch { inMemoryBookings.push(data) }`. -/
def saveBooking (env : Env) (s : Server) (b : Booking) : Server :=
  if env.storeOk 0 then { s with bookingCollection := s.bookingCollection ++ [b] }
  else { s with inMemoryBookings := s.inMemoryBookings ++ [b] }

/-- The object literal `bookingData` of `POST /api/bookings/with-payment`. -/
def paymentBookingData (env : Env) (body : BookingRequest) (qrCode : String) : Booking :=
  { bookingId := generateBookingId (env.clock 0) (env.random36 0)
    eventTitle := body.eventTitle
    eventDate := body.eventDate
    eventTime := body.eventTime
    eventLocation := body.eventLocation
    ticketQuantity := body.ticketQuantity
    totalAmount := body.totalAmount
    userName := body.userName
    userEmail := body.userEmail
    userPhone := JVal.or body.userPhone (JVal.str "N/A")
    price := body.price
    qrCode := qrCode
    bookingDate := env.clock 3
    status := "confirmed"
    paymentStatus := "completed"
    paymentMethod := JVal.or body.paymentMethod (JVal.str "unknown")
    paymentId :=
      JVal.or body.paymentId (JVal.str (generateTransactionId (env.clock 1) (env.random36 1)))
    paymentToken := JVal.or body.paymentToken (JVal.str "N/A")
    paymentDate := some (env.clock 4) }

/-- The response `booking` object of the payment route: the common keys and the three payment
keys. -/
def paymentBookingView (env : Env) (b : Booking) : BookingView :=
  { bookingView env b with
    paymentStatus := JVal.str b.paymentStatus
    paymentMethod := b.paymentMethod
    paymentId := b.paymentId }

/-- Route `POST /api/bookings/with-payment`. The mail is sent without waiting for it and its
outcome is discarded. -/
def postBookingsWithPayment (env : Env) (s : Server) (body : BookingRequest) :
    Server × Response BookingView :=
  if !body.eventTitle.truthy || !body.ticketQuantity.truthy || !body.userName.truthy ||
      !body.userEmail.truthy || !body.totalAmount.truthy then
    (s, { status := 400, success := some false,
          error := some "Missing required booking information" })
  else
    match env.toDataURL (JSON.stringify
        (paymentQrMembers env (generateBookingId (env.clock 0) (env.random36 0)) body)) with
    | Except.error msg =>
      (s, { status := 500, success := some false,
            error := some "Error processing booking with payment", message := some msg })
    | Except.ok qrCode =>
      ((sendConfirmationEmail env (saveBooking env s (paymentBookingData env body qrCode))
          body.userEmail (paymentBookingData env body qrCode)).1,
       { status := 201, success := some true,
         message := some "Payment successful! Booking confirmed.",
         payload := some (paymentBookingView env (paymentBookingData env body qrCode)) })

/-- The object literal `bookingData` of `POST /api/bookings`. -/
def plainBookingData (env : Env) (body : BookingRequest) (qrCode : String) : Booking :=
  { bookingId := generateBookingId (env.clock 0) (env.random36 0)
    eventTitle := body.eventTitle
    eventDate := body.eventDate
    eventTime := body.eventTime
    eventLocation := body.eventLocation
    ticketQuantity := body.ticketQuantity
    totalAmount := JVal.mul (JVal.or body.price (JVal.num 0)) body.ticketQuantity
    userName := body.userName
    userEmail := body.userEmail
    userPhone := JVal.or body.userPhone (JVal.str "N/A")
    price := body.price
    qrCode := qrCode
    bookingDate := env.clock 3
    status := "confirmed"
    paymentStatus := "completed" }

/-- Route `POST /api/bookings`. -/
def postBookings (env : Env) (s : Server) (body : BookingRequest) :
    Server × Response BookingView :=
  if !body.eventTitle.truthy || !body.ticketQuantity.truthy || !body.userName.truthy ||
      !body.userEmail.truthy then
    (s, { status := 400, error := some "Missing required booking information" })
  else
    match env.toDataURL (JSON.stringify
        (bookingQrMembers env (generateBookingId (env.clock 0) (env.random36 0)) body)) with
    | Except.error msg =>
      (s, { status := 500, success := some false,
            error := some "Error creating booking", message := some msg })
    | Except.ok qrCode =>
      (saveBooking env s (plainBookingData env body qrCode),
       { status := 201, success := some true,
         message := some "Booking confirmed successfully",
         payload := some (bookingView env (plainBookingData env body qrCode)) })

/-- The `$set` of the verify route, and its in-memory twin. -/
def markVerified (env : Env) (b : Booking) : Booking :=
  { b with paymentStatus := "completed", status := "confirmed",
           paymentDate := some (env.clock 4) }

/-- Route `POST /api/payments/verify`: the payload is the `verified` key. -/
def postPaymentsVerify (env : Env) (s : Server) (bookingId : JVal) : Server × Response Bool :=
  let s1 :=
    if env.storeOk 0 then
      { s with bookingCollection :=
          updateFirst (idMatches bookingId) (markVerified env) s.bookingCollection }
    else
      { s with inMemoryBookings :=
          updateFirst (idMatches bookingId) (markVerified env) s.inMemoryBookings }
  (s1, { status := 200, success := some true,
         message := some "Payment verified successfully", payload := some true })

/-- The lookup `try { Booking.findOne({ bookingId }) } catch { inMemoryBookings.find(..) }`. -/
def findBooking (env : Env) (s : Server) (bookingId : JVal) : Option Booking :=
  if env.storeOk 0 then s.bookingCollection.find? (idMatches bookingId)
  else s.inMemoryBookings.find? (idMatches bookingId)

/-- Route `GET /api/payments/:bookingId`. -/
def getPayment (env : Env) (s : Server) (bookingId : String) : Response PaymentView :=
  match findBooking env s (JVal.str bookingId) with
  | none => { status := 404, success := some false, error := some "Booking not found" }
  | some booking =>
    { status := 200, success := some true,
      payload := some { bookingId := booking.bookingId
                        paymentStatus := booking.paymentStatus
                        paymentMethod := booking.paymentMethod
                        paymentId := booking.paymentId
                        amount := booking.totalAmount
                        paymentDate := booking.paymentDate } }

/-- Route `GET /api/bookings/:bookingId`. -/
def getBooking (env : Env) (s : Server) (bookingId : String) : Response Booking :=
  match findBooking env s (JVal.str bookingId) with
  | none => { status := 404, success := some false, error := some "Booking not found" }
  | some booking => { status := 200, success := some true, payload := some booking }

/-- The `$set` of the refund route as the schema keeps it. -/
def markRefundedDoc (b : Booking) : Booking :=
  { b with paymentStatus := "refunded", status := "cancelled" }

/-- The three assignments of the refund route on an in-memory booking. -/
def markRefunded (env : Env) (b : Booking) : Booking :=
  { b with paymentStatus := "refunded", status := "cancelled",
           refundDate := some (env.clock 4) }

/-- Route `POST /api/payments/refund`: the payload is `refundAmount`. The second store call is the
`updateOne`; the schema has no `refundDate` or `refundReason` path, so the stored document
only changes its two status fields. When the `updateOne` throws, the fields are assigned on
the object the lookup returned: an element of `inMemoryBookings` when the lookup fell back,
a detached document otherwise. -/
def postPaymentsRefund (env : Env) (s : Server) (bookingId : JVal) :
    Server × Response JVal :=
  match findBooking env s bookingId with
  | none => (s, { status := 404, success := some false, error := some "Booking not found" })
  | some booking =>
    if booking.paymentStatus = "refunded" then
      (s, { status := 400, success := some false, error := some "Payment already refunded" })
    else
      let s1 :=
        if env.storeOk 1 then
          { s with bookingCollection :=
              updateFirst (idMatches bookingId) markRefundedDoc s.bookingCollection }
        else if env.storeOk 0 then s
        else
          { s with inMemoryBookings :=
              updateFirst (idMatches bookingId) (markRefunded env) s.inMemoryBookings }
      (s1, { status := 200, success := some true,
             message := some "Refund processed successfully",
             payload := some booking.totalAmount })

/-- A request to one of the booking and payment routes. -/
inductive Request where
  | bookingWithPayment (body : BookingRequest)
  | booking (body : BookingRequest)
  | paymentsVerify (bookingId : JVal)
  | paymentsRefund (bookingId : JVal)
  | paymentDetails (bookingId : String)
  | bookingDetails (bookingId : String)

/-- The state after the server handles one request, with the status code it answers. -/
def handle (env : Env) (s : Server) : Request → Server × Nat
  | Request.bookingWithPayment body =>
    ((postBookingsWithPayment env s body).1, (postBookingsWithPayment env s body).2.status)
  | Request.booking body => ((postBookings env s body).1, (postBookings env s body).2.status)
  | Request.paymentsVerify bookingId =>
    ((postPaymentsVerify env s bookingId).1, (postPaymentsVerify env s bookingId).2.status)
  | Request.paymentsRefund bookingId =>
    ((postPaymentsRefund env s bookingId).1, (postPaymentsRefund env s bookingId).2.status)
  | Request.paymentDetails bookingId => (s, (getPayment env s bookingId).status)
  | Request.bookingDetails bookingId => (s, (getBooking env s bookingId).status)

/-- The state after a sequence of requests, each with its own environment. -/
def run (s : Server) : List (Env × Request) → Server
  | [] => s
  | (env, r) :: rest => run (handle env s r).1 rest

/-! ## Sign-in -/

/-- A user record as `signup` builds it (`id`) or as the store returns it (`_id`). -/
structure UserRecord where
  id : JVal := JVal.undefined
  _id : JVal := JVal.undefined
  name : JVal := JVal.undefined
  email : JVal := JVal.undefined
  password : JVal := JVal.undefined
  phone : JVal := JVal.undefined
  deriving DecidableEq

/-- The fields `signin` destructures from `req.body`. -/
structure SigninRequest where
  email : JVal := JVal.undefined
  password : JVal := JVal.undefined
  deriving DecidableEq

/-- The `token` and `user` keys of a successful sign-in answer. -/
structure SigninPayload where
  token : String
  id : JVal
  name : JVal
  email : JVal
  deriving DecidableEq

/-- The password and token libraries: `bcrypt.compare(password, hash)` (`none` when it
rejects) and `jwt.sign` on the user id and email. -/
structure Crypto where
  compare : JVal → JVal → Option Bool
  sign : JVal → JVal → String

/-- The two module-level identifiers the auth routes read. A binding is `none` when the module
declares no such identifier, so that reading it throws a ReferenceError; when bound, `User`
stands for the documents of the user collection and `inMemoryUsers` for the array. -/
structure AuthScope where
  User : Option (List UserRecord)
  inMemoryUsers : Option (List UserRecord)

/-- The scope of `server.js`: the file declares `Booking` and `inMemoryBookings`, and neither
`User` nor `inMemoryUsers`. -/
def serverScope : AuthScope := { User := none, inMemoryUsers := none }

/-- The lookup `try { user = await User.findOne({ email }) } catch { user =
inMemoryUsers.find(u => u.email === email) }`: `none` when the fallback itself throws. -/
def findUser (scope : AuthScope) (env : Env) (email : JVal) : Option (Option UserRecord) :=
  let fallback : Option (Option UserRecord) :=
    match scope.inMemoryUsers with
    | some users => some (users.find? (fun u => JVal.strictEq u.email email))
    | none => none
  match scope.User with
  | some docs =>
    if env.storeOk 0 then some (docs.find? (fun u => JVal.strictEq u.email email))
    else fallback
  | none => fallback

/-- The body of the `POST /api/auth/signin` handler, in a given module scope. -/
def signinIn (scope : AuthScope) (crypto : Crypto) (env : Env) (body : SigninRequest) :
    Response SigninPayload :=
  if !body.email.truthy || !body.password.truthy then
    { status := 400, error := some "Email and password required" }
  else
    match findUser scope env body.email with
    | none => { status := 500, error := some "Server error during signin" }
    | some none => { status := 401, error := some "Invalid credentials" }
    | some (some user) =>
      match crypto.compare body.password user.password with
      | none => { status := 500, error := some "Server error during signin" }
      | some false => { status := 401, error := some "Invalid credentials" }
      | some true =>
        { status := 200, message := some "Login successful",
          payload := some { token := crypto.sign (JVal.or user.id user._id) user.email
                            id := JVal.or user.id user._id
                            name := user.name
                            email := user.email } }

/-- Route `POST /api/auth/signin` as `server.js` registers it. -/
def postAuthSignin (crypto : Crypto) (env : Env) (body : SigninRequest) :
    Response SigninPayload :=
  signinIn serverScope crypto env body

/-! ## Properties stated over the model -/

/-- The state gained exactly the booking `b`: appended to the collection (save resolved) or to
`inMemoryBookings` (save threw), the other list untouched. -/
def StoredNew (s s1 : Server) (b : Booking) : Prop :=
  (s1.bookingCollection = s.bookingCollection ++ [b] ∧
      s1.inMemoryBookings = s.inMemoryBookings) ∨
    (s1.inMemoryBookings = s.inMemoryBookings ++ [b] ∧
      s1.bookingCollection = s.bookingCollection)

/-- The lifecycle and payment status values of the booking schema. -/
def validStatus (b : Booking) : Prop :=
  b.status ∈ ["pending", "confirmed", "cancelled", "completed"] ∧
    b.paymentStatus ∈ ["pending", "completed", "failed", "refunded"]

/-- Every booking held in memory or in the collection has schema status values. -/
def StatusInvariant (s : Server) : Prop :=
  ∀ b, b ∈ s.inMemoryBookings ∨ b ∈ s.bookingCollection → validStatus b

/-- The response fields that are neither generated ids nor timestamps nor derived from
them. -/
def stableFields (r : Response BookingView) :
    Nat × Option Bool × Option String × Option (List JVal × String) :=
  (r.status, r.success, r.message,
   r.payload.map (fun v =>
     ([v.eventTitle, v.eventDate, v.eventTime, v.eventLocation, v.quantity, v.totalAmount,
       v.userName, v.userEmail, v.userPhone, v.price, v.paymentStatus, v.paymentMethod],
      v.status)))

/-! ## Sample environments and requests -/

/-- A QR encoder that always succeeds, and its reader. -/
def sampleToDataURL (text : String) : Except String String :=
  Except.ok ("data:image/png;base64," ++ text)

/-- Reads back the text of an image made by `sampleToDataURL`. -/
def sampleScan (img : String) : String := String.mk (img.data.drop 22)

/-- An environment in which every store call throws (in-memory mode). -/
def memoryEnv : Env :=
  { clock := fun _ => 1700000000000
    random36 := fun _ => "0.abcdefghi1"
    isoString := fun _ => "2023-11-14T22:13:20.000Z"
    storeOk := fun _ => false
    mailOk := false
    toDataURL := sampleToDataURL }

/-- The same readings with the store reachable and the mail transport working. -/
def storeEnv : Env :=
  { memoryEnv with storeOk := fun _ => true, mailOk := true }

/-- In-memory mode, same millisecond, another random draw with the same first nine digits. -/
def memoryEnv2 : Env :=
  { memoryEnv with random36 := fun _ => "0.abcdefghi2" }

/-- A complete paid booking request: two tickets at 10. -/
def sampleRequest : BookingRequest :=
  { eventTitle := JVal.str "Concert"
    eventDate := JVal.str "2025-01-01"
    eventTime := JVal.str "18:00"
    eventLocation := JVal.str "Chennai"
    ticketQuantity := JVal.num 2
    userName := JVal.str "Asha"
    userEmail := JVal.str "asha@example.com"
    price := JVal.num 10
    totalAmount := JVal.num 20 }

/-- The same order with a total that is not price times quantity. -/
def underpaidRequest : BookingRequest :=
  { sampleRequest with totalAmount := JVal.num 5 }

/-- Another order, for a different event and buyer. -/
def secondRequest : BookingRequest :=
  { sampleRequest with eventTitle := JVal.str "Workshop", userName := JVal.str "Ravi" }

/-- Password and token libraries for the examples. -/
def sampleCrypto : Crypto :=
  { compare := fun p h => some (decide (p = h))
    sign := fun _ _ => "token" }

/-- A booking that has been refunded. -/
def refundedBooking : Booking :=
  { bookingId := "BK1"
    eventTitle := JVal.str "Concert"
    eventDate := JVal.str "2025-01-01"
    eventTime := JVal.str "18:00"
    eventLocation := JVal.str "Chennai"
    ticketQuantity := JVal.num 2
    totalAmount := JVal.num 20
    userName := JVal.str "Asha"
    userEmail := JVal.str "asha@example.com"
    userPhone := JVal.str "N/A"
    price := JVal.num 10
    qrCode := "data:image/png;base64,"
    bookingDate := 1700000000000
    status := "cancelled"
    paymentStatus := "refunded" }

/-- A server holding the refunded booking in memory. -/
def refundedState : Server := { inMemoryBookings := [refundedBooking] }

/-- A run through all four mutating routes in memory: two bookings, a verify and two
refunds of the second booking's id. -/
def sampleTrace : List (Env × Request) :=
  [(memoryEnv, Request.booking sampleRequest),
   (storeEnv, Request.bookingWithPayment secondRequest),
   (memoryEnv, Request.paymentsVerify (JVal.str "BK1700000000000ABCDEFGHI")),
   (memoryEnv, Request.paymentsRefund (JVal.str "BK1700000000000ABCDEFGHI")),
   (storeEnv, Request.paymentsRefund (JVal.str "BK1700000000000ABCDEFGHI"))]

/-! ## Event objects

The event routes test `if (events_collection)` inside their inner `try`. The file never
declares `events_collection`, so the test throws a ReferenceError, the inner `catch` runs, and
every event route works on `global.inMemoryEvents`. The handlers below are those `catch`
branches. -/

/-- A property value of an event object or of an event request body: a scalar, an array of
scalars (`highlights`, `bookings`) or a `Date`. -/
inductive EVal where
  | scalar (v : JVal)
  | array (items : List JVal)
  | date (ms : Nat)
  deriving DecidableEq

/-- A JavaScript object with string keys: its own properties in property order. An object has
no repeated key. -/
abbrev Obj := List (String × EVal)

/-- ToBoolean on a property value: arrays and dates are objects, hence truthy. -/
def EVal.truthy : EVal → Bool
  | EVal.scalar v => v.truthy
  | EVal.array _ => true
  | EVal.date _ => true

/-- The operator `a || b` on property values. -/
def EVal.or (a b : EVal) : EVal := if a.truthy then a else b

/-- A string as a property value. -/
def EVal.text (s : String) : EVal := EVal.scalar (JVal.str s)

/-- Property read `o.key`; an absent property reads as `undefined`. -/
def objGet (o : Obj) (key : String) : EVal :=
  match o.find? (fun m => m.1 == key) with
  | some m => m.2
  | none => EVal.scalar JVal.undefined

/-- Property write `o.key = v`: an existing property keeps its place, a new one goes last. -/
def objSet : Obj → String → EVal → Obj
  | [], key, v => [(key, v)]
  | m :: rest, key, v => if m.1 = key then (key, v) :: rest else m :: objSet rest key v

/-- The statement `delete o.key`. -/
def objDelete (o : Obj) (key : String) : Obj := o.filter (fun m => m.1 != key)

/-- The object literal `{ ...a, ...b }`. -/
def objSpread (a b : Obj) : Obj := b.foldl (fun acc m => objSet acc m.1 m.2) a

/-- ToString on a scalar. -/
def JVal.toText : JVal → String
  | JVal.undefined => "undefined"
  | JVal.null => "null"
  | JVal.bool true => "true"
  | JVal.bool false => "false"
  | JVal.num n => String.mk (numberToString n)
  | JVal.nan => "NaN"
  | JVal.str s => s

/-- The text of an array element inside `Array.prototype.join`: `undefined` and `null` give
the empty string. -/
def arrayItemText : JVal → String
  | JVal.undefined => ""
  | JVal.null => ""
  | v => v.toText

/-- The leading digits of a text in the given radix (at most 16), as digit values. -/
def leadingDigits (radix : Nat) : List Char → List Nat
  | [] => []
  | c :: cs =>
    match hexValue c with
    | some d => if d < radix then d :: leadingDigits radix cs else []
    | none => []

/-- The integer a run of digit values stands for, with its sign; `NaN` for an empty run. -/
def digitsToInt (neg : Bool) (radix : Nat) (ds : List Nat) : JVal :=
  if ds = [] then JVal.nan
  else
    let n : Int := (ds.foldl (fun acc d => acc * radix + d) 0 : Nat)
    JVal.num (if neg then -n else n)

/-- The call `parseInt(text)` without radix: leading white space, an optional sign, an
optional `0x` or `0X` that selects radix 16, then the longest run of digits; `NaN` when there
is no digit. -/
def parseIntText (text : String) : JVal :=
  let cs := text.data.dropWhile isJsSpace
  let neg := decide (cs.head? = some '-')
  let cs1 := if cs.head? = some '-' ∨ cs.head? = some '+' then cs.drop 1 else cs
  let hex := decide (cs1.take 2 = ['0', 'x'] ∨ cs1.take 2 = ['0', 'X'])
  let radix := if hex then 16 else 10
  let cs2 := if hex then cs1.drop 2 else cs1
  digitsToInt neg radix (leadingDigits radix cs2)

/-- The call `parseInt(v)` on a property value: ToString, then `parseIntText`. The text of a
`Date` starts with the name of a weekday, so it has no leading digit. -/
def parseIntJS : EVal → JVal
  | EVal.scalar v => parseIntText v.toText
  | EVal.array items => parseIntText (String.intercalate "," (items.map arrayItemText))
  | EVal.date _ => JVal.nan

/-- The test `e.eventId === eventId` against a route parameter. -/
def eventIdIs (eventId : String) (e : Obj) : Bool :=
  decide (objGet e "eventId" = EVal.text eventId)

/-- The whole process: the booking state, `global.inMemoryEvents` (`none` while the global is
unset) and the event mails the transport accepted (recipient and event id). -/
structure Process where
  server : Server := {}
  inMemoryEvents : Option (List Obj) := none
  eventMails : List (EVal × EVal) := []
  deriving DecidableEq

/-- The expression `global.inMemoryEvents || []`. -/
def Process.events (p : Process) : List Obj := p.inMemoryEvents.getD []

/-- The event id of the create route: `EVENT-`, the clock reading, the upper-cased suffix. -/
def generateEventId (now : Nat) (rnd : String) : String :=
  "EVENT-" ++ toString now ++ toUpperCase (substr rnd 2 9)

/-- The object literal `eventData` of `POST /api/events/create`; `createdAt` is clock slot
3. -/
def eventData (env : Env) (body : Obj) : Obj :=
  [("eventId", EVal.text (generateEventId (env.clock 0) (env.random36 0))),
   ("title", objGet body "title"),
   ("category", objGet body "category"),
   ("description", objGet body "description"),
   ("date", objGet body "date"),
   ("time", objGet body "time"),
   ("location", objGet body "location"),
   ("venue", objGet body "venue"),
   ("city", objGet body "city"),
   ("state", objGet body "state"),
   ("address", EVal.or (objGet body "address") (EVal.text "")),
   ("price", EVal.scalar (JVal.or (parseIntJS (objGet body "price")) (JVal.num 0))),
   ("maxAttendees",
     EVal.scalar (JVal.or (parseIntJS (objGet body "maxAttendees")) (JVal.num 100))),
   ("attendees", EVal.or (objGet body "attendees") (EVal.scalar (JVal.num 0))),
   ("image", EVal.or (objGet body "image") (EVal.text "")),
   ("highlights", EVal.or (objGet body "highlights") (EVal.array [])),
   ("whatToExpect", EVal.or (objGet body "whatToExpect") (EVal.text "")),
   ("contactEmail", objGet body "contactEmail"),
   ("contactPhone", EVal.or (objGet body "contactPhone") (EVal.text "")),
   ("createdBy", EVal.or (objGet body "createdBy") (EVal.text "Anonymous")),
   ("createdByEmail", EVal.or (objGet body "createdByEmail") (EVal.text "")),
   ("createdAt", EVal.date (env.clock 3)),
   ("status", EVal.text "active"),
   ("bookings", EVal.array [])]

/-- The `event` object of the 201 answer of the create route. -/
def createdEventView (e : Obj) : Obj :=
  [("eventId", objGet e "eventId"),
   ("title", objGet e "title"),
   ("category", objGet e "category"),
   ("date", objGet e "date"),
   ("time", objGet e "time"),
   ("location", objGet e "location"),
   ("price", objGet e "price"),
   ("status", objGet e "status")]

/-- The helper `sendEventCreatedEmail`: a transport failure is caught and answered with
`false`. -/
def sendEventCreatedEmail (env : Env) (p : Process) (email : EVal) (e : Obj) : Process :=
  if env.mailOk then { p with eventMails := p.eventMails ++ [(email, objGet e "eventId")] }
  else p

/-- The required-field test of the create route. -/
def missingEventField (body : Obj) : Bool :=
  !(objGet body "title").truthy || !(objGet body "category").truthy ||
    !(objGet body "description").truthy || !(objGet body "date").truthy ||
    !(objGet body "time").truthy || !(objGet body "location").truthy ||
    !(objGet body "contactEmail").truthy

/-- Route `POST /api/events/create`. -/
def postEventsCreate (env : Env) (p : Process) (body : Obj) : Process × Response Obj :=
  if missingEventField body then
    (p, { status := 400, success := some false, error := some "Missing required fields" })
  else
    (sendEventCreatedEmail env
        { p with inMemoryEvents := some (p.events ++ [eventData env body]) }
        (objGet body "contactEmail") (eventData env body),
     { status := 201, success := some true, message := some "Event created successfully",
       payload := some (createdEventView (eventData env body)) })

/-- Route `GET /api/events/:eventId`. -/
def getEvent (p : Process) (eventId : String) : Response Obj :=
  match p.events.find? (eventIdIs eventId) with
  | none => { status := 404, success := some false, error := some "Event not found" }
  | some e => { status := 200, success := some true, payload := some e }

/-- Replace the first element satisfying `q` by its image under `f`: the assignment
`events[index] = ..` after `findIndex`, and the mutation of the object `find` returned. -/
def replaceFirst (q : Obj → Bool) (f : Obj → Obj) : List Obj → List Obj
  | [] => []
  | e :: es => if q e then f e :: es else e :: replaceFirst q f es

/-- Remove the first element satisfying `q`: `events.splice(index, 1)` after `findIndex`. -/
def removeFirst (q : Obj → Bool) : List Obj → List Obj
  | [] => []
  | e :: es => if q e then es else e :: removeFirst q es

/-- The object `updateData` of the update route: the body without the four protected keys,
with `updatedAt` set to the clock (slot 4). -/
def updateData (env : Env) (body : Obj) : Obj :=
  objSet
    (objDelete (objDelete (objDelete (objDelete body "eventId") "createdAt") "createdBy")
      "createdByEmail")
    "updatedAt" (EVal.date (env.clock 4))

/-- The assignment `events[index] = { ...events[index], ...updateData }` of the update
route. -/
def applyUpdate (env : Env) (body : Obj) (e : Obj) : Obj := objSpread e (updateData env body)

/-- The event list after the update route has replaced the event at the index found. -/
def eventsUpdated (env : Env) (eventId : String) (body : Obj) (events : List Obj) :
    List Obj :=
  replaceFirst (eventIdIs eventId) (applyUpdate env body) events

/-- Route `PUT /api/events/:eventId`. -/
def putEvent (env : Env) (p : Process) (eventId : String) (body : Obj) :
    Process × Response Obj :=
  match p.events.find? (eventIdIs eventId) with
  | none => (p, { status := 404, success := some false, error := some "Event not found" })
  | some e =>
    ({ p with inMemoryEvents := some (eventsUpdated env eventId body p.events) },
     { status := 200, success := some true, message := some "Event updated successfully",
       payload := some (applyUpdate env body e) })

/-- Route `DELETE /api/events/:eventId`. -/
def deleteEvent (p : Process) (eventId : String) : Process × Response Obj :=
  match p.events.find? (eventIdIs eventId) with
  | none => (p, { status := 404, success := some false, error := some "Event not found" })
  | some _ =>
    ({ p with inMemoryEvents := some (removeFirst (eventIdIs eventId) p.events) },
     { status := 200, success := some true, message := some "Event deleted successfully" })

/-- The test `['active', 'cancelled', 'completed', 'draft'].includes(status)`. -/
def isEventStatus (v : EVal) : Bool :=
  decide (v ∈ [EVal.text "active", EVal.text "cancelled", EVal.text "completed",
    EVal.text "draft"])

/-- The two assignments of the status route on the event found; `updatedAt` is clock slot
4. -/
def setStatus (env : Env) (status : EVal) (e : Obj) : Obj :=
  objSet (objSet e "status" status) "updatedAt" (EVal.date (env.clock 4))

/-- The event list after the status route has mutated the event it found. -/
def statusUpdated (env : Env) (eventId : String) (body : Obj) (events : List Obj) :
    List Obj :=
  replaceFirst (eventIdIs eventId) (setStatus env (objGet body "status")) events

/-- Route `PATCH /api/events/:eventId/status`. -/
def patchEventStatus (env : Env) (p : Process) (eventId : String) (body : Obj) :
    Process × Response Obj :=
  if !isEventStatus (objGet body "status") then
    (p, { status := 400, success := some false, error := some "Invalid status" })
  else
    match p.events.find? (eventIdIs eventId) with
    | none => (p, { status := 404, success := some false, error := some "Event not found" })
    | some e =>
      ({ p with inMemoryEvents := some (statusUpdated env eventId body p.events) },
       { status := 200, success := some true,
         message := some "Event status updated successfully",
         payload := some (setStatus env (objGet body "status") e) })

/-! ## Sign-up -/

/-- The fields `signup` destructures from `req.body`. -/
structure SignupRequest where
  name : JVal := JVal.undefined
  email : JVal := JVal.undefined
  password : JVal := JVal.undefined
  phone : JVal := JVal.undefined
  deriving DecidableEq

/-- The object literal `userData` of the sign-up route; the id is clock slot 0. -/
def newUserData (env : Env) (body : SignupRequest) (hashed : JVal) : UserRecord :=
  { id := JVal.str (toString (env.clock 0)), name := body.name, email := body.email,
    password := hashed, phone := body.phone }

/-- The body of the `POST /api/auth/signup` handler, in a given module scope. `hash` is
`bcrypt.hash(password, 10)` (`none` when it rejects); the user id is clock slot 0 and, when
the store saves the document, the id text the store assigned (random slot 1). The scope
returned holds the user where the handler put it. -/
def signupIn (scope : AuthScope) (hash : JVal → Option JVal) (crypto : Crypto) (env : Env)
    (body : SignupRequest) : AuthScope × Response SigninPayload :=
  if !body.name.truthy || !body.email.truthy || !body.password.truthy then
    (scope, { status := 400, error := some "All fields are required" })
  else
    match hash body.password with
    | none => (scope, { status := 500, error := some "Server error during signup" })
    | some hashed =>
      let userData : UserRecord := newUserData env body hashed
      let saved : Option (List UserRecord) :=
        match scope.User with
        | some docs =>
          if env.storeOk 0 then
            some (docs ++ [{ userData with id := JVal.str (env.random36 1),
                                           _id := JVal.str (env.random36 1) }])
          else none
        | none => none
      match saved, scope.inMemoryUsers with
      | some docs, _ =>
        ({ scope with User := some docs },
         { status := 201, message := some "User created successfully",
           payload := some { token := crypto.sign (JVal.str (env.random36 1)) body.email
                             id := JVal.str (env.random36 1)
                             name := body.name
                             email := body.email } })
      | none, none => (scope, { status := 500, error := some "Server error during signup" })
      | none, some users =>
        ({ scope with inMemoryUsers := some (users ++ [userData]) },
         { status := 201, message := some "User created successfully",
           payload := some { token := crypto.sign userData.id body.email
                             id := userData.id
                             name := body.name
                             email := body.email } })

/-- Route `POST /api/auth/signup` as `server.js` registers it. -/
def postAuthSignup (hash : JVal → Option JVal) (crypto : Crypto) (env : Env)
    (body : SignupRequest) : Response SigninPayload :=
  (signupIn serverScope hash crypto env body).2

/-! ## Every registered route -/

/-- The registered routes that write no module state: they read the stores or build a link. -/
inductive ReadRoute where
  | myBookings
  | health
  | root
  | calendarGoogle
  | calendarOutlook
  | eventsList
  | eventsGet
  | myEvents
  | eventBookings
  | eventsSearch
  | categoryCounts
  | featured
  | upcoming

/-- A request to any registered route, with the inputs its state change depends on. -/
inductive Endpoint where
  | booking (r : Request)
  | authSignup (body : SignupRequest)
  | authSignin (body : SigninRequest)
  | eventsCreate (body : Obj)
  | eventsUpdate (eventId : String) (body : Obj)
  | eventsDelete (eventId : String)
  | eventsStatus (eventId : String) (body : Obj)
  | readOnly (route : ReadRoute)

/-- The process state after one request. The auth routes reach no module state in the scope
of `server.js`. -/
def serve (env : Env) (p : Process) : Endpoint → Process
  | Endpoint.booking r => { p with server := (handle env p.server r).1 }
  | Endpoint.authSignup _ => p
  | Endpoint.authSignin _ => p
  | Endpoint.eventsCreate body => (postEventsCreate env p body).1
  | Endpoint.eventsUpdate eventId body => (putEvent env p eventId body).1
  | Endpoint.eventsDelete eventId => (deleteEvent p eventId).1
  | Endpoint.eventsStatus eventId body => (patchEventStatus env p eventId body).1
  | Endpoint.readOnly _ => p

/-- The process state after a sequence of requests, each with its own environment. -/
def serveAll (p : Process) : List (Env × Endpoint) → Process
  | [] => p
  | (env, r) :: rest => serveAll (serve env p r) rest

/-! ## Client payment flow (`app.js`) -/

/-- The page state the payment flow touches: the globals `currentPaymentData` and
`currentBookingEvent`, whether the payment modal and the processing loader are hidden, the
global `currentBookingResult`, the `myBookings` list kept in local storage (as the list its
JSON text parses to), the `currentBookingEvent` and `currentBookingResult` kept in session
storage, the booking shown by the success modal, the notifications shown, and the number of
pending re-open timers. -/
structure Client where
  currentPaymentData : Option Obj := none
  currentBookingEvent : Obj := []
  sessionBookingEvent : Option Obj := none
  paymentModalHidden : Bool := true
  processingHidden : Bool := true
  currentBookingResult : Option Obj := none
  myBookings : List Obj := []
  sessionBookingResult : Option Obj := none
  successModal : Option Obj := none
  notifications : List (String × String) := []
  reopenTimers : Nat := 0
  deriving DecidableEq

/-- What the `fetch` of the booking request comes to: the promise rejects, or there is a
response with its `ok` flag and status whose JSON body either fails to parse (with the
message of the error) or has a `success` value and possibly a `booking` object. -/
inductive PaymentReply where
  | rejected (message : String)
  | response (ok : Bool) (status : Nat) (body : Except String (JVal × Option Obj))

/-- What the `fetch` of the QR service comes to: a rejection or a response that is not OK
(`none`), or the `success` and `qrCode` values of its body. -/
abbrev QrReply := Option (JVal × EVal)

/-- The function `showPaymentModal`. -/
def showPaymentModal (c : Client) (bookingData : Obj) : Client :=
  { c with currentPaymentData := some bookingData, paymentModalHidden := false }

/-- The function `closePaymentModal`. -/
def closePaymentModal (c : Client) : Client :=
  { c with paymentModalHidden := true, currentPaymentData := none }

/-- The function `showProcessingLoader`. -/
def showProcessingLoader (c : Client) : Client := { c with processingHidden := false }

/-- The function `hideProcessingLoader`. -/
def hideProcessingLoader (c : Client) : Client := { c with processingHidden := true }

/-- The function `showNotification`. -/
def showNotification (c : Client) (message kind : String) : Client :=
  { c with notifications := c.notifications ++ [(message, kind)] }

/-- The `catch` block of `processPayment`: hide the loader, notify, and arm the 2000 ms
timer. -/
def paymentFailed (c : Client) (message : String) : Client :=
  let c1 := showNotification (hideProcessingLoader c) ("❌ Payment failed: " ++ message) "error"
  { c1 with reopenTimers := c1.reopenTimers + 1 }

/-- The booking object as `processPayment` completes it: the QR code of the QR service when
that answered with success, the event fields of the payment data where the server sent falsy
ones, and the price of the payment data. -/
def completedBooking (booking paymentData : Obj) (qr : QrReply) : Obj :=
  let b1 :=
    match qr with
    | some (ok, code) => if ok.truthy then objSet booking "qrCode" code else booking
    | none => booking
  let b2 := objSet b1 "eventTitle"
    (EVal.or (objGet b1 "eventTitle") (objGet paymentData "eventTitle"))
  let b3 := objSet b2 "eventDate"
    (EVal.or (objGet b2 "eventDate") (objGet paymentData "eventDate"))
  let b4 := objSet b3 "eventTime"
    (EVal.or (objGet b3 "eventTime") (objGet paymentData "eventTime"))
  let b5 := objSet b4 "eventLocation"
    (EVal.or (objGet b4 "eventLocation") (objGet paymentData "eventLocation"))
  objSet b5 "price" (objGet paymentData "price")

/-- The success branch of `processPayment` once the booking object is complete. -/
def paymentSucceeded (c : Client) (booking : Obj) : Client :=
  showNotification
    { c with currentBookingResult := some booking
             sessionBookingResult := some booking
             myBookings := c.myBookings ++ [booking]
             successModal := some booking }
    "✅ Payment successful! Booking confirmed." "success"

/-- The function `processPayment`. -/
def processPayment (c : Client) (paymentData : Obj) (reply : PaymentReply) (qr : QrReply) :
    Client :=
  let c0 := showProcessingLoader (closePaymentModal c)
  let c1 := { c0 with sessionBookingEvent := some c0.currentBookingEvent }
  match reply with
  | PaymentReply.rejected message => paymentFailed c1 message
  | PaymentReply.response ok status body =>
    let c2 := hideProcessingLoader c1
    if !ok then paymentFailed c2 ("Payment processing failed: " ++ toString status)
    else
      match body with
      | Except.error message => paymentFailed c2 message
      | Except.ok (_, none) => paymentFailed c2 "Invalid response from server"
      | Except.ok (success, some booking) =>
        if success.truthy then paymentSucceeded c2 (completedBooking booking paymentData qr)
        else paymentFailed c2 "Invalid response from server"

/-- The callback of the 2000 ms timer armed by the `catch` block: re-open the payment modal
if `currentPaymentData` is set. -/
def fireReopenTimer (c : Client) : Client :=
  let c1 := { c with reopenTimers := c.reopenTimers - 1 }
  match c1.currentPaymentData with
  | some data => showPaymentModal c1 data
  | none => c1

/-- The same readings five seconds later, in memory. -/
def laterEnv : Env :=
  { memoryEnv with clock := fun _ => 1700000005000 }

/-- A paid order for minus one ticket. -/
def negativeRequest : BookingRequest :=
  { sampleRequest with ticketQuantity := JVal.num (-1), totalAmount := JVal.num (-10) }

/-- The booking record with its status fields and their date stamps blanked. -/
def withoutStatus (b : Booking) : Booking :=
  { b with status := "", paymentStatus := "", paymentDate := none, refundDate := none }

/-- A complete event-creation body: price sent as text, capacity 0, no highlights. -/
def sampleEventBody : Obj :=
  [("title", EVal.text "Tech Meetup"),
   ("category", EVal.text "tech"),
   ("description", EVal.text "Talks"),
   ("date", EVal.text "2025-02-01"),
   ("time", EVal.text "10:00"),
   ("location", EVal.text "Chennai"),
   ("price", EVal.text "250"),
   ("maxAttendees", EVal.scalar (JVal.num 0)),
   ("contactEmail", EVal.text "org@example.com")]

/-- The process after the sample event was created in `memoryEnv`. -/
def oneEvent : Process := (postEventsCreate memoryEnv {} sampleEventBody).1

/-- The process after the sample event was created twice in the same millisecond with random
draws that agree on their first nine digits. -/
def twoEvents : Process := (postEventsCreate memoryEnv2 oneEvent sampleEventBody).1

/-- Every stored event has one of the four status values. -/
def EventStatusInvariant (p : Process) : Prop :=
  ∀ e ∈ p.events, isEventStatus (objGet e "status") = true

/-- A password hasher for the examples: the hash of a password is the password, which
`sampleCrypto.compare` accepts. -/
def sampleHash (password : JVal) : Option JVal := some password

/-- A complete sign-up body. -/
def sampleSignup : SignupRequest :=
  { name := JVal.str "Asha", email := JVal.str "asha@example.com",
    password := JVal.str "secret" }

/-- The payment data the booking form hands to `showPaymentModal`. -/
def samplePaymentData : Obj :=
  [("eventTitle", EVal.text "Concert"),
   ("quantity", EVal.scalar (JVal.num 2)),
   ("userName", EVal.text "Asha"),
   ("price", EVal.scalar (JVal.num 10)),
   ("totalAmount", EVal.scalar (JVal.num 20))]

/-- Whether `processPayment` takes its `catch` block: the request rejects, the response is not
OK, its body does not parse, or the body lacks a truthy `success` or a `booking`. -/
def replyFails : PaymentReply → Bool
  | PaymentReply.rejected _ => true
  | PaymentReply.response ok _ body =>
    !ok ||
      (match body with
       | Except.error _ => true
       | Except.ok (_, none) => true
       | Except.ok (success, some _) => !success.truthy)

/-- The object `processPayment` receives from the demo payment button. -/
def demoPaymentData (data : Obj) : Obj :=
  objSpread data
    [("paymentMethod", EVal.text "demo"),
     ("paymentToken", EVal.text "demo_token_1700000000000"),
     ("paymentId", EVal.text "DEMO1700000000000")]

/-- An order for two tickets of a free event, as the booking form builds it: price 0 and
total `0 * 2`. -/
def freeRequest : BookingRequest :=
  { sampleRequest with price := JVal.num 0, totalAmount := JVal.num 0 }

/-- In memory: a paid booking, its refund, a verify of the same booking id, and a second
refund. -/
def refundTwiceTrace : List (Env × Request) :=
  [(memoryEnv, Request.bookingWithPayment sampleRequest),
   (memoryEnv, Request.paymentsRefund (JVal.str "BK1700000000000ABCDEFGHI")),
   (memoryEnv, Request.paymentsVerify (JVal.str "BK1700000000000ABCDEFGHI"))]

/-! ## Bookings of an event

`GET /api/events/:eventId/bookings` tests `if (bookings_collection)` inside its inner `try`;
the file never declares `bookings_collection`, so the route always filters
`inMemoryBookings`. -/

/-- A `Date` property that may be unset. -/
def dateProp : Option Nat → EVal
  | some ms => EVal.date ms
  | none => EVal.scalar JVal.undefined

/-- The own properties of a booking record: the keys of the `bookingData` literals of the two
booking routes in source order, then `refundDate`, which the refund route assigns. A key the
record does not have yet holds `undefined` here. -/
def Booking.props (b : Booking) : Obj :=
  [("bookingId", EVal.text b.bookingId),
   ("eventTitle", EVal.scalar b.eventTitle),
   ("eventDate", EVal.scalar b.eventDate),
   ("eventTime", EVal.scalar b.eventTime),
   ("eventLocation", EVal.scalar b.eventLocation),
   ("ticketQuantity", EVal.scalar b.ticketQuantity),
   ("totalAmount", EVal.scalar b.totalAmount),
   ("userName", EVal.scalar b.userName),
   ("userEmail", EVal.scalar b.userEmail),
   ("userPhone", EVal.scalar b.userPhone),
   ("price", EVal.scalar b.price),
   ("qrCode", EVal.text b.qrCode),
   ("bookingDate", EVal.date b.bookingDate),
   ("status", EVal.text b.status),
   ("paymentStatus", EVal.text b.paymentStatus),
   ("paymentMethod", EVal.scalar b.paymentMethod),
   ("paymentId", EVal.scalar b.paymentId),
   ("paymentToken", EVal.scalar b.paymentToken),
   ("paymentDate", dateProp b.paymentDate),
   ("refundDate", dateProp b.refundDate)]

/-- The operator `a + b` on scalars: concatenation when an operand is a string, the sum of
the two numbers, rounded to a double, otherwise. -/
def JVal.add (a b : JVal) : JVal :=
  match a, b with
  | JVal.str x, _ => JVal.str (x ++ b.toText)
  | _, JVal.str y => JVal.str (a.toText ++ y)
  | _, _ =>
    match a.toNumber, b.toNumber with
    | JVal.num x, JVal.num y => JVal.num (roundToDouble (x + y))
    | _, _ => JVal.nan

/-- The body of the answer of `GET /api/events/:eventId/bookings`: `count`, the four
`statistics` and `bookings`. -/
structure EventBookings where
  count : Nat
  totalBookings : Nat
  confirmedBookings : Nat
  totalRevenue : JVal
  totalTickets : JVal
  bookings : List Booking
  deriving DecidableEq

/-- The call `bookings.reduce((sum, b) => sum + (b.totalAmount || 0), 0)`. -/
def totalRevenue (bookings : List Booking) : JVal :=
  bookings.foldl (fun sum b => JVal.add sum (JVal.or b.totalAmount (JVal.num 0))) (JVal.num 0)

/-- The call `bookings.reduce((sum, b) => sum + (b.ticketQuantity || 0), 0)`. -/
def totalTickets (bookings : List Booking) : JVal :=
  bookings.foldl (fun sum b => JVal.add sum (JVal.or b.ticketQuantity (JVal.num 0)))
    (JVal.num 0)

/-- The answer body built from the bookings the filter kept. -/
def eventBookingsView (bookings : List Booking) : EventBookings :=
  { count := bookings.length
    totalBookings := bookings.length
    confirmedBookings := (bookings.filter (fun b => decide (b.status = "confirmed"))).length
    totalRevenue := totalRevenue bookings
    totalTickets := totalTickets bookings
    bookings := bookings }

/-- Route `GET /api/events/:eventId/bookings`; the filter is
`b => b.eventId === eventId`. -/
def getEventBookings (s : Server) (eventId : String) : Response EventBookings :=
  { status := 200, success := some true,
    payload := some (eventBookingsView
      (s.inMemoryBookings.filter
        (fun b => decide (objGet b.props "eventId" = EVal.text eventId)))) }

/-- The number a scalar stands for in a sum, for a scalar that is a number. -/
def JVal.intValue : JVal → Int
  | JVal.num n => n
  | _ => 0

/-! ## Listing events -/

/-- The query parameters `GET /api/events` destructures from `req.query`, each absent or a
text. -/
structure EventsQuery where
  category : Option String := none
  search : Option String := none
  status : Option String := none
  deriving DecidableEq

/-- The `count` and `events` keys of a list answer. -/
structure EventList where
  count : Nat
  events : List Obj
  deriving DecidableEq

/-- The call `hay.includes(needle)` on two strings. -/
def includes (hay needle : String) : Bool := decide (needle.data <:+: hay.data)

/-- The expression `v.toLowerCase().includes(needle)`: `none` when it throws a TypeError,
which it does unless `v` is a string. `lower` is `String.prototype.toLowerCase`. -/
def lowerIncludes (lower : String → String) (v : EVal) (needle : String) : Option Bool :=
  match v with
  | EVal.scalar (JVal.str s) => some (includes (lower s) needle)
  | _ => none

/-- The search callback `e => e.title.toLowerCase().includes(searchLower) ||
e.description.toLowerCase().includes(searchLower) ||
e.location.toLowerCase().includes(searchLower)`, the operands evaluated left to right until
one is true. -/
def searchMatches (lower : String → String) (searchLower : String) (e : Obj) : Option Bool :=
  match lowerIncludes lower (objGet e "title") searchLower with
  | none => none
  | some true => some true
  | some false =>
    match lowerIncludes lower (objGet e "description") searchLower with
    | none => none
    | some true => some true
    | some false => lowerIncludes lower (objGet e "location") searchLower

/-- The call `events.filter(f)` for a callback that may throw: `none` when a call throws. -/
def filterThrowing (f : Obj → Option Bool) : List Obj → Option (List Obj)
  | [] => some []
  | e :: es =>
    match f e with
    | none => none
    | some keep =>
      match filterThrowing f es with
      | none => none
      | some kept => some (if keep then e :: kept else kept)

/-- The events left by `if (category) { events = events.filter(e => e.category ===
category) }`. -/
def categoryFiltered (category : Option String) (events : List Obj) : List Obj :=
  match category with
  | none => events
  | some c =>
    if c = "" then events
    else events.filter (fun e => decide (objGet e "category" = EVal.text c))

/-- The events left by the `if (search) { .. }` block, `none` when the callback throws. -/
def searchFiltered (lower : String → String) (search : Option String) (events : List Obj) :
    Option (List Obj) :=
  match search with
  | none => some events
  | some t =>
    if t = "" then some events else filterThrowing (searchMatches lower (lower t)) events

/-- Route `GET /api/events`: the category filter, the search filter and the status filter,
in this order; an error thrown by the search callback reaches the outer `catch`. -/
def getEvents (lower : String → String) (p : Process) (q : EventsQuery) :
    Response EventList :=
  match searchFiltered lower q.search (categoryFiltered q.category p.events) with
  | none => { status := 500, success := some false, error := some "Error fetching events" }
  | some found =>
    { status := 200, success := some true,
      payload := some
        { count :=
            (found.filter
              (fun e => decide (objGet e "status" = EVal.text (q.status.getD "active")))).length
          events :=
            found.filter
              (fun e => decide (objGet e "status" = EVal.text (q.status.getD "active"))) } }

/-- Lower case for ASCII text, for the examples. -/
def asciiLower (s : String) : String := String.mk (s.data.map Char.toLower)

/-- Whether a property value is a string. -/
def EVal.isText : EVal → Bool
  | EVal.scalar (JVal.str _) => true
  | _ => false

/-- The string a property value holds, the empty string for any other value. -/
def EVal.textOr : EVal → String
  | EVal.scalar (JVal.str s) => s
  | _ => ""

/-- Whether a text contains the search text, ignoring letter case. -/
def containsIgnoringCase (lower : String → String) (v : EVal) (search : String) : Bool :=
  includes (lower v.textOr) (lower search)

/-- The events the list route is meant to return: status as asked (default `active`),
category as asked when a non-empty one is given, and title, description or location
containing the search text when a non-empty one is given. -/
def listed (lower : String → String) (q : EventsQuery) (e : Obj) : Bool :=
  decide (objGet e "status" = EVal.text (q.status.getD "active")) &&
    (match q.category with
     | none => true
     | some c => c = "" || decide (objGet e "category" = EVal.text c)) &&
    (match q.search with
     | none => true
     | some t =>
       t = "" || containsIgnoringCase lower (objGet e "title") t ||
         containsIgnoringCase lower (objGet e "description") t ||
         containsIgnoringCase lower (objGet e "location") t)

/-- A creation body whose title is a number. -/
def numericTitleBody : Obj := objSet sampleEventBody "title" (EVal.scalar (JVal.num 2025))

/-! ## Featured events -/

/-- ToNumber on a property value: an array goes through its text, a `Date` is its time
value. -/
def EVal.toNumber : EVal → JVal
  | EVal.scalar v => v.toNumber
  | EVal.array items => stringToNumber (String.intercalate "," (items.map arrayItemText))
  | EVal.date ms => JVal.num ms

/-- The operator `a - b` on two numbers. -/
def JVal.sub (a b : JVal) : JVal :=
  match a, b with
  | JVal.num x, JVal.num y => JVal.num (x - y)
  | _, _ => JVal.nan

/-- The operator `a !== b` on property values of two different events: scalars compare by
value; an array or a `Date` is an object of its own, different from every other value. -/
def EVal.strictNe (a b : EVal) : Bool :=
  match a, b with
  | EVal.scalar x, EVal.scalar y => !JVal.strictEq x y
  | _, _ => true

/-- The time value of `new Date(v)`: that of a `Date`, the clipped number for a number,
`null` or a boolean, `NaN` for `undefined`, and what `Date.parse` makes of a text
(`parseDate`). -/
def timeValue (parseDate : String → JVal) : EVal → JVal
  | EVal.date ms => JVal.num ms
  | EVal.array items => parseDate (String.intercalate "," (items.map arrayItemText))
  | EVal.scalar (JVal.str s) => parseDate s
  | EVal.scalar JVal.undefined => JVal.nan
  | EVal.scalar v =>
    match v.toNumber with
    | JVal.num n => if n.natAbs ≤ 8640000000000000 then JVal.num n else JVal.nan
    | _ => JVal.nan

/-- The comparator of the featured route: `(a, b) => { if (b.attendees !== a.attendees)
return b.attendees - a.attendees; return new Date(b.createdAt) - new Date(a.createdAt) }`. -/
def compareFeatured (parseDate : String → JVal) (a b : Obj) : JVal :=
  if EVal.strictNe (objGet b "attendees") (objGet a "attendees") then
    JVal.sub (objGet b "attendees").toNumber (objGet a "attendees").toNumber
  else
    JVal.sub (timeValue parseDate (objGet b "createdAt"))
      (timeValue parseDate (objGet a "createdAt"))

/-- SortCompare: the number the comparator returned, `NaN` counting as `+0`. -/
def sortOrder (cmp : Obj → Obj → JVal) (a b : Obj) : Int :=
  match (cmp a b).toNumber with
  | JVal.num n => n
  | _ => 0

/-- Insert `a` into a sorted list before the first element it does not have to follow. -/
def insertSorted (cmp : Obj → Obj → JVal) (a : Obj) : List Obj → List Obj
  | [] => [a]
  | b :: l => if sortOrder cmp a b ≤ 0 then a :: b :: l else b :: insertSorted cmp a l

/-- The call `events.sort(cmp)`. The sort is stable, so for a comparator that is a consistent
ordering its result is the one stable insertion computes; for another comparator the order is
left to the engine and this is one of the possible results. -/
def jsSort (cmp : Obj → Obj → JVal) : List Obj → List Obj
  | [] => []
  | a :: l => insertSorted cmp a (jsSort cmp l)

/-- The test `e.status === 'active'`. -/
def isActive (e : Obj) : Bool := decide (objGet e "status" = EVal.text "active")

/-- Route `GET /api/events/featured`: filter, sort, `slice(0, 6)`. -/
def getFeatured (parseDate : String → JVal) (p : Process) : Response EventList :=
  { status := 200, success := some true,
    payload := some
      { count :=
          ((jsSort (compareFeatured parseDate) (p.events.filter isActive)).take 6).length
        events := (jsSort (compareFeatured parseDate) (p.events.filter isActive)).take 6 } }

/-- The attendee count of an event whose `attendees` is a number. -/
def attendeesOf (e : Obj) : Int :=
  match objGet e "attendees" with
  | EVal.scalar (JVal.num n) => n
  | _ => 0

/-- The creation time of an event whose `createdAt` is a `Date`. -/
def createdAtOf (e : Obj) : Nat :=
  match objGet e "createdAt" with
  | EVal.date ms => ms
  | _ => 0

/-- The order of the featured list: more attendees first, then newest first. -/
def FeaturedBefore (a b : Obj) : Prop :=
  attendeesOf b < attendeesOf a ∨
    (attendeesOf b = attendeesOf a ∧ createdAtOf b ≤ createdAtOf a)

/-- The `attendees` of the event is a number and its `createdAt` is a `Date`. -/
def Rankable (e : Obj) : Prop :=
  (∃ n : Int, objGet e "attendees" = EVal.scalar (JVal.num n)) ∧
    ∃ ms : Nat, objGet e "createdAt" = EVal.date ms

/-- Every stored event has a `Date` as `createdAt`. -/
def DatedEvents (p : Process) : Prop :=
  ∀ e ∈ p.events, ∃ ms : Nat, objGet e "createdAt" = EVal.date ms

/-- A date parser for the examples: no text is a date. -/
def noDate (_ : String) : JVal := JVal.nan

/-- Three events created in memory: 5 attendees, then 9 and 5 attendees five seconds
later. -/
def featuredTrace : List (Env × Endpoint) :=
  [(memoryEnv,
      Endpoint.eventsCreate (objSet sampleEventBody "attendees" (EVal.scalar (JVal.num 5)))),
   (laterEnv,
      Endpoint.eventsCreate (objSet sampleEventBody "attendees" (EVal.scalar (JVal.num 9)))),
   (laterEnv,
      Endpoint.eventsCreate (objSet sampleEventBody "attendees" (EVal.scalar (JVal.num 5))))]

/-! ## Route table -/

/-- The HTTP methods the file registers routes for. -/
inductive Method where
  | get
  | post
  | put
  | delete
  | patch
  deriving DecidableEq

/-- A segment of a route path: a literal, or a named parameter (`:name`). -/
inductive Seg where
  | lit (text : String)
  | param (name : String)
  deriving DecidableEq

/-- The handlers of `server.js`, one for each `app.get`, `app.post`, `app.put`, `app.delete`
and `app.patch` call. -/
inductive Handler where
  | bookingsWithPayment
  | paymentsVerify
  | paymentDetails
  | paymentsRefund
  | authSignup
  | authSignin
  | bookings
  | myBookings
  | bookingDetails
  | health
  | root
  | calendarGoogle
  | calendarOutlook
  | healthAgain
  | rootAgain
  | eventsCreate
  | eventsList
  | eventsGet
  | eventsUpdate
  | eventsDelete
  | myEvents
  | eventBookings
  | eventsSearch
  | eventsStatus
  | categoryCounts
  | featured
  | upcoming
  deriving DecidableEq

/-- The route table in registration order (the order of the calls in the file). -/
def routes : List (Method × List Seg × Handler) :=
  [(Method.post, [Seg.lit "api", Seg.lit "bookings", Seg.lit "with-payment"],
      Handler.bookingsWithPayment),
   (Method.post, [Seg.lit "api", Seg.lit "payments", Seg.lit "verify"], Handler.paymentsVerify),
   (Method.get, [Seg.lit "api", Seg.lit "payments", Seg.param "bookingId"],
      Handler.paymentDetails),
   (Method.post, [Seg.lit "api", Seg.lit "payments", Seg.lit "refund"], Handler.paymentsRefund),
   (Method.post, [Seg.lit "api", Seg.lit "auth", Seg.lit "signup"], Handler.authSignup),
   (Method.post, [Seg.lit "api", Seg.lit "auth", Seg.lit "signin"], Handler.authSignin),
   (Method.post, [Seg.lit "api", Seg.lit "bookings"], Handler.bookings),
   (Method.get, [Seg.lit "api", Seg.lit "bookings", Seg.lit "my-bookings"],
      Handler.myBookings),
   (Method.get, [Seg.lit "api", Seg.lit "bookings", Seg.param "bookingId"],
      Handler.bookingDetails),
   (Method.get, [Seg.lit "health"], Handler.health),
   (Method.get, [], Handler.root),
   (Method.post, [Seg.lit "api", Seg.lit "calendar", Seg.lit "google"],
      Handler.calendarGoogle),
   (Method.post, [Seg.lit "api", Seg.lit "calendar", Seg.lit "outlook"],
      Handler.calendarOutlook),
   (Method.get, [Seg.lit "health"], Handler.healthAgain),
   (Method.get, [], Handler.rootAgain),
   (Method.post, [Seg.lit "api", Seg.lit "events", Seg.lit "create"], Handler.eventsCreate),
   (Method.get, [Seg.lit "api", Seg.lit "events"], Handler.eventsList),
   (Method.get, [Seg.lit "api", Seg.lit "events", Seg.param "eventId"], Handler.eventsGet),
   (Method.put, [Seg.lit "api", Seg.lit "events", Seg.param "eventId"], Handler.eventsUpdate),
   (Method.delete, [Seg.lit "api", Seg.lit "events", Seg.param "eventId"],
      Handler.eventsDelete),
   (Method.get, [Seg.lit "api", Seg.lit "events", Seg.lit "my-events", Seg.param "email"],
      Handler.myEvents),
   (Method.get, [Seg.lit "api", Seg.lit "events", Seg.param "eventId", Seg.lit "bookings"],
      Handler.eventBookings),
   (Method.get, [Seg.lit "api", Seg.lit "events", Seg.lit "search"], Handler.eventsSearch),
   (Method.patch, [Seg.lit "api", Seg.lit "events", Seg.param "eventId", Seg.lit "status"],
      Handler.eventsStatus),
   (Method.get, [Seg.lit "api", Seg.lit "events", Seg.lit "categories", Seg.lit "counts"],
      Handler.categoryCounts),
   (Method.get, [Seg.lit "api", Seg.lit "events", Seg.lit "featured"], Handler.featured),
   (Method.get, [Seg.lit "api", Seg.lit "events", Seg.lit "upcoming"], Handler.upcoming)]

/-- Match a route path against the segments of a request path (the path split at `/`, without
the empty segment before the first `/` and the one after a closing `/`): a literal matches
the same text ignoring ASCII case, a parameter matches any non-empty segment and is bound to
it. `none` when the path does not match. -/
def matchPath : List Seg → List String → Option (List (String × String))
  | [], [] => some []
  | Seg.lit text :: segs, s :: rest =>
    if asciiLower text = asciiLower s then matchPath segs rest else none
  | Seg.param name :: segs, s :: rest =>
    if s = "" then none
    else
      match matchPath segs rest with
      | some params => some ((name, s) :: params)
      | none => none
  | _, _ => none

/-- The first route in registration order, of the request's method, whose path matches. -/
def firstMatch (method : Method) (path : List String) :
    List (Method × List Seg × Handler) → Option (Handler × List (String × String))
  | [] => none
  | (m, segs, handler) :: rest =>
    if m = method then
      match matchPath segs path with
      | some params => some (handler, params)
      | none => firstMatch method path rest
    else firstMatch method path rest

/-- The handler that answers a request, with the route parameters: routes are tried in
registration order and the first match handles the request (no handler of the file calls
`next`). -/
def dispatch (method : Method) (path : List String) :
    Option (Handler × List (String × String)) :=
  firstMatch method path routes

/-! ## Client event list (`app.js`) -/

/-- What the `fetch` of `/events?status=active` comes to: the promise rejects, or there is a
response with its `ok` flag whose JSON body either fails to parse or has a `success` value
and possibly an `events` array. -/
inductive EventsReply where
  | rejected
  | response (ok : Bool) (body : Except String (JVal × Option (List Obj)))

/-- The events `loadAllEvents` takes from the backend: `data.events` when the response is OK
and `data.success && data.events` holds, the empty list in every other case. -/
def backendEvents : EventsReply → List Obj
  | EventsReply.rejected => []
  | EventsReply.response ok body =>
    if !ok then []
    else
      match body with
      | Except.error _ => []
      | Except.ok (_, none) => []
      | Except.ok (success, some events) => if success.truthy then events else []

/-- The test `e.eventId === localEvent.id || e.id === localEvent.id`. -/
def sameEvent (e localEvent : Obj) : Bool :=
  !EVal.strictNe (objGet e "eventId") (objGet localEvent "id") ||
    !EVal.strictNe (objGet e "id") (objGet localEvent "id")

/-- The callback of `localEvents.forEach`: push the local event unless
`allEvents.some(..)` finds it. -/
def mergeLocal (allEvents : List Obj) (localEvent : Obj) : List Obj :=
  if allEvents.any (fun e => sameEvent e localEvent) then allEvents
  else allEvents ++ [localEvent]

/-- The function `loadAllEvents`; `localEvents` is the array the `createdEvents` item of
local storage parses to. -/
def loadAllEvents (reply : EventsReply) (localEvents : List Obj) : List Obj :=
  localEvents.foldl mergeLocal (backendEvents reply)

/-- The test `a.id === b.id`. -/
def sameId (a b : Obj) : Bool := !EVal.strictNe (objGet a "id") (objGet b "id")

/-- A list of events with repeated ids removed, the first occurrence kept. -/
def dedupById : List Obj → List Obj
  | [] => []
  | e :: es => e :: (dedupById es).filter (fun x => !sameId e x)

/-- Two locally created events; the `eventId` of the first, read from the clock one
millisecond after its `id`, is the `id` of the second. -/
def localPair : List Obj :=
  [[("id", EVal.text "EVENT-1700000000000"), ("eventId", EVal.text "EVENT-1700000000001"),
    ("title", EVal.text "Tech Meetup")],
   [("id", EVal.text "EVENT-1700000000001"), ("eventId", EVal.text "EVENT-1700000000001"),
    ("title", EVal.text "Workshop")]]

/-- Three locally created events without `eventId`; the third repeats the id of the first. -/
def localRepeated : List Obj :=
  [[("id", EVal.text "EVENT-1700000000000"), ("title", EVal.text "Tech Meetup")],
   [("id", EVal.text "EVENT-1700000005000"), ("title", EVal.text "Workshop")],
   [("id", EVal.text "EVENT-1700000000000"), ("title", EVal.text "Tech Meetup, edited")]]

/-- The `booking` object of a 201 answer, with the QR code of the server. -/
def sampleBookingReply : Obj :=
  [("bookingId", EVal.text "BK1700000000000ABCDEFGHI"),
   ("eventTitle", EVal.text "Concert"),
   ("qrCode", EVal.text "data:image/png;base64,server"),
   ("price", EVal.scalar (JVal.num 10)),
   ("status", EVal.text "confirmed")]

/-- An OK answer of the payment route carrying the sample booking. -/
def sampleOkReply : PaymentReply :=
  PaymentReply.response true 201 (Except.ok (JVal.bool true, some sampleBookingReply))

/-- An answer of the QR service with a code of its own. -/
def sampleQrReply : QrReply :=
  some (JVal.bool true, EVal.text "data:image/png;base64,service")

/-! ## Client sign-in form (`app.js`) -/

/-- The four items of local storage the sign-in form writes; `none` is an item that is not
set. -/
structure AuthStorage where
  isLoggedIn : Option String := none
  userName : Option String := none
  userEmail : Option String := none
  token : Option String := none
  deriving DecidableEq

/-- The body of an OK sign-in response as the handler reads it: `response.json()` rejects;
or `data.user` is `undefined` or `null` (or `data` itself is), so that reading
`data.user.name` throws; or `data.user` is an object, given with the value of
`data.token`. -/
inductive SigninBody where
  | unreadable
  | noUser
  | withUser (user : List (String × JVal)) (token : JVal)

/-- What the `fetch` of the sign-in request comes to: the promise rejects, or there is a
response with its `ok` flag and its body. -/
inductive SigninReply where
  | rejected
  | response (ok : Bool) (body : SigninBody)

/-- The callback `word => word.charAt(0).toUpperCase() + word.slice(1)`, on ASCII text. -/
def capitalize : List Char → List Char
  | [] => []
  | c :: cs => c.toUpper :: cs

/-- The user name of the demo fallback: `email.split('@')[0].replace(/[._-]/g, ' ')
.split(' ').map(capitalize).join(' ')`. -/
def demoUserName (email : String) : String :=
  String.mk (List.intercalate [' ']
    ((((email.data.takeWhile (fun c => c ≠ '@')).map
        (fun c => if c = '.' ∨ c = '_' ∨ c = '-' then ' ' else c)).splitOn ' ').map
      capitalize))

/-- The submit handler of the sign-in form, as far as local storage goes: `email` is the
value of the email field, `now` the reading of `Date.now()` in the fallback branch. An item is
stored as the string of the value passed to `setItem`. -/
def signinSubmit (st : AuthStorage) (email : String) (now : Nat) :
    SigninReply → AuthStorage
  | SigninReply.rejected => st
  | SigninReply.response true SigninBody.unreadable => st
  | SigninReply.response true SigninBody.noUser => { st with isLoggedIn := some "true" }
  | SigninReply.response true (SigninBody.withUser user token) =>
    { isLoggedIn := some "true"
      userName := some (getProp user "name").toText
      userEmail := some (getProp user "email").toText
      token := some token.toText }
  | SigninReply.response false _ =>
    { isLoggedIn := some "true"
      userName := some (demoUserName email)
      userEmail := some email
      token := some ("demo-token-" ++ toString now) }

/-- The reply the client sees for an answer of the sign-in route: OK for a 2xx status; the
body of an OK answer carries the `user` object and the `token`. -/
def signinReplyOf (r : Response SigninPayload) : SigninReply :=
  SigninReply.response (decide (200 ≤ r.status ∧ r.status < 300))
    (match r.payload with
     | some v =>
       SigninBody.withUser [("id", v.id), ("name", v.name), ("email", v.email)]
         (JVal.str v.token)
     | none => SigninBody.noUser)

/-- An order for 94906267 tickets at 94906267 each; the exact product has 54 binary
digits. -/
def largeRequest : BookingRequest :=
  { sampleRequest with price := JVal.num 94906267, ticketQuantity := JVal.num 94906267 }

/-! ## Answers to GET requests -/

/-- Route `GET /api/events/my-events/:email`, on `global.inMemoryEvents`: the filter is
`e => e.createdByEmail === email`. -/
def getMyEvents (p : Process) (email : String) : Response EventList :=
  { status := 200, success := some true,
    payload := some
      { count :=
          (p.events.filter
            (fun e => decide (objGet e "createdByEmail" = EVal.text email))).length
        events :=
          p.events.filter (fun e => decide (objGet e "createdByEmail" = EVal.text email)) } }

/-- The value of a route parameter in `req.params`. -/
def routeParam (params : List (String × String)) (name : String) : String :=
  (params.lookup name).getD ""

/-- What a GET request is answered: the answer of the single-event, my-events or
event-bookings handler, or the name of another handler that takes the request, or the 404 of
the framework when no route matches. -/
inductive Answer where
  | event (r : Response Obj)
  | events (r : Response EventList)
  | eventBookings (r : Response EventBookings)
  | other (handler : Handler)
  | noRoute
  deriving DecidableEq

/-- The answer to a GET request for a path: the route table picks the handler, and the handler
reads its parameters from the path. -/
def answerGet (p : Process) (path : List String) : Answer :=
  match dispatch Method.get path with
  | none => Answer.noRoute
  | some (Handler.eventsGet, params) => Answer.event (getEvent p (routeParam params "eventId"))
  | some (Handler.myEvents, params) =>
    Answer.events (getMyEvents p (routeParam params "email"))
  | some (Handler.eventBookings, params) =>
    Answer.eventBookings (getEventBookings p.server (routeParam params "eventId"))
  | some (handler, _) => Answer.other handler

/-- A process with one paid booking and one event whose creator email is the text
`bookings`. -/
def creatorProcess : Process :=
  { (postEventsCreate memoryEnv {}
      (objSet sampleEventBody "createdByEmail" (EVal.text "bookings"))).1 with
    server := (postBookingsWithPayment memoryEnv {} sampleRequest).1 }

/-! # Theorems -/

/-! ## Booking creation -/

/-- C1: a request with a falsy or absent mandatory field is answered 400 by both booking
routes and leaves the whole server state as it was. -/
theorem missing_field_rejected (env : Env) (s : Server) (body : BookingRequest) :
    ((body.eventTitle.truthy = false ∨ body.ticketQuantity.truthy = false ∨
        body.userName.truthy = false ∨ body.userEmail.truthy = false) →
      (postBookings env s body).2.status = 400 ∧ (postBookings env s body).1 = s) ∧
    ((body.eventTitle.truthy = false ∨ body.ticketQuantity.truthy = false ∨
        body.userName.truthy = false ∨ body.userEmail.truthy = false ∨
        body.totalAmount.truthy = false) →
      (postBookingsWithPayment env s body).2.status = 400 ∧
        (postBookingsWithPayment env s body).1 = s) := by
  constructor
  · intro h
    have hc : (!body.eventTitle.truthy || !body.ticketQuantity.truthy ||
        !body.userName.truthy || !body.userEmail.truthy) = true := by
      rcases h with h | h | h | h <;> simp [h]
    simp [postBookings, hc]
  · intro h
    have hc : (!body.eventTitle.truthy || !body.ticketQuantity.truthy ||
        !body.userName.truthy || !body.userEmail.truthy || !body.totalAmount.truthy) = true := by
      rcases h with h | h | h | h | h <;> simp [h]
    simp [postBookingsWithPayment, hc]

/-- C1 at a store that already holds a booking: the plain route without `userEmail`, the
payment route with `totalAmount` 0. -/
theorem missing_field_rejected_witness :
    ((postBookings memoryEnv (postBookings memoryEnv {} sampleRequest).1
          { sampleRequest with userEmail := JVal.undefined }).2.status = 400 ∧
      (postBookings memoryEnv (postBookings memoryEnv {} sampleRequest).1
          { sampleRequest with userEmail := JVal.undefined }).1 =
        (postBookings memoryEnv {} sampleRequest).1) ∧
    ((postBookingsWithPayment memoryEnv (postBookings memoryEnv {} sampleRequest).1
          { sampleRequest with totalAmount := JVal.num 0 }).2.status = 400 ∧
      (postBookingsWithPayment memoryEnv (postBookings memoryEnv {} sampleRequest).1
          { sampleRequest with totalAmount := JVal.num 0 }).1 =
        (postBookings memoryEnv {} sampleRequest).1) :=
  ⟨(missing_field_rejected memoryEnv (postBookings memoryEnv {} sampleRequest).1
      { sampleRequest with userEmail := JVal.undefined }).1
      (Or.inr (Or.inr (Or.inr rfl))),
   (missing_field_rejected memoryEnv (postBookings memoryEnv {} sampleRequest).1
      { sampleRequest with totalAmount := JVal.num 0 }).2
      (Or.inr (Or.inr (Or.inr (Or.inr rfl))))⟩

/-- The plain booking route answers 201 exactly when the mandatory fields are truthy and the
QR encoder succeeds; it then saves and returns `plainBookingData`. -/
theorem postBookings_accepted (env : Env) (s : Server) (body : BookingRequest)
    (h : (postBookings env s body).2.status = 201) :
    ∃ qrCode : String,
      env.toDataURL (JSON.stringify
        (bookingQrMembers env (generateBookingId (env.clock 0) (env.random36 0)) body)) =
          Except.ok qrCode ∧
      postBookings env s body =
        (saveBooking env s (plainBookingData env body qrCode),
         { status := 201, success := some true,
           message := some "Booking confirmed successfully",
           payload := some (bookingView env (plainBookingData env body qrCode)) }) := by
  by_cases hv : (!body.eventTitle.truthy || !body.ticketQuantity.truthy ||
      !body.userName.truthy || !body.userEmail.truthy) = true
  · simp [postBookings, hv] at h
  · cases hqr : env.toDataURL (JSON.stringify
        (bookingQrMembers env (generateBookingId (env.clock 0) (env.random36 0)) body)) with
    | error msg => simp [postBookings, hv, hqr] at h
    | ok qrCode => exact ⟨qrCode, rfl, by simp [postBookings, hv, hqr]⟩

/-- The payment route answers 201 exactly when the mandatory fields are truthy and the QR
encoder succeeds; it then saves `paymentBookingData`, sends the mail and returns the
booking. -/
theorem postBookingsWithPayment_accepted (env : Env) (s : Server) (body : BookingRequest)
    (h : (postBookingsWithPayment env s body).2.status = 201) :
    ∃ qrCode : String,
      env.toDataURL (JSON.stringify
        (paymentQrMembers env (generateBookingId (env.clock 0) (env.random36 0)) body)) =
          Except.ok qrCode ∧
      postBookingsWithPayment env s body =
        ((sendConfirmationEmail env (saveBooking env s (paymentBookingData env body qrCode))
            body.userEmail (paymentBookingData env body qrCode)).1,
         { status := 201, success := some true,
           message := some "Payment successful! Booking confirmed.",
           payload := some (paymentBookingView env (paymentBookingData env body qrCode)) }) := by
  by_cases hv : (!body.eventTitle.truthy || !body.ticketQuantity.truthy ||
      !body.userName.truthy || !body.userEmail.truthy || !body.totalAmount.truthy) = true
  · simp [postBookingsWithPayment, hv] at h
  · cases hqr : env.toDataURL (JSON.stringify
        (paymentQrMembers env (generateBookingId (env.clock 0) (env.random36 0)) body)) with
    | error msg => simp [postBookingsWithPayment, hv, hqr] at h
    | ok qrCode => exact ⟨qrCode, rfl, by simp [postBookingsWithPayment, hv, hqr]⟩

/-- What `saveBooking` does to the two lists. -/
theorem saveBooking_storedNew (env : Env) (s : Server) (b : Booking) :
    StoredNew s (saveBooking env s b) b := by
  unfold saveBooking StoredNew
  split <;> simp

/-- Sending the mail touches neither list of bookings. -/
theorem sendConfirmationEmail_bookings (env : Env) (s : Server) (rcpt : JVal) (b : Booking) :
    (sendConfirmationEmail env s rcpt b).1.inMemoryBookings = s.inMemoryBookings ∧
      (sendConfirmationEmail env s rcpt b).1.bookingCollection = s.bookingCollection := by
  unfold sendConfirmationEmail
  split <;> simp

/-- Saving then mailing adds exactly the saved booking. -/
theorem save_then_mail_storedNew (env : Env) (s : Server) (rcpt : JVal) (b : Booking) :
    StoredNew s (sendConfirmationEmail env (saveBooking env s b) rcpt b).1 b := by
  have h1 := saveBooking_storedNew env s b
  have h2 := sendConfirmationEmail_bookings env (saveBooking env s b) rcpt b
  unfold StoredNew at h1 ⊢
  rw [h2.1, h2.2]
  exact h1

/-- Nothing is dropped from a number below `2^53`. -/
theorem dropBits_small (n fuel : Nat) (h : n < 2 ^ 53) : dropBits fuel n = 0 := by
  cases fuel with
  | zero => rfl
  | succ f => simp only [dropBits, if_pos h]

/-- A natural number below `2^53` is a double. -/
theorem roundNat_small (n : Nat) (h : n < 2 ^ 53) : roundNat n = n := by
  unfold roundNat
  rw [dropBits_small n n h]
  simp [Nat.mod_one]

/-- An integer of magnitude below `2^53` is a double. -/
theorem roundToDouble_small (z : Int) (h : z.natAbs < 2 ^ 53) : roundToDouble z = z := by
  cases z with
  | ofNat n =>
    have hn : n < 2 ^ 53 := by simpa using h
    simp [roundToDouble, roundNat_small n hn]
  | negSucc n =>
    have hn : n + 1 < 2 ^ 53 := by simpa [Int.natAbs] using h
    simp only [roundToDouble, roundNat_small (n + 1) hn]
    rfl

/-- C2 fails beyond `2^53`: an order for 94906267 tickets at 94906267 each is accepted, and
the stored and returned `totalAmount` is 9007199515875288, the double nearest to the product,
while price times quantity is 9007199515875289. -/
theorem large_total_is_rounded :
    (postBookings memoryEnv {} largeRequest).2.status = 201 ∧
    (postBookings memoryEnv {} largeRequest).2.payload.map (fun v => v.totalAmount) =
      some (JVal.num 9007199515875288) ∧
    (postBookings memoryEnv {} largeRequest).1.inMemoryBookings.map
        (fun b => b.totalAmount) = [JVal.num 9007199515875288] ∧
    (94906267 : Int) * 94906267 = 9007199515875289 ∧
    (postBookings memoryEnv {} largeRequest).2.payload.map (fun v => v.totalAmount) ≠
      some (JVal.num (94906267 * 94906267)) := by
  decide

/-- C2 as amended: an accepted `POST /api/bookings` with integer price `p` (0 when the field
is absent) and integer quantity `q` stores one booking and answers with a booking, both with
`totalAmount` the double nearest to `p * q` (as long as that is a finite double), which is
`p * q` itself whenever the product is below `2^53` in magnitude. -/
theorem booking_total_is_price_times_quantity (env : Env) (s : Server) (body : BookingRequest)
    (p q : Int)
    (hp : body.price = JVal.num p ∨ (body.price = JVal.undefined ∧ p = 0))
    (hq : body.ticketQuantity = JVal.num q)
    (h : (postBookings env s body).2.status = 201) :
    ∃ (b : Booking) (v : BookingView),
      StoredNew s (postBookings env s body).1 b ∧
      (postBookings env s body).2.payload = some v ∧
      v.bookingId = b.bookingId ∧
      ((roundToDouble (p * q)).natAbs < 2 ^ 1024 →
        b.totalAmount = JVal.num (roundToDouble (p * q)) ∧
          v.totalAmount = JVal.num (roundToDouble (p * q))) ∧
      ((p * q).natAbs < 2 ^ 53 →
        b.totalAmount = JVal.num (p * q) ∧ v.totalAmount = JVal.num (p * q)) := by
  obtain ⟨qr, -, hb⟩ := postBookings_accepted env s body h
  have hmul : JVal.mul (JVal.or body.price (JVal.num 0)) body.ticketQuantity =
      JVal.num (roundToDouble (p * q)) := by
    rcases hp with hp | ⟨hp, hp0⟩
    · by_cases hz : p = 0
      · simp [hp, hq, hz, JVal.or, JVal.truthy, JVal.mul, JVal.toNumber]
      · simp [hp, hq, hz, JVal.or, JVal.truthy, JVal.mul, JVal.toNumber]
    · simp [hp, hq, hp0, JVal.or, JVal.truthy, JVal.mul, JVal.toNumber]
  have hexact : (p * q).natAbs < 2 ^ 53 →
      JVal.mul (JVal.or body.price (JVal.num 0)) body.ticketQuantity = JVal.num (p * q) := by
    intro hs
    rw [hmul, roundToDouble_small _ hs]
  refine ⟨plainBookingData env body qr, bookingView env (plainBookingData env body qr),
    ?_, ?_, rfl, fun _ => ⟨hmul, hmul⟩, fun hs => ⟨hexact hs, hexact hs⟩⟩
  · rw [hb]; exact saveBooking_storedNew env s _
  · rw [hb]

/-- C2 as amended, at three tickets of price 250 in memory, and at a request without price
saved to the store: the totals are 750 and 0. -/
theorem booking_total_is_price_times_quantity_witness :
    (∃ (b : Booking) (v : BookingView),
      StoredNew {} (postBookings memoryEnv {}
        { sampleRequest with price := JVal.num 250, ticketQuantity := JVal.num 3 }).1 b ∧
      (postBookings memoryEnv {}
        { sampleRequest with price := JVal.num 250, ticketQuantity := JVal.num 3 }).2.payload
          = some v ∧
      v.bookingId = b.bookingId ∧
      b.totalAmount = JVal.num (250 * 3) ∧ v.totalAmount = JVal.num (250 * 3)) ∧
    (∃ (b : Booking) (v : BookingView),
      StoredNew {} (postBookings storeEnv {}
        { sampleRequest with price := JVal.undefined }).1 b ∧
      (postBookings storeEnv {} { sampleRequest with price := JVal.undefined }).2.payload
          = some v ∧
      v.bookingId = b.bookingId ∧
      b.totalAmount = JVal.num (0 * 2) ∧ v.totalAmount = JVal.num (0 * 2)) := by
  obtain ⟨b, v, h1, h2, h3, -, h5⟩ := booking_total_is_price_times_quantity memoryEnv {}
      { sampleRequest with price := JVal.num 250, ticketQuantity := JVal.num 3 } 250 3
      (Or.inl rfl) rfl (by decide)
  obtain ⟨b2, v2, k1, k2, k3, -, k5⟩ := booking_total_is_price_times_quantity storeEnv {}
      { sampleRequest with price := JVal.undefined } 0 2
      (Or.inr ⟨rfl, rfl⟩) rfl (by decide)
  exact ⟨⟨b, v, h1, h2, h3, h5 (by decide)⟩, ⟨b2, v2, k1, k2, k3, k5 (by decide)⟩⟩


/-- C3 fails: a paid request for two tickets at 10 with `totalAmount` 5 is answered 201, and
the stored and returned `totalAmount` is 5 while price times quantity is 20. -/
theorem payment_total_not_recomputed :
    (postBookingsWithPayment memoryEnv {} underpaidRequest).2.status = 201 ∧
    (postBookingsWithPayment memoryEnv {} underpaidRequest).2.payload.map
        (fun v => (v.price, v.quantity, v.totalAmount)) =
      some (JVal.num 10, JVal.num 2, JVal.num 5) ∧
    (postBookingsWithPayment memoryEnv {} underpaidRequest).1.inMemoryBookings.map
        (fun b => (b.price, b.ticketQuantity, b.totalAmount)) =
      [(JVal.num 10, JVal.num 2, JVal.num 5)] ∧
    JVal.mul (JVal.num 10) (JVal.num 2) = JVal.num 20 := by
  decide

/-- C3 as amended: a booking created by the payment route carries the `totalAmount`, `price`
and `ticketQuantity` of the request unchanged, in the store and in the answer; so the total is
price times quantity whenever the request was built that way, as the client form does. -/
theorem payment_total_is_request_total (env : Env) (s : Server) (body : BookingRequest)
    (h : (postBookingsWithPayment env s body).2.status = 201) :
    ∃ (b : Booking) (v : BookingView),
      StoredNew s (postBookingsWithPayment env s body).1 b ∧
      (postBookingsWithPayment env s body).2.payload = some v ∧
      v.bookingId = b.bookingId ∧
      b.totalAmount = body.totalAmount ∧ v.totalAmount = body.totalAmount ∧
      b.price = body.price ∧ v.price = body.price ∧
      b.ticketQuantity = body.ticketQuantity ∧ v.quantity = body.ticketQuantity ∧
      (body.totalAmount = JVal.mul body.price body.ticketQuantity →
        b.totalAmount = JVal.mul b.price b.ticketQuantity ∧
          v.totalAmount = JVal.mul v.price v.quantity) := by
  obtain ⟨qr, -, hb⟩ := postBookingsWithPayment_accepted env s body h
  refine ⟨paymentBookingData env body qr,
    paymentBookingView env (paymentBookingData env body qr),
    ?_, ?_, rfl, rfl, rfl, rfl, rfl, rfl, rfl, ?_⟩
  · rw [hb]; exact save_then_mail_storedNew env s _ _
  · rw [hb]
  · intro ht
    exact ⟨ht, ht⟩

/-- C3 as amended, at the complete sample request (two tickets at 10, total 20). -/
theorem payment_total_is_request_total_witness :
    ∃ (b : Booking) (v : BookingView),
      StoredNew {} (postBookingsWithPayment storeEnv {} sampleRequest).1 b ∧
      (postBookingsWithPayment storeEnv {} sampleRequest).2.payload = some v ∧
      v.bookingId = b.bookingId ∧
      b.totalAmount = sampleRequest.totalAmount ∧ v.totalAmount = sampleRequest.totalAmount ∧
      b.price = sampleRequest.price ∧ v.price = sampleRequest.price ∧
      b.ticketQuantity = sampleRequest.ticketQuantity ∧
      v.quantity = sampleRequest.ticketQuantity ∧
      (sampleRequest.totalAmount = JVal.mul sampleRequest.price sampleRequest.ticketQuantity →
        b.totalAmount = JVal.mul b.price b.ticketQuantity ∧
          v.totalAmount = JVal.mul v.price v.quantity) :=
  payment_total_is_request_total storeEnv {} sampleRequest (by decide)

/-! ## Refund -/

/-- Looking up after `updateFirst` finds the updated element, when the update keeps the
element matching. -/
theorem find_updateFirst (p : Booking → Bool) (f : Booking → Booking)
    (hpf : ∀ b, p b = true → p (f b) = true) (l : List Booking) :
    (updateFirst p f l).find? p = (l.find? p).map f := by
  induction l with
  | nil => rfl
  | cons b bs ih =>
    by_cases hb : p b = true
    · simp [updateFirst, hb, hpf b hb]
    · simp [updateFirst, hb, ih]

/-- The in-memory refund assignments keep the booking id. -/
theorem idMatches_markRefunded (env : Env) (bookingId : JVal) (b : Booking)
    (h : idMatches bookingId b = true) : idMatches bookingId (markRefunded env b) = true := h

/-- A refund for a booking found already refunded is answered 400 and changes nothing. -/
theorem refund_of_refunded (env : Env) (s : Server) (bookingId : JVal) (b : Booking)
    (hb : findBooking env s bookingId = some b) (hr : b.paymentStatus = "refunded") :
    postPaymentsRefund env s bookingId =
      (s, { status := 400, success := some false,
            error := some "Payment already refunded" }) := by
  simp [postPaymentsRefund, hb, hr]

/-- C4: a refund for a booking whose `paymentStatus` is already `refunded` is answered 400
`Payment already refunded` and changes nothing; and when every store call throws, a refund
answered 200 is followed by a 400 for the same booking id, again changing nothing. -/
theorem refund_rejected_when_refunded (env env2 : Env) (s : Server) (bookingId : JVal) :
    (∀ b, findBooking env s bookingId = some b → b.paymentStatus = "refunded" →
      postPaymentsRefund env s bookingId =
        (s, { status := 400, success := some false,
              error := some "Payment already refunded" })) ∧
    (env.storeOk 0 = false → env.storeOk 1 = false → env2.storeOk 0 = false →
      (postPaymentsRefund env s bookingId).2.status = 200 →
      postPaymentsRefund env2 (postPaymentsRefund env s bookingId).1 bookingId =
        ((postPaymentsRefund env s bookingId).1,
         { status := 400, success := some false,
           error := some "Payment already refunded" })) := by
  constructor
  · intro b hb hr
    exact refund_of_refunded env s bookingId b hb hr
  · intro h0 h1 h2 hok
    cases hf : s.inMemoryBookings.find? (idMatches bookingId) with
    | none => simp [postPaymentsRefund, findBooking, h0, hf] at hok
    | some b =>
      by_cases hr : b.paymentStatus = "refunded"
      · simp [postPaymentsRefund, findBooking, h0, hf, hr] at hok
      · have hs : (postPaymentsRefund env s bookingId).1 =
            { s with inMemoryBookings :=
                updateFirst (idMatches bookingId) (markRefunded env) s.inMemoryBookings } := by
          simp [postPaymentsRefund, findBooking, h0, h1, hf, hr]
        have hfind : findBooking env2 (postPaymentsRefund env s bookingId).1 bookingId =
            some (markRefunded env b) := by
          rw [hs]
          simp only [findBooking, h2]
          rw [if_neg (by simp)]
          rw [find_updateFirst _ _ (idMatches_markRefunded env bookingId), hf]
          rfl
        exact refund_of_refunded env2 _ bookingId _ hfind rfl

/-- C4 at a stored refunded booking, and at a booking made and refunded in memory whose
second refund is answered 400. -/
theorem refund_rejected_when_refunded_witness :
    postPaymentsRefund memoryEnv refundedState (JVal.str "BK1") =
      (refundedState, { status := 400, success := some false,
                        error := some "Payment already refunded" }) ∧
    postPaymentsRefund memoryEnv
        (postPaymentsRefund memoryEnv (postBookingsWithPayment memoryEnv {} sampleRequest).1
          (JVal.str "BK1700000000000ABCDEFGHI")).1
        (JVal.str "BK1700000000000ABCDEFGHI") =
      ((postPaymentsRefund memoryEnv (postBookingsWithPayment memoryEnv {} sampleRequest).1
          (JVal.str "BK1700000000000ABCDEFGHI")).1,
       { status := 400, success := some false, error := some "Payment already refunded" }) :=
  ⟨(refund_rejected_when_refunded memoryEnv memoryEnv refundedState (JVal.str "BK1")).1
      refundedBooking rfl rfl,
   (refund_rejected_when_refunded memoryEnv memoryEnv
      (postBookingsWithPayment memoryEnv {} sampleRequest).1
      (JVal.str "BK1700000000000ABCDEFGHI")).2 rfl rfl rfl (by decide)⟩

/-! ## Sign-in -/

/-- In the scope of `server.js` the user lookup throws in the `try` and again in the `catch`:
neither `User` nor `inMemoryUsers` is bound. -/
theorem findUser_serverScope (env : Env) (email : JVal) :
    findUser serverScope env email = none := rfl

/-- With non-empty email and password the registered sign-in handler answers 500, whoever the
user is. -/
theorem postAuthSignin_server_error (crypto : Crypto) (env : Env) (body : SigninRequest)
    (he : body.email.truthy = true) (hp : body.password.truthy = true) :
    postAuthSignin crypto env body =
      { status := 500, error := some "Server error during signin" } := by
  simp [postAuthSignin, signinIn, he, hp, findUser_serverScope]

/-- Had the module bound both identifiers, an unknown email and a wrong password would get the
same 401 answer without token. -/
theorem signinIn_bound_rejects (docs users : List UserRecord) (crypto : Crypto) (env : Env)
    (body : SigninRequest) (he : body.email.truthy = true) (hp : body.password.truthy = true)
    (hbad : ∀ u, findUser { User := some docs, inMemoryUsers := some users } env body.email
        = some (some u) → crypto.compare body.password u.password = some false)
    : signinIn { User := some docs, inMemoryUsers := some users } crypto env body =
      { status := 401, error := some "Invalid credentials" } := by
  unfold signinIn
  simp only [he, hp, Bool.not_true, Bool.or_self, Bool.false_eq_true, if_false]
  cases hf : findUser { User := some docs, inMemoryUsers := some users } env body.email with
  | none =>
    exfalso
    unfold findUser at hf
    simp only at hf
    split at hf <;> simp at hf
  | some r =>
    cases r with
    | none => rfl
    | some u => simp [hbad u hf]

/-- C5 on the code: a sign-in with non-empty email and password for which no user is stored
is answered 500 `Server error during signin`, not 401 `Invalid credentials`. -/
theorem signin_unknown_email_is_500 :
    postAuthSignin sampleCrypto memoryEnv
        { email := JVal.str "nobody@example.com", password := JVal.str "secret" } =
      { status := 500, error := some "Server error during signin" } := by
  decide

/-! ## Decimal digits -/

/-- The digit characters below ten are digits and carry their value. -/
theorem digitChar_value : ∀ m, m < 10 →
    (Nat.digitChar m).isDigit = true ∧ (Nat.digitChar m).toNat - 48 = m ∧
      (Nat.digitChar m = '0' → m = 0) := by
  decide

/-- Reading a digit run in two pieces. -/
theorem digitsValue_append (ds es : List Char) : ∀ k,
    digitsValue k (ds ++ es) = (digitsValue k ds).bind (fun v => digitsValue v es) := by
  induction ds with
  | nil => intro k; rfl
  | cons c cs ih =>
    intro k
    by_cases hc : c.isDigit = true
    · simp [digitsValue, hc, ih]
    · simp [digitsValue, hc]

/-- The digits `Nat.toDigitsCore` puts in front of its accumulator: a non-empty run of digit
characters whose value is `n`, with no leading zero unless `n = 0`. -/
theorem toDigitsCore_spec : ∀ (fuel n : Nat) (acc : List Char), n < fuel →
    ∃ ds : List Char, Nat.toDigitsCore 10 fuel n acc = ds ++ acc ∧
      (∀ c ∈ ds, c.isDigit = true) ∧
      (∀ k, digitsValue k ds = some (k * 10 ^ ds.length + n)) ∧
      ds ≠ [] ∧ (ds.head? = some '0' → ds.length = 1) := by
  intro fuel
  induction fuel with
  | zero => intro n acc h; omega
  | succ fuel ih =>
    intro n acc hn
    by_cases hz : n / 10 = 0
    · have hlt : n < 10 := by omega
      have hmod : n % 10 = n := Nat.mod_eq_of_lt hlt
      obtain ⟨hd, hv, -⟩ := digitChar_value n hlt
      refine ⟨[Nat.digitChar n], ?_, ?_, ?_, ?_, ?_⟩
      · simp [Nat.toDigitsCore, hz, hmod]
      · simp [hd]
      · intro k
        simp [digitsValue, hd, hv]
      · simp
      · simp
    · have hlt : n / 10 < fuel := by omega
      obtain ⟨ds, hds, hall, hval, hne, hhead⟩ :=
        ih (n / 10) (Nat.digitChar (n % 10) :: acc) hlt
      have hm : n % 10 < 10 := Nat.mod_lt _ (by decide)
      obtain ⟨hd, hv, -⟩ := digitChar_value (n % 10) hm
      refine ⟨ds ++ [Nat.digitChar (n % 10)], ?_, ?_, ?_, ?_, ?_⟩
      · simp [Nat.toDigitsCore, hz, hds]
      · intro c hc
        rcases List.mem_append.1 hc with h | h
        · exact hall c h
        · simp at h; rw [h]; exact hd
      · intro k
        rw [digitsValue_append, hval k]
        simp only [Option.some_bind, digitsValue, hd, if_true, hv, List.length_append,
          List.length_singleton, pow_succ]
        congr 1
        have := Nat.div_add_mod n 10
        nlinarith [this]
      · simp
      · intro h0
        exfalso
        cases ds with
        | nil => exact hne rfl
        | cons d ds' =>
          simp at h0
          have h1 := hhead (by simp [h0])
          have hv1 := hval 0
          simp at h1
          subst h1
          subst h0
          simp [digitsValue] at hv1
          have : ('0' : Char).toNat - 48 = 0 := by decide
          omega

/-- The list `Nat.toDigits 10 n` is a non-empty run of digit characters of value `n`, with no leading
zero unless it is the single digit `0`. -/
theorem toDigits_spec (n : Nat) :
    (∀ c ∈ Nat.toDigits 10 n, c.isDigit = true) ∧
      digitsValue 0 (Nat.toDigits 10 n) = some n ∧
      Nat.toDigits 10 n ≠ [] ∧
      ((Nat.toDigits 10 n).head? = some '0' → (Nat.toDigits 10 n).length = 1) := by
  obtain ⟨ds, hds, hall, hval, hne, hhead⟩ := toDigitsCore_spec (n + 1) n [] (Nat.lt_succ_self n)
  have h : Nat.toDigits 10 n = ds := by
    unfold Nat.toDigits
    rw [hds, List.append_nil]
  rw [h]
  refine ⟨hall, ?_, hne, hhead⟩
  rw [hval 0]
  simp

/-- Two numbers with the same decimal digits are equal. -/
theorem toDigits_injective (a b : Nat) (h : Nat.toDigits 10 a = Nat.toDigits 10 b) : a = b := by
  have ha := (toDigits_spec a).2.1
  have hb := (toDigits_spec b).2.1
  rw [h, hb] at ha
  exact (Option.some.inj ha).symm

/-! ## Booking identifiers -/

/-- The characters of a booking id: `BK`, the decimal clock reading, the upper-cased
suffix. -/
theorem generateBookingId_data (now : Nat) (rnd : String) :
    (generateBookingId now rnd).data =
      'B' :: 'K' :: (Nat.toDigits 10 now ++ (toUpperCase (substr rnd 2 9)).data) := by
  simp [generateBookingId, String.data_append]
  rfl

/-- C7 fails: two calls in the same millisecond whose random draws differ only after the
ninth base-36 digit return the same id, and two bookings made from them share their
`bookingId` in the store. -/
theorem booking_id_collision :
    (1700000000000, "0.abcdefghi1") ≠ (1700000000000, "0.abcdefghi2") ∧
    generateBookingId 1700000000000 "0.abcdefghi1" =
      generateBookingId 1700000000000 "0.abcdefghi2" ∧
    (postBookingsWithPayment memoryEnv2
        (postBookingsWithPayment memoryEnv {} sampleRequest).1
        secondRequest).1.inMemoryBookings.map (fun b => b.bookingId) =
      ["BK1700000000000ABCDEFGHI", "BK1700000000000ABCDEFGHI"] := by
  decide

/-- C7 as amended: for two calls whose clock readings have the same number of decimal digits,
the ids are equal exactly when the clock readings are equal and the upper-cased nine-character
suffixes cut from the random draws are equal; otherwise they differ. -/
theorem booking_id_unique_up_to_time_and_suffix (t1 t2 : Nat) (r1 r2 : String)
    (hlen : (toString t1).length = (toString t2).length) :
    generateBookingId t1 r1 = generateBookingId t2 r2 ↔
      t1 = t2 ∧ toUpperCase (substr r1 2 9) = toUpperCase (substr r2 2 9) := by
  constructor
  · intro h
    have hd := congrArg String.data h
    rw [generateBookingId_data, generateBookingId_data] at hd
    have hd2 : Nat.toDigits 10 t1 ++ (toUpperCase (substr r1 2 9)).data =
        Nat.toDigits 10 t2 ++ (toUpperCase (substr r2 2 9)).data := by
      simpa using hd
    have hl : (Nat.toDigits 10 t1).length = (Nat.toDigits 10 t2).length := hlen
    obtain ⟨h1, h2⟩ := List.append_inj hd2 hl
    exact ⟨toDigits_injective t1 t2 h1, String.ext h2⟩
  · rintro ⟨h1, h2⟩
    simp [generateBookingId, h1, h2]

/-- C7 as amended, at two calls one millisecond apart with the same random draw. -/
theorem booking_id_unique_up_to_time_and_suffix_witness :
    (toString 1700000000000).length = (toString 1700000000001).length ∧
    (generateBookingId 1700000000000 "0.abcdefghi1" =
        generateBookingId 1700000000001 "0.abcdefghi1" ↔
      1700000000000 = 1700000000001 ∧
        toUpperCase (substr "0.abcdefghi1" 2 9) = toUpperCase (substr "0.abcdefghi1" 2 9)) :=
  ⟨by decide,
   booking_id_unique_up_to_time_and_suffix 1700000000000 1700000000001
     "0.abcdefghi1" "0.abcdefghi1" (by decide)⟩

/-! ## JSON strings -/

/-- A character is determined by its code. -/
theorem char_eq_ofNat (c : Char) (n : Nat) (h : c.toNat = n) : c = Char.ofNat n := by
  rw [← h, Char.ofNat_toNat]

/-- The `\u00XX` escape written for a control character reads back as that character. -/
theorem codeUnitChar_control : ∀ n, n < 32 →
    codeUnitChar '0' '0' (Nat.digitChar (n / 16)) (Nat.digitChar (n % 16)) =
      some (Char.ofNat n) := by
  decide

/-- One escaped character is read back as that character. -/
theorem parseStringBody_escapeChar (c : Char) (fuel : Nat) (tail cs r : List Char)
    (h : parseStringBody fuel tail = some (cs, r)) :
    parseStringBody (fuel + 1) (escapeChar c ++ tail) = some (c :: cs, r) := by
  unfold escapeChar
  split_ifs with h1 h2 h3 h4 h5 h6 h7 h8
  · subst h1
    simp [parseStringBody, simpleEscape, h, dquote, backslash]
  · subst h2
    simp [parseStringBody, simpleEscape, h, dquote, backslash]
  · have := char_eq_ofNat c 8 h3
    subst this
    simp [parseStringBody, simpleEscape, h, dquote, backslash]
  · have := char_eq_ofNat c 12 h4
    subst this
    simp [parseStringBody, simpleEscape, h, dquote, backslash]
  · have := char_eq_ofNat c 10 h5
    subst this
    simp [parseStringBody, simpleEscape, h, dquote, backslash]
  · have := char_eq_ofNat c 13 h6
    subst this
    simp [parseStringBody, simpleEscape, h, dquote, backslash]
  · have := char_eq_ofNat c 9 h7
    subst this
    simp [parseStringBody, simpleEscape, h, dquote, backslash]
  · have hc := codeUnitChar_control c.toNat h8
    rw [Char.ofNat_toNat] at hc
    simp [parseStringBody, h, hc, dquote, backslash]
  · simp [parseStringBody, h, h1, h2, h8]

/-- The escaped body of a string, followed by the closing quote, reads back as the string and
leaves what follows the quote. -/
theorem parseStringBody_escapeChars (cs : List Char) : ∀ (fuel : Nat) (rest : List Char),
    cs.length < fuel →
    parseStringBody fuel (escapeChars cs ++ dquote :: rest) = some (cs, rest) := by
  induction cs with
  | nil =>
    intro fuel rest h
    cases fuel with
    | zero => omega
    | succ f => simp [escapeChars, parseStringBody]
  | cons c cs ih =>
    intro fuel rest h
    cases fuel with
    | zero => omega
    | succ f =>
      have hf : cs.length < f := by simpa using h
      have := parseStringBody_escapeChar c f (escapeChars cs ++ dquote :: rest) cs rest
        (ih f rest hf)
      simpa [escapeChars, List.append_assoc] using this

/-- Escaping never shortens. -/
theorem length_le_escapeChars (cs : List Char) : cs.length ≤ (escapeChars cs).length := by
  induction cs with
  | nil => simp [escapeChars]
  | cons c cs ih =>
    have h1 : 1 ≤ (escapeChar c).length := by
      unfold escapeChar
      split_ifs <;> simp
    simp [escapeChars]
    omega

/-! ## JSON numbers and scalars -/

/-- Splitting a digit run from what follows it. -/
theorem takeWhile_dropWhile_digits (ds rest : List Char)
    (hall : ∀ c ∈ ds, c.isDigit = true)
    (hrest : ∀ c, rest.head? = some c → c.isDigit = false) :
    (ds ++ rest).takeWhile Char.isDigit = ds ∧ (ds ++ rest).dropWhile Char.isDigit = rest := by
  induction ds with
  | nil =>
    cases rest with
    | nil => simp
    | cons c t =>
      have := hrest c rfl
      simp [List.takeWhile, List.dropWhile, this]
  | cons d ds ih =>
    have hd := hall d (List.mem_cons_self _ _)
    have ih2 := ih (fun c hc => hall c (List.mem_cons_of_mem _ hc))
    simp [List.takeWhile, List.dropWhile, hd, ih2.1, ih2.2]

/-- A digit run followed by a comma or a closing brace is read as its number. -/
theorem parseNumber_digits (n : Nat) (c : Char) (tl : List Char)
    (hc : c = ',' ∨ c = rbrace) :
    parseNumber (Nat.toDigits 10 n ++ c :: tl) = some (JVal.num n, c :: tl) := by
  obtain ⟨hall, hval, hne, hhead⟩ := toDigits_spec n
  have hcd : c.isDigit = false ∧ c ≠ '.' ∧ c ≠ 'e' ∧ c ≠ 'E' := by
    rcases hc with h | h <;> subst h <;> decide
  obtain ⟨ht, hd⟩ := takeWhile_dropWhile_digits (Nat.toDigits 10 n) (c :: tl) hall
    (by intro x hx; simp at hx; subst hx; exact hcd.1)
  have hneg : (Nat.toDigits 10 n ++ c :: tl).head? ≠ some '-' := by
    cases hds : Nat.toDigits 10 n with
    | nil => exact absurd hds hne
    | cons d ds =>
      have := hall d (by rw [hds]; exact List.mem_cons_self _ _)
      simp
      intro h
      subst h
      simp at this
  unfold parseNumber
  simp only [hneg, decide_False, Bool.false_eq_true, if_false, ht, hd, hne, hval]
  have h0 : ¬ ((Nat.toDigits 10 n).head? = some '0' ∧ (Nat.toDigits 10 n).length ≠ 1) := by
    intro h
    exact h.2 (hhead h.1)
  simp [h0, hcd.2.1, hcd.2.2.1, hcd.2.2.2]

/-- A printed integer followed by a comma or a closing brace is read back. -/
theorem parseNumber_numberToString (n : Int) (c : Char) (tl : List Char)
    (hc : c = ',' ∨ c = rbrace) :
    parseNumber (numberToString n ++ c :: tl) = some (JVal.num n, c :: tl) := by
  cases n with
  | ofNat k => exact parseNumber_digits k c tl hc
  | negSucc k =>
    have h := parseNumber_digits (k + 1) c tl hc
    unfold parseNumber at h ⊢
    have hh : (Nat.toDigits 10 (k + 1) ++ c :: tl).head? ≠ some '-' := by
      obtain ⟨hall, -, hne, -⟩ := toDigits_spec (k + 1)
      cases hds : Nat.toDigits 10 (k + 1) with
      | nil => exact absurd hds hne
      | cons d ds =>
        have := hall d (by rw [hds]; exact List.mem_cons_self _ _)
        simp
        intro h
        subst h
        simp at this
    simp only [hh, decide_False, Bool.false_eq_true, if_false] at h
    simp only [numberToString, List.cons_append, List.head?_cons, decide_True, if_true,
      List.drop_succ_cons, List.drop_zero]
    split_ifs at h ⊢ with h1 h2 h3
    cases hv : digitsValue 0 (List.takeWhile Char.isDigit (Nat.toDigits 10 (k + 1) ++ c :: tl))
      with
    | none => simp [hv] at h
    | some m =>
      simp only [hv, Option.some.injEq, Prod.mk.injEq, JVal.num.injEq] at h ⊢
      refine ⟨?_, h.2⟩
      have hm := h.1
      rw [Int.negSucc_eq]
      push_cast at hm
      omega

/-- Leading white space is only dropped when there is some. -/
theorem skipWs_cons (c : Char) (cs : List Char) (h : isWs c = false) :
    skipWs (c :: cs) = c :: cs := by
  simp [skipWs, h]

/-- A digit is none of the characters that open another kind of JSON value, nor white
space. -/
theorem digit_not_opener (d : Char) (h : d.isDigit = true) :
    d ≠ dquote ∧ d ≠ 't' ∧ d ≠ 'f' ∧ d ≠ 'n' ∧ isWs d = false := by
  refine ⟨?_, ?_, ?_, ?_, ?_⟩
  · intro e; subst e; simp [dquote] at h
  · intro e; subst e; simp at h
  · intro e; subst e; simp at h
  · intro e; subst e; simp at h
  · simp only [isWs, Bool.or_eq_false_iff, decide_eq_false_iff_not]
    refine ⟨⟨⟨?_, ?_⟩, ?_⟩, ?_⟩ <;> (intro e; subst e; simp at h)

/-- The first character of a printed integer: a digit or the minus sign. -/
theorem numberToString_head (n : Int) :
    ∃ d ds, numberToString n = d :: ds ∧ (d.isDigit = true ∨ d = '-') := by
  cases n with
  | ofNat k =>
    obtain ⟨hall, -, hne, -⟩ := toDigits_spec k
    cases hds : Nat.toDigits 10 k with
    | nil => exact absurd hds hne
    | cons d ds =>
      exact ⟨d, ds, by simp [numberToString, hds],
        Or.inl (hall d (by rw [hds]; exact List.mem_cons_self _ _))⟩
  | negSucc k => exact ⟨'-', _, rfl, Or.inr rfl⟩

/-- A serialized scalar followed by a comma or a closing brace is read back, up to `NaN`
having become `null`; and it does not start with white space. -/
theorem parseScalar_serializeValue (v : JVal) (t : List Char) (c : Char) (tl : List Char)
    (hs : serializeValue v = some t) (hc : c = ',' ∨ c = rbrace) :
    parseScalar (t ++ c :: tl) = some (jsonValue v, c :: tl) ∧
      skipWs (t ++ c :: tl) = t ++ c :: tl := by
  cases v with
  | undefined => simp [serializeValue] at hs
  | null =>
    simp only [serializeValue, Option.some.injEq] at hs
    subst hs
    exact ⟨by simp [parseScalar, expect, jsonValue, dquote], by simp [skipWs, isWs]⟩
  | nan =>
    simp only [serializeValue, Option.some.injEq] at hs
    subst hs
    exact ⟨by simp [parseScalar, expect, jsonValue, dquote], by simp [skipWs, isWs]⟩
  | bool b =>
    cases b with
    | true =>
      simp only [serializeValue, Option.some.injEq] at hs
      subst hs
      exact ⟨by simp [parseScalar, expect, jsonValue, dquote], by simp [skipWs, isWs]⟩
    | false =>
      simp only [serializeValue, Option.some.injEq] at hs
      subst hs
      exact ⟨by simp [parseScalar, expect, jsonValue, dquote], by simp [skipWs, isWs]⟩
  | str s =>
    simp only [serializeValue, Option.some.injEq] at hs
    subst hs
    have hlen : s.data.length < (escapeChars s.data ++ dquote :: (c :: tl)).length + 1 := by
      have := length_le_escapeChars s.data
      simp only [List.length_append, List.length_cons]
      omega
    have hp := parseStringBody_escapeChars s.data _ (c :: tl) hlen
    constructor
    · simp only [quoteJSONString, List.cons_append, List.append_assoc, List.singleton_append,
        List.nil_append, parseScalar, if_true, hp, jsonValue]
    · simp [quoteJSONString, skipWs, isWs, dquote]
  | num n =>
    simp only [serializeValue, Option.some.injEq] at hs
    subst hs
    have hp := parseNumber_numberToString n c tl hc
    obtain ⟨d, ds, hd, hdig⟩ := numberToString_head n
    have hopen : d ≠ dquote ∧ d ≠ 't' ∧ d ≠ 'f' ∧ d ≠ 'n' ∧ isWs d = false := by
      rcases hdig with h | h
      · exact digit_not_opener d h
      · subst h; decide
    rw [hd] at hp ⊢
    constructor
    · simp only [List.cons_append] at hp ⊢
      simp only [parseScalar, hopen.1, hopen.2.1, hopen.2.2.1, hopen.2.2.2.1, if_false, hp,
        jsonValue]
    · simp only [List.cons_append]
      exact skipWs_cons _ _ hopen.2.2.2.2

/-! ## JSON objects -/

/-- A property is written exactly when its value is not `undefined`. -/
theorem serializeValue_isSome (v : JVal) (h : v ≠ JVal.undefined) :
    ∃ t, serializeValue v = some t := by
  cases v with
  | undefined => exact absurd rfl h
  | null => exact ⟨_, rfl⟩
  | nan => exact ⟨_, rfl⟩
  | num n => exact ⟨_, rfl⟩
  | str s => exact ⟨_, rfl⟩
  | bool b => cases b <;> exact ⟨_, rfl⟩

/-- Written members start with the quote of their first key; nothing is written exactly when
no member is read back. -/
theorem serializeMembers_shape (ms : List (String × JVal)) :
    (jsonMembers ms = [] ∧ serializeMembers ms = []) ∨
      (jsonMembers ms ≠ [] ∧ ∃ t, serializeMembers ms = dquote :: t) := by
  induction ms with
  | nil => exact Or.inl ⟨rfl, rfl⟩
  | cons m ms ih =>
    obtain ⟨k, v⟩ := m
    by_cases hv : v = JVal.undefined
    · subst hv
      simpa [jsonMembers, serializeMembers, serializeValue] using ih
    · obtain ⟨t, ht⟩ := serializeValue_isSome v hv
      refine Or.inr ⟨by simp [jsonMembers, hv], ?_⟩
      simp only [serializeMembers, ht, quoteJSONString, List.cons_append]
      exact ⟨_, rfl⟩

/-- One written member, followed by a comma or the closing brace, is read as that member; a
comma hands over to the members after it. -/
theorem parseMembers_member (fuel : Nat) (k : String) (v : JVal) (t : List Char) (c : Char)
    (tl : List Char) (hs : serializeValue v = some t) (hc : c = ',' ∨ c = rbrace) :
    parseMembers (fuel + 1) (quoteJSONString k ++ (':' :: t) ++ c :: tl) =
      if c = ',' then
        match parseMembers fuel (skipWs tl) with
        | some (ms, r) => some ((k, jsonValue v) :: ms, r)
        | none => none
      else some ([(k, jsonValue v)], tl) := by
  obtain ⟨hp, hw⟩ := parseScalar_serializeValue v t c tl hs hc
  have hlen : k.data.length <
      (escapeChars k.data ++ dquote :: (':' :: (t ++ c :: tl))).length + 1 := by
    have := length_le_escapeChars k.data
    simp only [List.length_append, List.length_cons]
    omega
  have hkey := parseStringBody_escapeChars k.data _ (':' :: (t ++ c :: tl)) hlen
  have hcw : isWs c = false := by
    rcases hc with h | h <;> subst h <;> decide
  have hshape : quoteJSONString k ++ (':' :: t) ++ c :: tl =
      dquote :: (escapeChars k.data ++ dquote :: (':' :: (t ++ c :: tl))) := by
    simp [quoteJSONString, List.append_assoc]
  rw [hshape]
  conv_lhs => rw [parseMembers]
  simp only [if_true, hkey]
  rw [skipWs_cons ':' _ (by decide)]
  simp only [if_true, hw, hp]
  rw [skipWs_cons c _ hcw]
  rcases hc with h | h
  · subst h
    simp
  · subst h
    have : rbrace ≠ ',' := by decide
    simp [this]

/-- The written members of an object literal, followed by the closing brace, are read back as
`jsonMembers`, leaving what follows the brace. -/
theorem parseMembers_serializeMembers (ms : List (String × JVal)) :
    ∀ (fuel : Nat) (rest : List Char), jsonMembers ms ≠ [] →
      (jsonMembers ms).length ≤ fuel →
      parseMembers fuel (serializeMembers ms ++ rbrace :: rest) =
        some (jsonMembers ms, rest) := by
  induction ms with
  | nil => intro fuel rest h; exact absurd rfl h
  | cons m ms ih =>
    obtain ⟨k, v⟩ := m
    intro fuel rest hne hfuel
    by_cases hv : v = JVal.undefined
    · subst hv
      simp only [jsonMembers, serializeMembers, serializeValue, if_true] at hne hfuel ⊢
      exact ih fuel rest hne hfuel
    · obtain ⟨t, ht⟩ := serializeValue_isSome v hv
      have hj : jsonMembers ((k, v) :: ms) = (k, jsonValue v) :: jsonMembers ms := by
        simp [jsonMembers, hv]
      rw [hj] at hfuel ⊢
      cases fuel with
      | zero => simp at hfuel
      | succ f =>
        have hf : (jsonMembers ms).length ≤ f := by simpa using hfuel
        rcases serializeMembers_shape ms with ⟨hj0, hs0⟩ | ⟨hj1, t1, hs1⟩
        · have hin : serializeMembers ((k, v) :: ms) ++ rbrace :: rest =
              quoteJSONString k ++ (':' :: t) ++ rbrace :: rest := by
            simp [serializeMembers, ht, hs0]
          rw [hin, parseMembers_member f k v t rbrace rest ht (Or.inr rfl), hj0]
          have : rbrace ≠ ',' := by decide
          simp [this]
        · have hne1 : serializeMembers ms ≠ [] := by rw [hs1]; simp
          have hin : serializeMembers ((k, v) :: ms) ++ rbrace :: rest =
              quoteJSONString k ++ (':' :: t) ++ ',' :: (serializeMembers ms ++ rbrace :: rest)
              := by
            simp [serializeMembers, ht, hne1]
          rw [hin, parseMembers_member f k v t ',' _ ht (Or.inl rfl)]
          have hsk : skipWs (serializeMembers ms ++ rbrace :: rest) =
              serializeMembers ms ++ rbrace :: rest := by
            rw [hs1]
            exact skipWs_cons _ _ (by decide)
          rw [hsk, ih f rest hj1 hf]
          simp

/-- Each member read back was written with at least one character. -/
theorem jsonMembers_length_le (l : List (String × JVal)) :
    (jsonMembers l).length ≤ (serializeMembers l).length := by
  induction l with
  | nil => simp [jsonMembers]
  | cons m l ihl =>
    obtain ⟨k, v⟩ := m
    by_cases hv : v = JVal.undefined
    · subst hv
      simpa [jsonMembers, serializeMembers, serializeValue] using ihl
    · obtain ⟨t, ht⟩ := serializeValue_isSome v hv
      simp only [jsonMembers, hv, if_false, serializeMembers, ht, quoteJSONString,
        List.length_cons, List.length_append]
      split_ifs with h0
      · rw [h0] at ihl
        simp only [List.length_nil] at ihl ⊢
        omega
      · simp only [List.length_cons]
        omega

/-- The parser `JSON.parse` reads back what `JSON.stringify` wrote for an object literal of scalars:
the properties that are not `undefined`, in order, `NaN` having become `null`. -/
theorem parse_stringify (ms : List (String × JVal)) :
    JSON.parse (JSON.stringify ms) = some (jsonMembers ms) := by
  unfold JSON.parse JSON.stringify
  have hl : skipWs (lbrace :: (serializeMembers ms ++ [rbrace])) =
      lbrace :: (serializeMembers ms ++ [rbrace]) := skipWs_cons _ _ (by decide)
  simp only [hl, if_true]
  rcases serializeMembers_shape ms with ⟨hj0, hs0⟩ | ⟨hj1, t1, hs1⟩
  · rw [hs0, hj0]
    simp [skipWs, isWs, rbrace]
  · have hlen : (jsonMembers ms).length ≤ (serializeMembers ms ++ [rbrace]).length + 1 := by
      have := jsonMembers_length_le ms
      simp only [List.length_append, List.length_singleton]
      omega
    have hp := parseMembers_serializeMembers ms _ [] hj1 hlen
    rw [hs1] at hp ⊢
    have hsk : skipWs (dquote :: t1 ++ [rbrace]) = dquote :: (t1 ++ [rbrace]) :=
      skipWs_cons _ _ (by decide)
    have hd : dquote ≠ rbrace := by decide
    simp only [hsk, hd, if_false]
    have hp2 : parseMembers ((dquote :: t1 ++ [rbrace]).length + 1)
        (dquote :: (t1 ++ [rbrace])) = some (jsonMembers ms, []) := hp
    rw [hp2]
    simp [skipWs]

/-! ## QR payload -/

/-- In an object without repeated keys, reading a property gives the value of its member. -/
theorem find_reverse_of_mem (obj : List (String × JVal)) (k : String) (v : JVal)
    (hnd : (obj.map Prod.fst).Nodup) (hm : (k, v) ∈ obj) :
    obj.reverse.find? (fun m => m.1 == k) = some (k, v) := by
  induction obj with
  | nil => simp at hm
  | cons a l ih =>
    simp only [List.map_cons, List.nodup_cons] at hnd
    rw [List.reverse_cons, List.find?_append]
    rcases List.mem_cons.1 hm with h | h
    · subst h
      have hnone : l.reverse.find? (fun m => m.1 == k) = none := by
        rw [List.find?_eq_none]
        intro x hx hk
        have hx2 : x ∈ l := List.mem_reverse.1 hx
        have hxk : x.1 = k := by simpa using hk
        have hmem : x.1 ∈ l.map Prod.fst := List.mem_map_of_mem Prod.fst hx2
        rw [hxk] at hmem
        exact hnd.1 hmem
      simp [hnone]
    · rw [ih hnd.2 h]
      rfl

/-- Reading a property of an object without repeated keys. -/
theorem getProp_of_mem (obj : List (String × JVal)) (k : String) (v : JVal)
    (hnd : (obj.map Prod.fst).Nodup) (hm : (k, v) ∈ obj) : getProp obj k = v := by
  unfold getProp
  rw [find_reverse_of_mem obj k v hnd hm]

/-- The keys read back are among the keys written, in order. -/
theorem jsonMembers_keys_sublist (ms : List (String × JVal)) :
    ((jsonMembers ms).map Prod.fst).Sublist (ms.map Prod.fst) := by
  induction ms with
  | nil => exact List.Sublist.slnil
  | cons m ms ih =>
    obtain ⟨k, v⟩ := m
    by_cases hv : v = JVal.undefined
    · simp only [jsonMembers, hv, if_true, List.map_cons]
      exact List.Sublist.cons _ ih
    · simp only [jsonMembers, hv, if_false, List.map_cons]
      exact List.Sublist.cons₂ _ ih

/-- A property that is not `undefined` is read back. -/
theorem mem_jsonMembers (ms : List (String × JVal)) (k : String) (v : JVal)
    (hv : v ≠ JVal.undefined) (hm : (k, v) ∈ ms) : (k, jsonValue v) ∈ jsonMembers ms := by
  induction ms with
  | nil => simp at hm
  | cons m ms ih =>
    obtain ⟨k1, v1⟩ := m
    rcases List.mem_cons.1 hm with h | h
    · have hk : k1 = k := (Prod.mk.inj h).1.symm
      have hv1 : v1 = v := (Prod.mk.inj h).2.symm
      subst hk hv1
      simp [jsonMembers, hv]
    · by_cases hv1 : v1 = JVal.undefined
      · simp only [jsonMembers, hv1, if_true]
        exact ih h
      · simp only [jsonMembers, hv1, if_false]
        exact List.mem_cons_of_mem _ (ih h)

/-- Parsing a stringified object literal with distinct keys and reading a string property
gives that string. -/
theorem parse_stringify_getProp (ms : List (String × JVal)) (k : String) (x : String)
    (hnd : (ms.map Prod.fst).Nodup) (hm : (k, JVal.str x) ∈ ms) :
    ∃ obj, JSON.parse (JSON.stringify ms) = some obj ∧ obj = jsonMembers ms ∧
      getProp obj k = JVal.str x := by
  refine ⟨jsonMembers ms, parse_stringify ms, rfl, ?_⟩
  have h1 := mem_jsonMembers ms k (JVal.str x) (by simp) hm
  exact getProp_of_mem _ k _ (List.Nodup.sublist (jsonMembers_keys_sublist ms) hnd) h1

/-- C6: for a booking created by either route, scanning the QR image and parsing the text
gives an object whose `bookingId` is the `bookingId` of the stored booking and of the answer;
on the payment route its `verificationUrl` is the verify address followed by that id. The
scanner `scan` is any left inverse of the QR encoder. -/
theorem qr_payload_round_trips (env : Env) (s : Server) (body : BookingRequest)
    (scan : String → String)
    (hscan : ∀ text img, env.toDataURL text = Except.ok img → scan img = text) :
    ((postBookingsWithPayment env s body).2.status = 201 →
      ∃ (b : Booking) (v : BookingView) (obj : List (String × JVal)),
        StoredNew s (postBookingsWithPayment env s body).1 b ∧
        (postBookingsWithPayment env s body).2.payload = some v ∧
        b.qrCode = v.qrCode ∧ b.bookingId = v.bookingId ∧
        JSON.parse (scan v.qrCode) = some obj ∧
        getProp obj "bookingId" = JVal.str v.bookingId ∧
        getProp obj "verificationUrl" =
          JVal.str ("https://eventease.com/verify/" ++ v.bookingId)) ∧
    ((postBookings env s body).2.status = 201 →
      ∃ (b : Booking) (v : BookingView) (obj : List (String × JVal)),
        StoredNew s (postBookings env s body).1 b ∧
        (postBookings env s body).2.payload = some v ∧
        b.qrCode = v.qrCode ∧ b.bookingId = v.bookingId ∧
        JSON.parse (scan v.qrCode) = some obj ∧
        getProp obj "bookingId" = JVal.str v.bookingId) := by
  constructor
  · intro h
    obtain ⟨qr, hqr, hb⟩ := postBookingsWithPayment_accepted env s body h
    have hnd : ((paymentQrMembers env (generateBookingId (env.clock 0) (env.random36 0))
        body).map Prod.fst).Nodup := by
      simp only [paymentQrMembers, List.map_cons, List.map_nil]
      decide
    obtain ⟨obj, hparse, hobj, hid⟩ := parse_stringify_getProp _ "bookingId"
      (generateBookingId (env.clock 0) (env.random36 0)) hnd (by simp [paymentQrMembers])
    have hurl : getProp obj "verificationUrl" = JVal.str ("https://eventease.com/verify/" ++
        generateBookingId (env.clock 0) (env.random36 0)) := by
      rw [hobj]
      have h1 := mem_jsonMembers (paymentQrMembers env
        (generateBookingId (env.clock 0) (env.random36 0)) body) "verificationUrl"
        (JVal.str ("https://eventease.com/verify/" ++
          generateBookingId (env.clock 0) (env.random36 0))) (by simp)
        (by simp [paymentQrMembers])
      exact getProp_of_mem _ _ _ (List.Nodup.sublist (jsonMembers_keys_sublist _) hnd) h1
    refine ⟨paymentBookingData env body qr,
      paymentBookingView env (paymentBookingData env body qr), obj, ?_, ?_, rfl, rfl, ?_,
      hid, hurl⟩
    · rw [hb]; exact save_then_mail_storedNew env s _ _
    · rw [hb]
    · show JSON.parse (scan qr) = some obj
      rw [hscan _ _ hqr, hparse]
  · intro h
    obtain ⟨qr, hqr, hb⟩ := postBookings_accepted env s body h
    have hnd : ((bookingQrMembers env (generateBookingId (env.clock 0) (env.random36 0))
        body).map Prod.fst).Nodup := by
      simp only [bookingQrMembers, List.map_cons, List.map_nil]
      decide
    obtain ⟨obj, hparse, -, hid⟩ := parse_stringify_getProp _ "bookingId"
      (generateBookingId (env.clock 0) (env.random36 0)) hnd (by simp [bookingQrMembers])
    refine ⟨plainBookingData env body qr, bookingView env (plainBookingData env body qr), obj,
      ?_, ?_, rfl, rfl, ?_, hid⟩
    · rw [hb]; exact saveBooking_storedNew env s _
    · rw [hb]
    · show JSON.parse (scan qr) = some obj
      rw [hscan _ _ hqr, hparse]

/-- The sample scanner reads back what the sample encoder wrote. -/
theorem sampleScan_toDataURL (text img : String)
    (h : sampleToDataURL text = Except.ok img) : sampleScan img = text := by
  simp only [sampleToDataURL, Except.ok.injEq] at h
  subst h
  rfl

/-- C6 at the sample request, on both routes, with the sample encoder and scanner. -/
theorem qr_payload_round_trips_witness :
    (∃ (b : Booking) (v : BookingView) (obj : List (String × JVal)),
        StoredNew {} (postBookingsWithPayment memoryEnv {} sampleRequest).1 b ∧
        (postBookingsWithPayment memoryEnv {} sampleRequest).2.payload = some v ∧
        b.qrCode = v.qrCode ∧ b.bookingId = v.bookingId ∧
        JSON.parse (sampleScan v.qrCode) = some obj ∧
        getProp obj "bookingId" = JVal.str v.bookingId ∧
        getProp obj "verificationUrl" =
          JVal.str ("https://eventease.com/verify/" ++ v.bookingId)) ∧
    (∃ (b : Booking) (v : BookingView) (obj : List (String × JVal)),
        StoredNew {} (postBookings memoryEnv {} sampleRequest).1 b ∧
        (postBookings memoryEnv {} sampleRequest).2.payload = some v ∧
        b.qrCode = v.qrCode ∧ b.bookingId = v.bookingId ∧
        JSON.parse (sampleScan v.qrCode) = some obj ∧
        getProp obj "bookingId" = JVal.str v.bookingId) :=
  ⟨(qr_payload_round_trips memoryEnv {} sampleRequest sampleScan sampleScan_toDataURL).1
      (by decide),
   (qr_payload_round_trips memoryEnv {} sampleRequest sampleScan sampleScan_toDataURL).2
      (by decide)⟩

/-! ## Storage and mail failures -/

/-- A request with truthy mandatory fields whose QR payload the encoder accepts is answered
201 by the payment route. -/
theorem postBookingsWithPayment_valid (env : Env) (s : Server) (body : BookingRequest)
    (img : String)
    (hv : body.eventTitle.truthy = true ∧ body.ticketQuantity.truthy = true ∧
      body.userName.truthy = true ∧ body.userEmail.truthy = true ∧
      body.totalAmount.truthy = true)
    (hqr : env.toDataURL (JSON.stringify
        (paymentQrMembers env (generateBookingId (env.clock 0) (env.random36 0)) body)) =
          Except.ok img) :
    postBookingsWithPayment env s body =
      ((sendConfirmationEmail env (saveBooking env s (paymentBookingData env body img))
          body.userEmail (paymentBookingData env body img)).1,
       { status := 201, success := some true,
         message := some "Payment successful! Booking confirmed.",
         payload := some (paymentBookingView env (paymentBookingData env body img)) }) := by
  obtain ⟨h1, h2, h3, h4, h5⟩ := hv
  simp [postBookingsWithPayment, h1, h2, h3, h4, h5, hqr]

/-- The answer of the payment route is a function of the request and of the clock, random
and QR readings only. -/
theorem payment_response_readings (env env2 : Env) (s s2 : Server) (body : BookingRequest)
    (hc : env2.clock = env.clock) (hr : env2.random36 = env.random36)
    (hi : env2.isoString = env.isoString) (hq : env2.toDataURL = env.toDataURL) :
    (postBookingsWithPayment env2 s2 body).2 = (postBookingsWithPayment env s body).2 := by
  by_cases hv : (!body.eventTitle.truthy || !body.ticketQuantity.truthy ||
      !body.userName.truthy || !body.userEmail.truthy || !body.totalAmount.truthy) = true
  · simp [postBookingsWithPayment, hv]
  · have hm : paymentQrMembers env2 (generateBookingId (env.clock 0) (env.random36 0)) body =
        paymentQrMembers env (generateBookingId (env.clock 0) (env.random36 0)) body := by
      simp [paymentQrMembers, hc, hi]
    cases hqr : env.toDataURL (JSON.stringify
        (paymentQrMembers env (generateBookingId (env.clock 0) (env.random36 0)) body)) with
    | error msg => simp [postBookingsWithPayment, hv, hc, hr, hq, hm, hqr]
    | ok qrCode =>
      simp [postBookingsWithPayment, hv, hc, hr, hq, hm, hqr, paymentBookingData,
        paymentBookingView, bookingView]

/-- C8: for a valid request to the payment route, the answer is 201 and is the same answer
whether the store save resolves or throws and whether the mail is sent or fails (runs with
the same clock, random and QR readings, from any two server states); and across runs with
different readings, the status, success flag, message and every booking field that is not a
generated id or timestamp are still the same. -/
theorem payment_response_ignores_failures (env env2 : Env) (s s2 : Server)
    (body : BookingRequest)
    (hvalid : (postBookingsWithPayment env s body).2.status = 201) :
    (env2.clock = env.clock → env2.random36 = env.random36 →
        env2.isoString = env.isoString → env2.toDataURL = env.toDataURL →
      (postBookingsWithPayment env2 s2 body).2 = (postBookingsWithPayment env s body).2 ∧
        (postBookingsWithPayment env2 s2 body).2.status = 201) ∧
    ((postBookingsWithPayment env2 s2 body).2.status = 201 →
      stableFields (postBookingsWithPayment env2 s2 body).2 =
        stableFields (postBookingsWithPayment env s body).2) := by
  constructor
  · intro hc hr hi hq
    have h := payment_response_readings env env2 s s2 body hc hr hi hq
    exact ⟨h, by rw [h]; exact hvalid⟩
  · intro h2
    obtain ⟨qr, -, hb⟩ := postBookingsWithPayment_accepted env s body hvalid
    obtain ⟨qr2, -, hb2⟩ := postBookingsWithPayment_accepted env2 s2 body h2
    rw [hb, hb2]
    simp [stableFields, paymentBookingView, bookingView, paymentBookingData]

/-- C8 at the sample request: the store reachable and the mail sent, against the store
throwing and the mail failing; and against a run with another random draw. -/
theorem payment_response_ignores_failures_witness :
    ((postBookingsWithPayment memoryEnv refundedState sampleRequest).2 =
        (postBookingsWithPayment storeEnv {} sampleRequest).2 ∧
      (postBookingsWithPayment memoryEnv refundedState sampleRequest).2.status = 201) ∧
    stableFields (postBookingsWithPayment memoryEnv2 refundedState sampleRequest).2 =
      stableFields (postBookingsWithPayment storeEnv {} sampleRequest).2 :=
  ⟨(payment_response_ignores_failures storeEnv memoryEnv {} refundedState sampleRequest
      (by decide)).1 rfl rfl rfl rfl,
   (payment_response_ignores_failures storeEnv memoryEnv2 {} refundedState sampleRequest
      (by decide)).2 (by decide)⟩

/-! ## In-memory fallback -/

/-- The lookup test against a route parameter is equality of booking ids. -/
theorem idMatches_str (bookingId : String) (b : Booking) :
    idMatches (JVal.str bookingId) b = decide (b.bookingId = bookingId) := by
  by_cases h : b.bookingId = bookingId <;> simp [idMatches, JVal.strictEq, h]

/-- Looking up a fresh id in a list extended by a booking with that id finds that booking. -/
theorem find_append_fresh (l : List Booking) (b : Booking)
    (hfresh : ∀ x ∈ l, x.bookingId ≠ b.bookingId) :
    (l ++ [b]).find? (idMatches (JVal.str b.bookingId)) = some b := by
  have hnone : l.find? (idMatches (JVal.str b.bookingId)) = none := by
    rw [List.find?_eq_none]
    intro x hx
    simp [idMatches_str, hfresh x hx]
  rw [List.find?_append, hnone]
  simp [idMatches_str]

/-- C9 fails: with the store unreachable and a booking already in memory under the id the
next call generates, the second valid request is answered 201, but the lookup by the returned
id answers with the first booking, whose `eventTitle` and `userName` are not the request's. -/
theorem fallback_lookup_returns_older_booking :
    (postBookingsWithPayment memoryEnv2
        (postBookingsWithPayment memoryEnv {} sampleRequest).1 secondRequest).2.status = 201 ∧
    (postBookingsWithPayment memoryEnv2
        (postBookingsWithPayment memoryEnv {} sampleRequest).1 secondRequest).2.payload.map
        (fun v => v.bookingId) = some "BK1700000000000ABCDEFGHI" ∧
    secondRequest.eventTitle = JVal.str "Workshop" ∧
    secondRequest.userName = JVal.str "Ravi" ∧
    (getBooking memoryEnv
        (postBookingsWithPayment memoryEnv2
          (postBookingsWithPayment memoryEnv {} sampleRequest).1 secondRequest).1
        "BK1700000000000ABCDEFGHI").status = 200 ∧
    (getBooking memoryEnv
        (postBookingsWithPayment memoryEnv2
          (postBookingsWithPayment memoryEnv {} sampleRequest).1 secondRequest).1
        "BK1700000000000ABCDEFGHI").payload.map (fun b => (b.eventTitle, b.userName)) =
      some (JVal.str "Concert", JVal.str "Asha") := by
  decide

/-- C9 as amended: with the store unreachable, a valid request to the payment route whose
generated id is not yet used by a booking in memory appends exactly one booking to
`inMemoryBookings` and returns it; the two lookups by the returned id then answer 200 with
that booking, which has the request's fields, and with `amount` equal to its `totalAmount`.
When the save resolves, `inMemoryBookings` is unchanged. -/
theorem fallback_booking_retrievable (env envB envP : Env) (s : Server)
    (body : BookingRequest) :
    (env.storeOk 0 = false → envB.storeOk 0 = false → envP.storeOk 0 = false →
      (postBookingsWithPayment env s body).2.status = 201 →
      (∀ x ∈ s.inMemoryBookings,
        x.bookingId ≠ generateBookingId (env.clock 0) (env.random36 0)) →
      ∃ (b : Booking) (v : BookingView),
        (postBookingsWithPayment env s body).1.inMemoryBookings =
          s.inMemoryBookings ++ [b] ∧
        (postBookingsWithPayment env s body).1.bookingCollection = s.bookingCollection ∧
        (postBookingsWithPayment env s body).2.payload = some v ∧
        getBooking envB (postBookingsWithPayment env s body).1 v.bookingId =
          { status := 200, success := some true, payload := some b } ∧
        b.bookingId = v.bookingId ∧ b.eventTitle = body.eventTitle ∧
        b.ticketQuantity = body.ticketQuantity ∧ b.totalAmount = body.totalAmount ∧
        b.userName = body.userName ∧ b.userEmail = body.userEmail ∧
        v.totalAmount = body.totalAmount ∧
        (getPayment envP (postBookingsWithPayment env s body).1 v.bookingId).status = 200 ∧
        (getPayment envP (postBookingsWithPayment env s body).1 v.bookingId).payload.map
          (fun p => p.amount) = some body.totalAmount) ∧
    (env.storeOk 0 = true →
      (postBookingsWithPayment env s body).1.inMemoryBookings = s.inMemoryBookings) := by
  constructor
  · intro h0 hB hP hok hfresh
    obtain ⟨qr, -, hb⟩ := postBookingsWithPayment_accepted env s body hok
    have hmem : (postBookingsWithPayment env s body).1.inMemoryBookings =
        s.inMemoryBookings ++ [paymentBookingData env body qr] := by
      rw [hb]
      simp [(sendConfirmationEmail_bookings env _ _ _).1, saveBooking, h0]
    have hcol : (postBookingsWithPayment env s body).1.bookingCollection =
        s.bookingCollection := by
      rw [hb]
      simp [(sendConfirmationEmail_bookings env _ _ _).2, saveBooking, h0]
    have hfind : ∀ e : Env, e.storeOk 0 = false →
        findBooking e (postBookingsWithPayment env s body).1
          (JVal.str (generateBookingId (env.clock 0) (env.random36 0))) =
          some (paymentBookingData env body qr) := by
      intro e he
      simp only [findBooking, he, Bool.false_eq_true, if_false, hmem]
      exact find_append_fresh s.inMemoryBookings (paymentBookingData env body qr) hfresh
    refine ⟨paymentBookingData env body qr,
      paymentBookingView env (paymentBookingData env body qr), hmem, hcol, ?_, ?_,
      rfl, rfl, rfl, rfl, rfl, rfl, rfl, ?_, ?_⟩
    · rw [hb]
    · show getBooking envB _ (generateBookingId (env.clock 0) (env.random36 0)) = _
      simp [getBooking, hfind envB hB]
    · show (getPayment envP _ (generateBookingId (env.clock 0) (env.random36 0))).status = _
      simp [getPayment, hfind envP hP]
    · show (getPayment envP _
        (generateBookingId (env.clock 0) (env.random36 0))).payload.map _ = _
      simp [getPayment, hfind envP hP, paymentBookingData]
  · intro h1
    by_cases hv : (!body.eventTitle.truthy || !body.ticketQuantity.truthy ||
        !body.userName.truthy || !body.userEmail.truthy || !body.totalAmount.truthy) = true
    · simp [postBookingsWithPayment, hv]
    · cases hqr : env.toDataURL (JSON.stringify
          (paymentQrMembers env (generateBookingId (env.clock 0) (env.random36 0)) body)) with
      | error msg => simp [postBookingsWithPayment, hv, hqr]
      | ok qrCode =>
        simp [postBookingsWithPayment, hv, hqr,
          (sendConfirmationEmail_bookings env _ _ _).1, saveBooking, h1]

/-- C9 as amended, at the sample request: in memory after an unrelated refunded booking, and
with the store reachable. -/
theorem fallback_booking_retrievable_witness :
    (∃ (b : Booking) (v : BookingView),
        (postBookingsWithPayment memoryEnv refundedState sampleRequest).1.inMemoryBookings =
          refundedState.inMemoryBookings ++ [b] ∧
        (postBookingsWithPayment memoryEnv refundedState sampleRequest).1.bookingCollection =
          refundedState.bookingCollection ∧
        (postBookingsWithPayment memoryEnv refundedState sampleRequest).2.payload = some v ∧
        getBooking memoryEnv (postBookingsWithPayment memoryEnv refundedState sampleRequest).1
            v.bookingId =
          { status := 200, success := some true, payload := some b } ∧
        b.bookingId = v.bookingId ∧ b.eventTitle = sampleRequest.eventTitle ∧
        b.ticketQuantity = sampleRequest.ticketQuantity ∧
        b.totalAmount = sampleRequest.totalAmount ∧
        b.userName = sampleRequest.userName ∧ b.userEmail = sampleRequest.userEmail ∧
        v.totalAmount = sampleRequest.totalAmount ∧
        (getPayment memoryEnv (postBookingsWithPayment memoryEnv refundedState sampleRequest).1
            v.bookingId).status = 200 ∧
        (getPayment memoryEnv (postBookingsWithPayment memoryEnv refundedState sampleRequest).1
            v.bookingId).payload.map (fun p => p.amount) = some sampleRequest.totalAmount) ∧
    (postBookingsWithPayment storeEnv refundedState sampleRequest).1.inMemoryBookings =
      refundedState.inMemoryBookings :=
  ⟨(fallback_booking_retrievable memoryEnv memoryEnv memoryEnv refundedState sampleRequest).1
      rfl rfl rfl (by decide) (by decide),
   (fallback_booking_retrievable storeEnv memoryEnv memoryEnv refundedState sampleRequest).2
      rfl⟩

/-! ## Status invariant -/

/-- An element of an updated list is an old element or the image of one. -/
theorem mem_updateFirst (p : Booking → Bool) (f : Booking → Booking) (l : List Booking)
    (x : Booking) (hx : x ∈ updateFirst p f l) : x ∈ l ∨ ∃ y ∈ l, x = f y := by
  induction l with
  | nil => simp [updateFirst] at hx
  | cons b bs ih =>
    by_cases hb : p b = true
    · simp only [updateFirst, hb, if_true, List.mem_cons] at hx
      rcases hx with h | h
      · exact Or.inr ⟨b, List.mem_cons_self _ _, h⟩
      · exact Or.inl (List.mem_cons_of_mem _ h)
    · have hb2 : p b = false := by simpa using hb
      simp only [updateFirst, hb2, Bool.false_eq_true, if_false, List.mem_cons] at hx
      rcases hx with h | h
      · exact Or.inl (by rw [h]; exact List.mem_cons_self _ _)
      · rcases ih h with h1 | ⟨y, hy, hxy⟩
        · exact Or.inl (List.mem_cons_of_mem _ h1)
        · exact Or.inr ⟨y, List.mem_cons_of_mem _ hy, hxy⟩

/-- Updating with a function whose results have schema status values keeps them in a list. -/
theorem validStatus_updateFirst (p : Booking → Bool) (f : Booking → Booking)
    (hf : ∀ b, validStatus (f b)) (l : List Booking) (hl : ∀ b ∈ l, validStatus b) :
    ∀ b ∈ updateFirst p f l, validStatus b := by
  intro b hb
  rcases mem_updateFirst p f l b hb with h | ⟨y, -, hy⟩
  · exact hl b h
  · rw [hy]; exact hf y

/-- Saving a booking with schema status values keeps the invariant. -/
theorem statusInvariant_saveBooking (env : Env) (s : Server) (b : Booking)
    (hs : StatusInvariant s) (hb : validStatus b) : StatusInvariant (saveBooking env s b) := by
  intro x hx
  unfold saveBooking at hx
  split at hx
  · simp only [List.mem_append, List.mem_singleton] at hx
    rcases hx with h | h | h
    · exact hs x (Or.inl h)
    · exact hs x (Or.inr h)
    · rw [h]; exact hb
  · simp only [List.mem_append, List.mem_singleton] at hx
    rcases hx with (h | h) | h
    · exact hs x (Or.inl h)
    · rw [h]; exact hb
    · exact hs x (Or.inr h)

/-- The plain booking route keeps the invariant. -/
theorem statusInvariant_postBookings (env : Env) (s : Server) (body : BookingRequest)
    (hs : StatusInvariant s) : StatusInvariant (postBookings env s body).1 := by
  unfold postBookings
  split
  · exact hs
  · split
    · exact hs
    · exact statusInvariant_saveBooking env s _ hs (by simp [validStatus, plainBookingData])

/-- The payment route keeps the invariant. -/
theorem statusInvariant_postBookingsWithPayment (env : Env) (s : Server)
    (body : BookingRequest) (hs : StatusInvariant s) :
    StatusInvariant (postBookingsWithPayment env s body).1 := by
  unfold postBookingsWithPayment
  split
  · exact hs
  · split
    · exact hs
    · rename_i qr _
      have h1 := statusInvariant_saveBooking env s (paymentBookingData env body qr) hs
        (by simp [validStatus, paymentBookingData])
      have h2 := sendConfirmationEmail_bookings env
        (saveBooking env s (paymentBookingData env body qr)) body.userEmail
        (paymentBookingData env body qr)
      intro x hx
      simp only [h2.1, h2.2] at hx
      exact h1 x hx

/-- The verify route keeps the invariant. -/
theorem statusInvariant_postPaymentsVerify (env : Env) (s : Server) (bookingId : JVal)
    (hs : StatusInvariant s) : StatusInvariant (postPaymentsVerify env s bookingId).1 := by
  have hf : ∀ b, validStatus (markVerified env b) := by
    intro b; simp [validStatus, markVerified]
  intro x hx
  unfold postPaymentsVerify at hx
  simp only at hx
  split at hx
  · rcases hx with h | h
    · exact hs x (Or.inl h)
    · exact validStatus_updateFirst _ _ hf _ (fun b hb => hs b (Or.inr hb)) x h
  · rcases hx with h | h
    · exact validStatus_updateFirst _ _ hf _ (fun b hb => hs b (Or.inl hb)) x h
    · exact hs x (Or.inr h)

/-- The refund route keeps the invariant. -/
theorem statusInvariant_postPaymentsRefund (env : Env) (s : Server) (bookingId : JVal)
    (hs : StatusInvariant s) : StatusInvariant (postPaymentsRefund env s bookingId).1 := by
  have hf : ∀ b, validStatus (markRefunded env b) := by
    intro b; simp [validStatus, markRefunded]
  have hg : ∀ b, validStatus (markRefundedDoc b) := by
    intro b; simp [validStatus, markRefundedDoc]
  unfold postPaymentsRefund
  split
  · exact hs
  · split
    · exact hs
    · intro x hx
      simp only at hx
      split at hx
      · rcases hx with h | h
        · exact hs x (Or.inl h)
        · exact validStatus_updateFirst _ _ hg _ (fun b hb => hs b (Or.inr hb)) x h
      · split at hx
        · exact hs x hx
        · rcases hx with h | h
          · exact validStatus_updateFirst _ _ hf _ (fun b hb => hs b (Or.inl hb)) x h
          · exact hs x (Or.inr h)

/-- Each request keeps the invariant. -/
theorem statusInvariant_handle (env : Env) (s : Server) (r : Request)
    (hs : StatusInvariant s) : StatusInvariant (handle env s r).1 := by
  cases r with
  | bookingWithPayment body => exact statusInvariant_postBookingsWithPayment env s body hs
  | booking body => exact statusInvariant_postBookings env s body hs
  | paymentsVerify bookingId => exact statusInvariant_postPaymentsVerify env s bookingId hs
  | paymentsRefund bookingId => exact statusInvariant_postPaymentsRefund env s bookingId hs
  | paymentDetails bookingId => exact hs
  | bookingDetails bookingId => exact hs

/-- C10: if every booking held in memory or in the collection has a lifecycle status among
pending, confirmed, cancelled, completed and a payment status among pending, completed,
failed, refunded, the same holds after every sequence of requests to the booking, payment,
verify and refund routes, whatever the store and the mail transport do. -/
theorem status_invariant_preserved (s : Server) (trace : List (Env × Request))
    (hs : StatusInvariant s) : StatusInvariant (run s trace) := by
  induction trace generalizing s with
  | nil => exact hs
  | cons step rest ih =>
    obtain ⟨env, r⟩ := step
    exact ih (handle env s r).1 (statusInvariant_handle env s r hs)

/-- The empty server satisfies the invariant. -/
theorem statusInvariant_empty : StatusInvariant {} := by
  intro b hb
  simp at hb

/-- C10 from the empty server through the sample run, which ends with two refunded bookings. -/
theorem status_invariant_preserved_witness :
    StatusInvariant {} ∧ StatusInvariant (run {} sampleTrace) ∧
      ((run {} sampleTrace).inMemoryBookings.map (fun b => (b.status, b.paymentStatus)),
       (run {} sampleTrace).bookingCollection.map (fun b => (b.status, b.paymentStatus))) =
        ([("cancelled", "refunded")], [("cancelled", "refunded")]) :=
  ⟨statusInvariant_empty, status_invariant_preserved {} sampleTrace statusInvariant_empty,
   by decide⟩

/-! ## Refund in memory -/

/-- Updating the first match of a list that has one changes exactly that element. -/
theorem updateFirst_split (p : Booking → Bool) (f : Booking → Booking) (l1 l2 : List Booking)
    (b : Booking) (h1 : ∀ x ∈ l1, p x = false) (hb : p b = true) :
    updateFirst p f (l1 ++ b :: l2) = l1 ++ f b :: l2 ∧
      (l1 ++ b :: l2).find? p = some b := by
  induction l1 with
  | nil => simp [updateFirst, hb]
  | cons a l ih =>
    have ha : p a = false := h1 a (List.mem_cons_self _ _)
    have ih2 := ih (fun x hx => h1 x (List.mem_cons_of_mem _ hx))
    simp [updateFirst, ha, ih2.1, ih2.2]

/-- Updating the first match of a list without match changes nothing. -/
theorem updateFirst_none (p : Booking → Bool) (f : Booking → Booking) (l : List Booking)
    (h : ∀ x ∈ l, p x = false) : updateFirst p f l = l ∧ l.find? p = none := by
  induction l with
  | nil => simp [updateFirst]
  | cons a l ih =>
    have ha : p a = false := h a (List.mem_cons_self _ _)
    have ih2 := ih (fun x hx => h x (List.mem_cons_of_mem _ hx))
    simp [updateFirst, ha, ih2.1, ih2.2]

/-- C20: when every store call throws, a refund for an id no stored booking has is answered
404 and changes nothing; a refund for an id whose (first) stored booking `b` is not refunded
is answered 200 with `refundAmount` equal to `b.totalAmount`, and the state is the old one
with `b` replaced by `b` with `paymentStatus` refunded, `status` cancelled and the refund date
stamp, every other field of `b` and every other booking as before. -/
theorem refund_in_memory (env : Env) (s : Server) (bookingId : JVal)
    (h0 : env.storeOk 0 = false) (h1 : env.storeOk 1 = false) :
    ((∀ x ∈ s.inMemoryBookings, idMatches bookingId x = false) →
      postPaymentsRefund env s bookingId =
        (s, { status := 404, success := some false, error := some "Booking not found" })) ∧
    (∀ (l1 l2 : List Booking) (b : Booking), s.inMemoryBookings = l1 ++ b :: l2 →
      (∀ x ∈ l1, idMatches bookingId x = false) → idMatches bookingId b = true →
      b.paymentStatus ≠ "refunded" →
      postPaymentsRefund env s bookingId =
        ({ s with inMemoryBookings :=
             l1 ++ { b with paymentStatus := "refunded", status := "cancelled",
                            refundDate := some (env.clock 4) } :: l2 },
         { status := 200, success := some true,
           message := some "Refund processed successfully",
           payload := some b.totalAmount })) := by
  constructor
  · intro hnone
    have hf := (updateFirst_none (idMatches bookingId) id s.inMemoryBookings hnone).2
    simp [postPaymentsRefund, findBooking, h0, hf]
  · intro l1 l2 b hs hl1 hb hr
    have hsplit := updateFirst_split (idMatches bookingId) (markRefunded env) l1 l2 b hl1 hb
    simp [postPaymentsRefund, findBooking, h0, h1, hs, hsplit.1, hsplit.2, hr, markRefunded]

/-- C20 at an unknown id, and at the sample booking made in memory after a refunded one. -/
theorem refund_in_memory_witness :
    postPaymentsRefund memoryEnv refundedState (JVal.str "BK0") =
      (refundedState,
       { status := 404, success := some false, error := some "Booking not found" }) ∧
    postPaymentsRefund laterEnv
        { inMemoryBookings := [refundedBooking, { refundedBooking with
            bookingId := "BK2", status := "confirmed", paymentStatus := "completed" }] }
        (JVal.str "BK2") =
      ({ inMemoryBookings := [refundedBooking, { refundedBooking with
            bookingId := "BK2", status := "cancelled", paymentStatus := "refunded",
            refundDate := some 1700000005000 }] },
       { status := 200, success := some true,
         message := some "Refund processed successfully",
         payload := some (JVal.num 20) }) :=
  ⟨(refund_in_memory memoryEnv refundedState (JVal.str "BK0") rfl rfl).1 (by decide),
   (refund_in_memory laterEnv
      { inMemoryBookings := [refundedBooking, { refundedBooking with
            bookingId := "BK2", status := "confirmed", paymentStatus := "completed" }] }
      (JVal.str "BK2") rfl rfl).2 [refundedBooking] []
      { refundedBooking with
        bookingId := "BK2", status := "confirmed", paymentStatus := "completed" }
      rfl (by decide) (by decide) (by decide)⟩

/-! ## Ticket quantity -/

/-- C15 on the code: with the store unreachable, an order for minus one ticket is answered
201 by both booking routes and the booking is held in `inMemoryBookings` with
`ticketQuantity` -1 (the plain route also computes the total -10). -/
theorem negative_quantity_is_stored :
    (postBookingsWithPayment memoryEnv {} negativeRequest).2.status = 201 ∧
    (postBookingsWithPayment memoryEnv {} negativeRequest).1.inMemoryBookings.map
        (fun b => b.ticketQuantity) = [JVal.num (-1)] ∧
    (postBookings memoryEnv {} negativeRequest).2.status = 201 ∧
    (postBookings memoryEnv {} negativeRequest).1.inMemoryBookings.map
        (fun b => (b.ticketQuantity, b.totalAmount)) = [(JVal.num (-1), JVal.num (-10))] := by
  decide

/-! ## Bookings are never deleted -/

/-- An update of the first match leaves the list as it is or changes one element. -/
theorem updateFirst_frame (p : Booking → Bool) (f : Booking → Booking) (l : List Booking) :
    updateFirst p f l = l ∨
      ∃ l1 b l2, l = l1 ++ b :: l2 ∧ updateFirst p f l = l1 ++ f b :: l2 := by
  induction l with
  | nil => exact Or.inl rfl
  | cons a l ih =>
    by_cases ha : p a = true
    · exact Or.inr ⟨[], a, l, rfl, by simp [updateFirst, ha]⟩
    · have ha2 : p a = false := by simpa using ha
      rcases ih with h | ⟨l1, b, l2, h1, h2⟩
      · exact Or.inl (by simp [updateFirst, ha2, h])
      · exact Or.inr ⟨a :: l1, b, l2, by simp [h1], by simp [updateFirst, ha2, h2]⟩

/-- The payment route leaves `inMemoryBookings` as it is or appends one booking. -/
theorem postBookingsWithPayment_memory (env : Env) (s : Server) (body : BookingRequest) :
    (postBookingsWithPayment env s body).1.inMemoryBookings = s.inMemoryBookings ∨
      ∃ b, (postBookingsWithPayment env s body).1.inMemoryBookings =
        s.inMemoryBookings ++ [b] := by
  by_cases hv : (!body.eventTitle.truthy || !body.ticketQuantity.truthy ||
      !body.userName.truthy || !body.userEmail.truthy || !body.totalAmount.truthy) = true
  · exact Or.inl (by simp [postBookingsWithPayment, hv])
  · cases hqr : env.toDataURL (JSON.stringify
        (paymentQrMembers env (generateBookingId (env.clock 0) (env.random36 0)) body)) with
    | error msg => exact Or.inl (by simp [postBookingsWithPayment, hv, hqr])
    | ok qrCode =>
      by_cases hst : env.storeOk 0 = true
      · exact Or.inl (by
          simp [postBookingsWithPayment, hv, hqr,
            (sendConfirmationEmail_bookings env _ _ _).1, saveBooking, hst])
      · exact Or.inr ⟨paymentBookingData env body qrCode, by
          simp [postBookingsWithPayment, hv, hqr,
            (sendConfirmationEmail_bookings env _ _ _).1, saveBooking, hst]⟩

/-- The plain booking route leaves `inMemoryBookings` as it is or appends one booking. -/
theorem postBookings_memory (env : Env) (s : Server) (body : BookingRequest) :
    (postBookings env s body).1.inMemoryBookings = s.inMemoryBookings ∨
      ∃ b, (postBookings env s body).1.inMemoryBookings = s.inMemoryBookings ++ [b] := by
  by_cases hv : (!body.eventTitle.truthy || !body.ticketQuantity.truthy ||
      !body.userName.truthy || !body.userEmail.truthy) = true
  · exact Or.inl (by simp [postBookings, hv])
  · cases hqr : env.toDataURL (JSON.stringify
        (bookingQrMembers env (generateBookingId (env.clock 0) (env.random36 0)) body)) with
    | error msg => exact Or.inl (by simp [postBookings, hv, hqr])
    | ok qrCode =>
      by_cases hst : env.storeOk 0 = true
      · exact Or.inl (by simp [postBookings, hv, hqr, saveBooking, hst])
      · exact Or.inr ⟨plainBookingData env body qrCode, by
          simp [postBookings, hv, hqr, saveBooking, hst]⟩

/-- The verify route leaves `inMemoryBookings` as it is or marks its first match. -/
theorem postPaymentsVerify_memory (env : Env) (s : Server) (bookingId : JVal) :
    (postPaymentsVerify env s bookingId).1.inMemoryBookings = s.inMemoryBookings ∨
      (postPaymentsVerify env s bookingId).1.inMemoryBookings =
        updateFirst (idMatches bookingId) (markVerified env) s.inMemoryBookings := by
  unfold postPaymentsVerify
  by_cases hst : env.storeOk 0 = true
  · exact Or.inl (by simp [hst])
  · exact Or.inr (by simp [hst])

/-- The refund route leaves `inMemoryBookings` as it is or marks its first match. -/
theorem postPaymentsRefund_memory (env : Env) (s : Server) (bookingId : JVal) :
    (postPaymentsRefund env s bookingId).1.inMemoryBookings = s.inMemoryBookings ∨
      (postPaymentsRefund env s bookingId).1.inMemoryBookings =
        updateFirst (idMatches bookingId) (markRefunded env) s.inMemoryBookings := by
  unfold postPaymentsRefund
  split
  · exact Or.inl rfl
  · split
    · exact Or.inl rfl
    · by_cases h1 : env.storeOk 1 = true
      · exact Or.inl (by simp [h1])
      · by_cases h0 : env.storeOk 0 = true
        · exact Or.inl (by simp [h1, h0])
        · exact Or.inr (by simp [h1, h0])

/-- The event routes and the routes without state leave the booking state as it is. -/
theorem serve_server_of_not_booking (env : Env) (p : Process) (r : Endpoint)
    (h : ∀ q, r ≠ Endpoint.booking q) : (serve env p r).server = p.server := by
  cases r with
  | booking q => exact absurd rfl (h q)
  | authSignup body => rfl
  | authSignin body => rfl
  | eventsCreate body =>
    simp only [serve, postEventsCreate, sendEventCreatedEmail]
    split <;> [rfl; (split <;> rfl)]
  | eventsUpdate eventId body =>
    simp only [serve, putEvent]
    split <;> rfl
  | eventsDelete eventId =>
    simp only [serve, deleteEvent]
    split <;> rfl
  | eventsStatus eventId body =>
    simp only [serve, patchEventStatus]
    split <;> [rfl; (split <;> rfl)]
  | readOnly route => rfl

/-- What one request to any route does to `inMemoryBookings`: nothing, or it appends one
booking, or it changes the status fields and date stamps of one booking. -/
theorem serve_memory_cases (env : Env) (p : Process) (r : Endpoint) :
    (serve env p r).server.inMemoryBookings = p.server.inMemoryBookings ∨
    (∃ b, (serve env p r).server.inMemoryBookings = p.server.inMemoryBookings ++ [b]) ∨
    (∃ l1 b b1 l2, p.server.inMemoryBookings = l1 ++ b :: l2 ∧
      (serve env p r).server.inMemoryBookings = l1 ++ b1 :: l2 ∧
      withoutStatus b1 = withoutStatus b) := by
  by_cases hb : ∀ q, r ≠ Endpoint.booking q
  · exact Or.inl (by rw [serve_server_of_not_booking env p r hb])
  · push_neg at hb
    obtain ⟨q, hq⟩ := hb
    subst hq
    cases q with
    | bookingWithPayment body =>
      rcases postBookingsWithPayment_memory env p.server body with h | h
      · exact Or.inl h
      · exact Or.inr (Or.inl h)
    | booking body =>
      rcases postBookings_memory env p.server body with h | h
      · exact Or.inl h
      · exact Or.inr (Or.inl h)
    | paymentsVerify bookingId =>
      rcases postPaymentsVerify_memory env p.server bookingId with h | h
      · exact Or.inl h
      · rcases updateFirst_frame (idMatches bookingId) (markVerified env)
          p.server.inMemoryBookings with h2 | ⟨l1, b, l2, h3, h4⟩
        · exact Or.inl (h.trans h2)
        · exact Or.inr (Or.inr ⟨l1, b, markVerified env b, l2, h3, h.trans h4, rfl⟩)
    | paymentsRefund bookingId =>
      rcases postPaymentsRefund_memory env p.server bookingId with h | h
      · exact Or.inl h
      · rcases updateFirst_frame (idMatches bookingId) (markRefunded env)
          p.server.inMemoryBookings with h2 | ⟨l1, b, l2, h3, h4⟩
        · exact Or.inl (h.trans h2)
        · exact Or.inr (Or.inr ⟨l1, b, markRefunded env b, l2, h3, h.trans h4, rfl⟩)
    | paymentDetails bookingId => exact Or.inl rfl
    | bookingDetails bookingId => exact Or.inl rfl

/-- C11 fails in its last part: a verify request changes the `paymentDate` of the matching
booking, which is not a status field (here `status` and `paymentStatus` do not even
change). -/
theorem verify_changes_payment_date :
    (postBookingsWithPayment memoryEnv {} sampleRequest).1.inMemoryBookings.map
        (fun b => (b.bookingId, b.status, b.paymentStatus, b.paymentDate)) =
      [("BK1700000000000ABCDEFGHI", "confirmed", "completed", some 1700000000000)] ∧
    (serve laterEnv { server := (postBookingsWithPayment memoryEnv {} sampleRequest).1 }
        (Endpoint.booking (Request.paymentsVerify
          (JVal.str "BK1700000000000ABCDEFGHI")))).server.inMemoryBookings.map
        (fun b => (b.bookingId, b.status, b.paymentStatus, b.paymentDate)) =
      [("BK1700000000000ABCDEFGHI", "confirmed", "completed", some 1700000005000)] := by
  decide

/-- C11 as amended: for every request to any route, every `bookingId` in `inMemoryBookings`
before the request is still there after it and the list is not shorter; a verify or refund
request leaves the list as it is or changes one booking, of which it changes only `status`,
`paymentStatus` and the `paymentDate` and `refundDate` stamps. -/
theorem bookings_never_deleted (env : Env) (p : Process) (r : Endpoint) :
    (∀ id, id ∈ p.server.inMemoryBookings.map (fun b => b.bookingId) →
      id ∈ (serve env p r).server.inMemoryBookings.map (fun b => b.bookingId)) ∧
    p.server.inMemoryBookings.length ≤ (serve env p r).server.inMemoryBookings.length ∧
    (∀ bookingId, r = Endpoint.booking (Request.paymentsVerify bookingId) ∨
        r = Endpoint.booking (Request.paymentsRefund bookingId) →
      (serve env p r).server.inMemoryBookings = p.server.inMemoryBookings ∨
      ∃ l1 b b1 l2, p.server.inMemoryBookings = l1 ++ b :: l2 ∧
        (serve env p r).server.inMemoryBookings = l1 ++ b1 :: l2 ∧
        withoutStatus b1 = withoutStatus b) := by
  have hcases := serve_memory_cases env p r
  refine ⟨?_, ?_, ?_⟩
  · intro id hid
    rcases hcases with h | ⟨b, h⟩ | ⟨l1, b, b1, l2, h1, h2, h3⟩
    · rw [h]; exact hid
    · rw [h]; simp only [List.map_append, List.mem_append]; exact Or.inl hid
    · have hbid : b1.bookingId = b.bookingId := by
        have := congrArg Booking.bookingId h3
        simpa [withoutStatus] using this
      rw [h1] at hid
      rw [h2]
      simp only [List.map_append, List.map_cons, List.mem_append, List.mem_cons] at hid ⊢
      rw [hbid]
      exact hid
  · rcases hcases with h | ⟨b, h⟩ | ⟨l1, b, b1, l2, h1, h2, h3⟩
    · rw [h]
    · rw [h]; simp
    · rw [h1, h2]; simp
  · intro bookingId hr
    rcases hr with hr | hr
    · subst hr
      rcases postPaymentsVerify_memory env p.server bookingId with h | h
      · exact Or.inl h
      · rcases updateFirst_frame (idMatches bookingId) (markVerified env)
          p.server.inMemoryBookings with h2 | ⟨l1, c, l2, h3, h4⟩
        · exact Or.inl (h.trans h2)
        · exact Or.inr ⟨l1, c, markVerified env c, l2, h3, h.trans h4, rfl⟩
    · subst hr
      rcases postPaymentsRefund_memory env p.server bookingId with h | h
      · exact Or.inl h
      · rcases updateFirst_frame (idMatches bookingId) (markRefunded env)
          p.server.inMemoryBookings with h2 | ⟨l1, c, l2, h3, h4⟩
        · exact Or.inl (h.trans h2)
        · exact Or.inr ⟨l1, c, markRefunded env c, l2, h3, h.trans h4, rfl⟩

/-- C11 as amended, at the verify request of the counterexample five seconds after the
booking was made: the id is still there, and one booking changed in its stamps only. -/
theorem bookings_never_deleted_witness :
    "BK1700000000000ABCDEFGHI" ∈
      (serve laterEnv { server := (postBookingsWithPayment memoryEnv {} sampleRequest).1 }
        (Endpoint.booking (Request.paymentsVerify
          (JVal.str "BK1700000000000ABCDEFGHI")))).server.inMemoryBookings.map
        (fun b => b.bookingId) ∧
    ((serve laterEnv { server := (postBookingsWithPayment memoryEnv {} sampleRequest).1 }
        (Endpoint.booking (Request.paymentsVerify
          (JVal.str "BK1700000000000ABCDEFGHI")))).server.inMemoryBookings =
      (postBookingsWithPayment memoryEnv {} sampleRequest).1.inMemoryBookings ∨
    ∃ l1 b b1 l2,
      (postBookingsWithPayment memoryEnv {} sampleRequest).1.inMemoryBookings =
        l1 ++ b :: l2 ∧
      (serve laterEnv { server := (postBookingsWithPayment memoryEnv {} sampleRequest).1 }
        (Endpoint.booking (Request.paymentsVerify
          (JVal.str "BK1700000000000ABCDEFGHI")))).server.inMemoryBookings =
        l1 ++ b1 :: l2 ∧
      withoutStatus b1 = withoutStatus b) :=
  ⟨(bookings_never_deleted laterEnv
      { server := (postBookingsWithPayment memoryEnv {} sampleRequest).1 }
      (Endpoint.booking (Request.paymentsVerify (JVal.str "BK1700000000000ABCDEFGHI")))).1
      "BK1700000000000ABCDEFGHI" (by decide),
   (bookings_never_deleted laterEnv
      { server := (postBookingsWithPayment memoryEnv {} sampleRequest).1 }
      (Endpoint.booking (Request.paymentsVerify (JVal.str "BK1700000000000ABCDEFGHI")))).2.2
      (JVal.str "BK1700000000000ABCDEFGHI") (Or.inl rfl)⟩

/-! ## Objects -/

/-- Reading the property just written. -/
theorem objGet_objSet_same (o : Obj) (k : String) (v : EVal) : objGet (objSet o k v) k = v := by
  induction o with
  | nil => simp [objSet, objGet]
  | cons m rest ih =>
    by_cases hm : m.1 = k
    · simp [objSet, hm, objGet]
    · have hne : (m.1 == k) = false := by simpa using hm
      simp only [objSet, hm, if_false]
      unfold objGet at ih ⊢
      simp only [List.find?_cons, hne]
      exact ih

/-- Writing a property leaves the other properties as they read. -/
theorem objGet_objSet_other (o : Obj) (k k1 : String) (v : EVal) (h : k1 ≠ k) :
    objGet (objSet o k v) k1 = objGet o k1 := by
  induction o with
  | nil =>
    have hne : (k == k1) = false := by simpa using (Ne.symm h)
    simp [objSet, objGet, hne]
  | cons m rest ih =>
    by_cases hm : m.1 = k
    · have hne : (k == k1) = false := by simpa using (Ne.symm h)
      have hne2 : (m.1 == k1) = false := by rw [hm]; exact hne
      simp [objSet, hm, objGet, hne]
    · simp only [objSet, hm, if_false]
      unfold objGet at ih ⊢
      by_cases hk : (m.1 == k1) = true
      · simp [List.find?_cons, hk]
      · have hk2 : (m.1 == k1) = false := by simpa using hk
        simp only [List.find?_cons, hk2]
        exact ih

/-- A deleted property reads as `undefined`; the others read as before. -/
theorem objGet_objDelete (o : Obj) (k k1 : String) :
    objGet (objDelete o k) k1 =
      if k1 = k then EVal.scalar JVal.undefined else objGet o k1 := by
  induction o with
  | nil => simp [objDelete, objGet]
  | cons m rest ih =>
    simp only [objDelete, objGet] at ih ⊢
    by_cases hm : m.1 = k <;> by_cases hk : k1 = k <;> by_cases h3 : m.1 = k1 <;>
      simp_all [List.filter_cons, List.find?_cons]

/-- The keys of an object after a deletion. -/
theorem mem_keys_objDelete (o : Obj) (k k1 : String) :
    k1 ∈ (objDelete o k).map Prod.fst ↔ k1 ∈ o.map Prod.fst ∧ k1 ≠ k := by
  simp only [objDelete, List.mem_map, List.mem_filter]
  constructor
  · rintro ⟨m, ⟨hm, hne⟩, rfl⟩
    exact ⟨⟨m, hm, rfl⟩, by simpa using hne⟩
  · rintro ⟨⟨m, hm, rfl⟩, hne⟩
    exact ⟨m, ⟨hm, by simpa using hne⟩, rfl⟩

/-- The keys of an object after a write. -/
theorem mem_keys_objSet (o : Obj) (k k1 : String) (v : EVal) :
    k1 ∈ (objSet o k v).map Prod.fst ↔ k1 ∈ o.map Prod.fst ∨ k1 = k := by
  induction o with
  | nil => simp [objSet]
  | cons m rest ih =>
    by_cases hm : m.1 = k
    · simp only [objSet, hm, if_true, List.map_cons, List.mem_cons]
      constructor
      · rintro (h | h)
        · exact Or.inr h
        · exact Or.inl (Or.inr h)
      · rintro ((h | h) | h)
        · exact Or.inl h
        · exact Or.inr h
        · exact Or.inl h
    · simp only [objSet, hm, if_false, List.map_cons, List.mem_cons, ih]
      tauto

/-- Reading a property of `{ ...a, ...b }`: the value in `b` when `b` has the key (its keys
being distinct), the value in `a` otherwise. -/
theorem objGet_objSpread (b : Obj) : ∀ (a : Obj) (k : String), (b.map Prod.fst).Nodup →
    objGet (objSpread a b) k = if k ∈ b.map Prod.fst then objGet b k else objGet a k := by
  induction b with
  | nil => intro a k _; simp [objSpread]
  | cons m rest ih =>
    intro a k hnd
    simp only [List.map_cons, List.nodup_cons] at hnd
    have hstep : objSpread a (m :: rest) = objSpread (objSet a m.1 m.2) rest := rfl
    rw [hstep, ih (objSet a m.1 m.2) k hnd.2]
    by_cases hk : k = m.1
    · rw [hk]
      have hnot : m.1 ∉ rest.map Prod.fst := hnd.1
      simp only [hnot, if_false, List.map_cons, List.mem_cons, true_or, if_true]
      rw [objGet_objSet_same]
      simp [objGet]
    · have hne : (m.1 == k) = false := by simpa using (Ne.symm hk)
      by_cases hin : k ∈ rest.map Prod.fst
      · simp only [hin, if_true, List.map_cons, List.mem_cons, or_true]
        simp [objGet, List.find?_cons, hne]
      · simp only [hin, if_false, List.map_cons, List.mem_cons, hk, or_self]
        exact objGet_objSet_other a m.1 k m.2 hk

/-! ## Event creation -/

/-- The call `parseInt` gives an integer or `NaN`. -/
theorem parseIntJS_cases (v : EVal) : parseIntJS v = JVal.nan ∨ ∃ n, parseIntJS v = JVal.num n := by
  have hd : ∀ neg radix ds, digitsToInt neg radix ds = JVal.nan ∨
      ∃ n, digitsToInt neg radix ds = JVal.num n := by
    intro neg radix ds
    unfold digitsToInt
    split
    · exact Or.inl rfl
    · exact Or.inr ⟨_, rfl⟩
  have ht : ∀ t, parseIntText t = JVal.nan ∨ ∃ n, parseIntText t = JVal.num n := by
    intro t
    exact hd _ _ _
  cases v with
  | scalar x => exact ht _
  | array items => exact ht _
  | date ms => exact Or.inl rfl

/-- The `price` and `maxAttendees` the create route stores. -/
theorem eventData_numbers (env : Env) (body : Obj) :
    objGet (eventData env body) "price" =
        EVal.scalar (JVal.or (parseIntJS (objGet body "price")) (JVal.num 0)) ∧
      objGet (eventData env body) "maxAttendees" =
        EVal.scalar (JVal.or (parseIntJS (objGet body "maxAttendees")) (JVal.num 100)) :=
  ⟨rfl, rfl⟩

/-- C18: the create route answers 400 `Missing required fields` and changes nothing when one
of title, category, description, date, time, location, contactEmail is missing, empty or
otherwise falsy; when all seven are truthy it answers 201 and appends exactly one event to
the list, with status `active`, an id made of `EVENT-` followed by the clock reading and the
random suffix, `price` the integer `parseInt` reads (0 when it reads none) and `maxAttendees`
the integer `parseInt` reads (100 when it reads none or reads 0). -/
theorem create_event_contract (env : Env) (p : Process) (body : Obj) :
    (((objGet body "title").truthy = false ∨ (objGet body "category").truthy = false ∨
        (objGet body "description").truthy = false ∨ (objGet body "date").truthy = false ∨
        (objGet body "time").truthy = false ∨ (objGet body "location").truthy = false ∨
        (objGet body "contactEmail").truthy = false) →
      postEventsCreate env p body =
        (p, { status := 400, success := some false,
              error := some "Missing required fields" })) ∧
    (((objGet body "title").truthy = true ∧ (objGet body "category").truthy = true ∧
        (objGet body "description").truthy = true ∧ (objGet body "date").truthy = true ∧
        (objGet body "time").truthy = true ∧ (objGet body "location").truthy = true ∧
        (objGet body "contactEmail").truthy = true) →
      ∃ e : Obj,
        (postEventsCreate env p body).2.status = 201 ∧
        (postEventsCreate env p body).1.inMemoryEvents = some (p.events ++ [e]) ∧
        (postEventsCreate env p body).1.server = p.server ∧
        objGet e "status" = EVal.text "active" ∧
        objGet e "eventId" =
          EVal.text ("EVENT-" ++ (toString (env.clock 0) ++
            toUpperCase (substr (env.random36 0) 2 9))) ∧
        (∀ n, parseIntJS (objGet body "price") = JVal.num n →
          objGet e "price" = EVal.scalar (JVal.num n)) ∧
        (parseIntJS (objGet body "price") = JVal.nan →
          objGet e "price" = EVal.scalar (JVal.num 0)) ∧
        (∀ n, parseIntJS (objGet body "maxAttendees") = JVal.num n → n ≠ 0 →
          objGet e "maxAttendees" = EVal.scalar (JVal.num n)) ∧
        (parseIntJS (objGet body "maxAttendees") = JVal.nan ∨
            parseIntJS (objGet body "maxAttendees") = JVal.num 0 →
          objGet e "maxAttendees" = EVal.scalar (JVal.num 100))) := by
  constructor
  · intro h
    have hm : missingEventField body = true := by
      unfold missingEventField
      rcases h with h | h | h | h | h | h | h <;> simp [h]
    simp [postEventsCreate, hm]
  · rintro ⟨h1, h2, h3, h4, h5, h6, h7⟩
    have hm : missingEventField body = false := by
      simp [missingEventField, h1, h2, h3, h4, h5, h6, h7]
    refine ⟨eventData env body, ?_, ?_, ?_, ?_, ?_, ?_, ?_, ?_, ?_⟩
    · simp [postEventsCreate, hm]
    · simp only [postEventsCreate, hm, Bool.false_eq_true, if_false, sendEventCreatedEmail]
      split <;> rfl
    · simp only [postEventsCreate, hm, Bool.false_eq_true, if_false, sendEventCreatedEmail]
      split <;> rfl
    · simp [eventData, objGet]
    · simp [eventData, objGet, generateEventId, String.append_assoc]
    · intro n hn
      rw [(eventData_numbers env body).1, hn]
      by_cases hz : n = 0
      · simp [hz, JVal.or, JVal.truthy]
      · simp [hz, JVal.or, JVal.truthy]
    · intro hn
      rw [(eventData_numbers env body).1, hn]
      simp [JVal.or, JVal.truthy]
    · intro n hn hz
      rw [(eventData_numbers env body).2, hn]
      simp [hz, JVal.or, JVal.truthy]
    · intro hn
      rw [(eventData_numbers env body).2]
      rcases hn with hn | hn <;> simp [hn, JVal.or, JVal.truthy]

/-- C18 at a body without `title`, and at the sample body (price sent as the text 250,
capacity 0) sent to a process that already holds the sample event. -/
theorem create_event_contract_witness :
    postEventsCreate memoryEnv oneEvent
        [("category", EVal.text "tech"), ("description", EVal.text "Talks")] =
      (oneEvent, { status := 400, success := some false,
                   error := some "Missing required fields" }) ∧
    (∃ e : Obj,
        (postEventsCreate laterEnv oneEvent sampleEventBody).2.status = 201 ∧
        (postEventsCreate laterEnv oneEvent sampleEventBody).1.inMemoryEvents =
          some (oneEvent.events ++ [e]) ∧
        (postEventsCreate laterEnv oneEvent sampleEventBody).1.server = oneEvent.server ∧
        objGet e "status" = EVal.text "active" ∧
        objGet e "eventId" =
          EVal.text ("EVENT-" ++ (toString (laterEnv.clock 0) ++
            toUpperCase (substr (laterEnv.random36 0) 2 9))) ∧
        (∀ n, parseIntJS (objGet sampleEventBody "price") = JVal.num n →
          objGet e "price" = EVal.scalar (JVal.num n)) ∧
        (parseIntJS (objGet sampleEventBody "price") = JVal.nan →
          objGet e "price" = EVal.scalar (JVal.num 0)) ∧
        (∀ n, parseIntJS (objGet sampleEventBody "maxAttendees") = JVal.num n → n ≠ 0 →
          objGet e "maxAttendees" = EVal.scalar (JVal.num n)) ∧
        (parseIntJS (objGet sampleEventBody "maxAttendees") = JVal.nan ∨
            parseIntJS (objGet sampleEventBody "maxAttendees") = JVal.num 0 →
          objGet e "maxAttendees" = EVal.scalar (JVal.num 100))) ∧
    parseIntJS (objGet sampleEventBody "price") = JVal.num 250 ∧
    parseIntJS (objGet sampleEventBody "maxAttendees") = JVal.num 0 ∧
    parseIntJS (objGet sampleEventBody "venue") = JVal.nan :=
  ⟨(create_event_contract memoryEnv oneEvent
      [("category", EVal.text "tech"), ("description", EVal.text "Talks")]).1
      (Or.inl rfl),
   (create_event_contract laterEnv oneEvent sampleEventBody).2
      ⟨rfl, rfl, rfl, rfl, rfl, rfl, rfl⟩,
   by decide, by decide, by decide⟩

/-! ## Event lists -/

/-- Replacing the first match of a list that has one changes exactly that element. -/
theorem replaceFirst_split (q : Obj → Bool) (f : Obj → Obj) (l1 l2 : List Obj) (e : Obj)
    (h1 : ∀ x ∈ l1, q x = false) (he : q e = true) :
    replaceFirst q f (l1 ++ e :: l2) = l1 ++ f e :: l2 ∧
      removeFirst q (l1 ++ e :: l2) = l1 ++ l2 ∧
      (l1 ++ e :: l2).find? q = some e := by
  induction l1 with
  | nil => simp [replaceFirst, removeFirst, he]
  | cons a l ih =>
    have ha : q a = false := h1 a (List.mem_cons_self _ _)
    have ih2 := ih (fun x hx => h1 x (List.mem_cons_of_mem _ hx))
    simp [replaceFirst, removeFirst, ha, ih2.1, ih2.2.1, ih2.2.2]

/-- A list without match has nothing to find. -/
theorem find_none_of_all_false (q : Obj → Bool) (l : List Obj)
    (h : ∀ x ∈ l, q x = false) : l.find? q = none := by
  rw [List.find?_eq_none]
  intro x hx
  simp [h x hx]

/-! ## Event status route -/

/-- C16: the status route answers 400 `Invalid status` and changes nothing when the body's
`status` is none of active, cancelled, completed, draft (a missing status included); with one
of the four it answers 404 and changes nothing when no stored event has the id, and otherwise
sets `status` and `updatedAt` of the (first) event with the id, leaving its other properties
and every other event as they were. -/
theorem patch_status_contract (env : Env) (p : Process) (eventId : String) (body : Obj) :
    (isEventStatus (objGet body "status") = false →
      patchEventStatus env p eventId body =
        (p, { status := 400, success := some false, error := some "Invalid status" })) ∧
    (isEventStatus (objGet body "status") = true →
      (∀ x ∈ p.events, eventIdIs eventId x = false) →
      patchEventStatus env p eventId body =
        (p, { status := 404, success := some false, error := some "Event not found" })) ∧
    (isEventStatus (objGet body "status") = true →
      ∀ (l1 l2 : List Obj) (e : Obj), p.events = l1 ++ e :: l2 →
      (∀ x ∈ l1, eventIdIs eventId x = false) → eventIdIs eventId e = true →
      ∃ e1 : Obj,
        patchEventStatus env p eventId body =
          ({ p with inMemoryEvents := some (l1 ++ e1 :: l2) },
           { status := 200, success := some true,
             message := some "Event status updated successfully", payload := some e1 }) ∧
        objGet e1 "status" = objGet body "status" ∧
        objGet e1 "updatedAt" = EVal.date (env.clock 4) ∧
        (∀ k, k ≠ "status" → k ≠ "updatedAt" → objGet e1 k = objGet e k)) := by
  refine ⟨?_, ?_, ?_⟩
  · intro h
    simp [patchEventStatus, h]
  · intro h hnone
    simp [patchEventStatus, h, find_none_of_all_false _ _ hnone]
  · intro h l1 l2 e hs hl1 he
    obtain ⟨hrep, -, hfind⟩ := replaceFirst_split (eventIdIs eventId)
      (setStatus env (objGet body "status")) l1 l2 e hl1 he
    refine ⟨setStatus env (objGet body "status") e, ?_, ?_, ?_, ?_⟩
    · simp [patchEventStatus, h, hs, hfind, statusUpdated, hrep]
    · unfold setStatus
      rw [objGet_objSet_other _ _ _ _ (by decide), objGet_objSet_same]
    · unfold setStatus
      rw [objGet_objSet_same]
    · intro k hk1 hk2
      unfold setStatus
      rw [objGet_objSet_other _ _ _ _ hk2, objGet_objSet_other _ _ _ _ hk1]

/-- C16 at a body without status, at an unknown id, and at the sample event set to
cancelled five seconds after its creation. -/
theorem patch_status_contract_witness :
    patchEventStatus memoryEnv oneEvent "EVENT-1700000000000ABCDEFGHI"
        [("note", EVal.text "x")] =
      (oneEvent, { status := 400, success := some false, error := some "Invalid status" }) ∧
    patchEventStatus memoryEnv oneEvent "EVENT-0" [("status", EVal.text "draft")] =
      (oneEvent, { status := 404, success := some false, error := some "Event not found" }) ∧
    (∃ e1 : Obj,
        patchEventStatus laterEnv oneEvent "EVENT-1700000000000ABCDEFGHI"
            [("status", EVal.text "cancelled")] =
          ({ oneEvent with inMemoryEvents := some ([] ++ e1 :: []) },
           { status := 200, success := some true,
             message := some "Event status updated successfully", payload := some e1 }) ∧
        objGet e1 "status" = objGet [("status", EVal.text "cancelled")] "status" ∧
        objGet e1 "updatedAt" = EVal.date (laterEnv.clock 4) ∧
        (∀ k, k ≠ "status" → k ≠ "updatedAt" →
          objGet e1 k = objGet (eventData memoryEnv sampleEventBody) k)) :=
  ⟨(patch_status_contract memoryEnv oneEvent "EVENT-1700000000000ABCDEFGHI"
      [("note", EVal.text "x")]).1 (by decide),
   (patch_status_contract memoryEnv oneEvent "EVENT-0"
      [("status", EVal.text "draft")]).2.1 (by decide) (by decide),
   (patch_status_contract laterEnv oneEvent "EVENT-1700000000000ABCDEFGHI"
      [("status", EVal.text "cancelled")]).2.2 (by decide) [] []
      (eventData memoryEnv sampleEventBody) (by decide) (by decide) (by decide)⟩

/-! ## Event update route -/

/-- The keys of `updateData`: `updatedAt` and the keys of the body other than the four
protected ones. -/
theorem mem_keys_updateData (env : Env) (body : Obj) (k : String) :
    k ∈ (updateData env body).map Prod.fst ↔
      k = "updatedAt" ∨ (k ∈ body.map Prod.fst ∧ k ≠ "eventId" ∧ k ≠ "createdAt" ∧
        k ≠ "createdBy" ∧ k ≠ "createdByEmail") := by
  unfold updateData
  rw [mem_keys_objSet, mem_keys_objDelete, mem_keys_objDelete, mem_keys_objDelete,
    mem_keys_objDelete]
  tauto

/-- Deleting a property keeps the remaining keys distinct. -/
theorem nodup_keys_objDelete (o : Obj) (k : String) (h : (o.map Prod.fst).Nodup) :
    ((objDelete o k).map Prod.fst).Nodup :=
  List.Nodup.sublist (List.Sublist.map Prod.fst (List.filter_sublist o)) h

/-- Writing a property keeps the keys distinct. -/
theorem nodup_keys_objSet (o : Obj) (k : String) (v : EVal) (h : (o.map Prod.fst).Nodup) :
    ((objSet o k v).map Prod.fst).Nodup := by
  induction o with
  | nil => simp [objSet]
  | cons m rest ih =>
    simp only [List.map_cons, List.nodup_cons] at h
    by_cases hm : m.1 = k
    · simp only [objSet, hm, if_true, List.map_cons, List.nodup_cons]
      exact ⟨hm ▸ h.1, h.2⟩
    · simp only [objSet, hm, if_false, List.map_cons, List.nodup_cons]
      refine ⟨?_, ih h.2⟩
      rw [mem_keys_objSet]
      rintro (h1 | h1)
      · exact h.1 h1
      · exact hm h1

/-- The keys of `updateData` are distinct when those of the body are. -/
theorem nodup_keys_updateData (env : Env) (body : Obj) (h : (body.map Prod.fst).Nodup) :
    ((updateData env body).map Prod.fst).Nodup := by
  unfold updateData
  exact nodup_keys_objSet _ _ _ (nodup_keys_objDelete _ _ (nodup_keys_objDelete _ _
    (nodup_keys_objDelete _ _ (nodup_keys_objDelete _ _ h))))

/-- What `updateData` reads at a key other than `updatedAt` and the protected four. -/
theorem objGet_updateData (env : Env) (body : Obj) (k : String) (h0 : k ≠ "updatedAt")
    (h1 : k ≠ "eventId") (h2 : k ≠ "createdAt") (h3 : k ≠ "createdBy")
    (h4 : k ≠ "createdByEmail") : objGet (updateData env body) k = objGet body k := by
  unfold updateData
  rw [objGet_objSet_other _ _ _ _ h0, objGet_objDelete, if_neg h4, objGet_objDelete,
    if_neg h3, objGet_objDelete, if_neg h2, objGet_objDelete, if_neg h1]

/-- The properties of an updated event. -/
theorem applyUpdate_props (env : Env) (body e : Obj) (hbody : (body.map Prod.fst).Nodup) :
    objGet (applyUpdate env body e) "eventId" = objGet e "eventId" ∧
    objGet (applyUpdate env body e) "createdAt" = objGet e "createdAt" ∧
    objGet (applyUpdate env body e) "createdBy" = objGet e "createdBy" ∧
    objGet (applyUpdate env body e) "createdByEmail" = objGet e "createdByEmail" ∧
    objGet (applyUpdate env body e) "updatedAt" = EVal.date (env.clock 4) ∧
    (∀ k, k ∈ body.map Prod.fst → k ≠ "eventId" → k ≠ "createdAt" → k ≠ "createdBy" →
      k ≠ "createdByEmail" → k ≠ "updatedAt" →
      objGet (applyUpdate env body e) k = objGet body k) ∧
    (∀ k, k ∉ body.map Prod.fst → k ≠ "updatedAt" →
      objGet (applyUpdate env body e) k = objGet e k) := by
  have hnd := nodup_keys_updateData env body hbody
  have hget : ∀ k, objGet (applyUpdate env body e) k =
      if k ∈ (updateData env body).map Prod.fst then objGet (updateData env body) k
      else objGet e k := fun k => objGet_objSpread (updateData env body) e k hnd
  have hprot : ∀ k, k ≠ "updatedAt" → (k = "eventId" ∨ k = "createdAt" ∨ k = "createdBy" ∨
      k = "createdByEmail") → objGet (applyUpdate env body e) k = objGet e k := by
    intro k h0 hk
    rw [hget k, if_neg]
    rw [mem_keys_updateData]
    rintro (h | ⟨-, h1, h2, h3, h4⟩)
    · exact h0 h
    · rcases hk with hk | hk | hk | hk
      · exact h1 hk
      · exact h2 hk
      · exact h3 hk
      · exact h4 hk
  refine ⟨hprot _ (by decide) (Or.inl rfl), hprot _ (by decide) (Or.inr (Or.inl rfl)),
    hprot _ (by decide) (Or.inr (Or.inr (Or.inl rfl))),
    hprot _ (by decide) (Or.inr (Or.inr (Or.inr rfl))), ?_, ?_, ?_⟩
  · rw [hget, if_pos ((mem_keys_updateData env body _).2 (Or.inl rfl))]
    unfold updateData
    rw [objGet_objSet_same]
  · intro k hk h1 h2 h3 h4 h0
    rw [hget, if_pos ((mem_keys_updateData env body k).2 (Or.inr ⟨hk, h1, h2, h3, h4⟩)),
      objGet_updateData env body k h0 h1 h2 h3 h4]
  · intro k hk h0
    rw [hget, if_neg]
    rw [mem_keys_updateData]
    rintro (h | ⟨h, -⟩)
    · exact h0 h
    · exact hk h

/-- C17 fails for `updatedAt`: an update whose body names only `title` changes the stored
`updatedAt` (unset before, the time of the update after), and an update whose body names
`updatedAt` stores the time of the update and not the body's value. -/
theorem update_sets_updatedAt :
    oneEvent.events.map (fun e => objGet e "updatedAt") = [EVal.scalar JVal.undefined] ∧
    (putEvent laterEnv oneEvent "EVENT-1700000000000ABCDEFGHI"
        [("title", EVal.text "New title")]).1.events.map
        (fun e => (objGet e "title", objGet e "updatedAt")) =
      [(EVal.text "New title", EVal.date 1700000005000)] ∧
    (putEvent laterEnv oneEvent "EVENT-1700000000000ABCDEFGHI"
        [("updatedAt", EVal.text "2020-01-01")]).1.events.map
        (fun e => objGet e "updatedAt") = [EVal.date 1700000005000] := by
  decide

/-- C17 as amended: for every request body (an object, so with distinct keys), an update for
an id no stored event has is answered 404 and changes nothing; otherwise the (first) event
with the id keeps its `eventId`, `createdAt`, `createdBy` and `createdByEmail`, gets
`updatedAt` set to the time of the update, takes the body's value for every other property
the body names, keeps every property the body does not name, and all other events are
unchanged. -/
theorem update_event_frame (env : Env) (p : Process) (eventId : String) (body : Obj)
    (hbody : (body.map Prod.fst).Nodup) :
    ((∀ x ∈ p.events, eventIdIs eventId x = false) →
      putEvent env p eventId body =
        (p, { status := 404, success := some false, error := some "Event not found" })) ∧
    (∀ (l1 l2 : List Obj) (e : Obj), p.events = l1 ++ e :: l2 →
      (∀ x ∈ l1, eventIdIs eventId x = false) → eventIdIs eventId e = true →
      ∃ e1 : Obj,
        putEvent env p eventId body =
          ({ p with inMemoryEvents := some (l1 ++ e1 :: l2) },
           { status := 200, success := some true,
             message := some "Event updated successfully", payload := some e1 }) ∧
        objGet e1 "eventId" = objGet e "eventId" ∧
        objGet e1 "createdAt" = objGet e "createdAt" ∧
        objGet e1 "createdBy" = objGet e "createdBy" ∧
        objGet e1 "createdByEmail" = objGet e "createdByEmail" ∧
        objGet e1 "updatedAt" = EVal.date (env.clock 4) ∧
        (∀ k, k ∈ body.map Prod.fst → k ≠ "eventId" → k ≠ "createdAt" → k ≠ "createdBy" →
          k ≠ "createdByEmail" → k ≠ "updatedAt" → objGet e1 k = objGet body k) ∧
        (∀ k, k ∉ body.map Prod.fst → k ≠ "updatedAt" → objGet e1 k = objGet e k)) := by
  constructor
  · intro hnone
    simp [putEvent, find_none_of_all_false _ _ hnone]
  · intro l1 l2 e hs hl1 he
    obtain ⟨hrep, -, hfind⟩ := replaceFirst_split (eventIdIs eventId)
      (applyUpdate env body) l1 l2 e hl1 he
    obtain ⟨a1, a2, a3, a4, a5, a6, a7⟩ := applyUpdate_props env body e hbody
    refine ⟨applyUpdate env body e, ?_, a1, a2, a3, a4, a5, a6, a7⟩
    simp [putEvent, hs, hfind, eventsUpdated, hrep]

/-- C17 as amended, at an unknown id and at an update of the sample event that names a new
title and tries to name a new `eventId`. -/
theorem update_event_frame_witness :
    putEvent laterEnv oneEvent "EVENT-0" [("title", EVal.text "New title")] =
      (oneEvent, { status := 404, success := some false, error := some "Event not found" }) ∧
    (∃ e1 : Obj,
        putEvent laterEnv oneEvent "EVENT-1700000000000ABCDEFGHI"
            [("title", EVal.text "New title"), ("eventId", EVal.text "EVENT-X")] =
          ({ oneEvent with inMemoryEvents := some ([] ++ e1 :: []) },
           { status := 200, success := some true,
             message := some "Event updated successfully", payload := some e1 }) ∧
        objGet e1 "eventId" = objGet (eventData memoryEnv sampleEventBody) "eventId" ∧
        objGet e1 "createdAt" = objGet (eventData memoryEnv sampleEventBody) "createdAt" ∧
        objGet e1 "createdBy" = objGet (eventData memoryEnv sampleEventBody) "createdBy" ∧
        objGet e1 "createdByEmail" =
          objGet (eventData memoryEnv sampleEventBody) "createdByEmail" ∧
        objGet e1 "updatedAt" = EVal.date (laterEnv.clock 4) ∧
        (∀ k, k ∈ [("title", EVal.text "New title"),
              ("eventId", EVal.text "EVENT-X")].map Prod.fst →
          k ≠ "eventId" → k ≠ "createdAt" → k ≠ "createdBy" →
          k ≠ "createdByEmail" → k ≠ "updatedAt" →
          objGet e1 k = objGet [("title", EVal.text "New title"),
            ("eventId", EVal.text "EVENT-X")] k) ∧
        (∀ k, k ∉ [("title", EVal.text "New title"),
              ("eventId", EVal.text "EVENT-X")].map Prod.fst →
          k ≠ "updatedAt" →
          objGet e1 k = objGet (eventData memoryEnv sampleEventBody) k)) :=
  ⟨(update_event_frame laterEnv oneEvent "EVENT-0" [("title", EVal.text "New title")]
      (by decide)).1 (by decide),
   (update_event_frame laterEnv oneEvent "EVENT-1700000000000ABCDEFGHI"
      [("title", EVal.text "New title"), ("eventId", EVal.text "EVENT-X")] (by decide)).2
      [] [] (eventData memoryEnv sampleEventBody) (by decide) (by decide) (by decide)⟩

/-! ## Event delete route -/

/-- C19 fails after an id collision: two events created in the same millisecond with random
draws agreeing on nine digits share their `eventId`; the delete route answers 200 and removes
the first, and the lookup by that id still answers 200 with the second. -/
theorem delete_leaves_twin_event :
    twoEvents.events.map (fun e => objGet e "eventId") =
      [EVal.text "EVENT-1700000000000ABCDEFGHI", EVal.text "EVENT-1700000000000ABCDEFGHI"] ∧
    (deleteEvent twoEvents "EVENT-1700000000000ABCDEFGHI").2.status = 200 ∧
    (deleteEvent twoEvents "EVENT-1700000000000ABCDEFGHI").1.events.length = 1 ∧
    (getEvent (deleteEvent twoEvents "EVENT-1700000000000ABCDEFGHI").1
      "EVENT-1700000000000ABCDEFGHI").status = 200 := by
  decide

/-- C19 as amended: the delete route answers 404 and changes nothing when no stored event
has the id; otherwise it answers 200 and removes the first event with the id, keeping all
other events in their order, after which the lookup by that id answers 404 provided no other
stored event had the same id. -/
theorem delete_event_contract (p : Process) (eventId : String) :
    ((∀ x ∈ p.events, eventIdIs eventId x = false) →
      deleteEvent p eventId =
        (p, { status := 404, success := some false, error := some "Event not found" })) ∧
    (∀ (l1 l2 : List Obj) (e : Obj), p.events = l1 ++ e :: l2 →
      (∀ x ∈ l1, eventIdIs eventId x = false) → eventIdIs eventId e = true →
      deleteEvent p eventId =
          ({ p with inMemoryEvents := some (l1 ++ l2) },
           { status := 200, success := some true,
             message := some "Event deleted successfully" }) ∧
        (deleteEvent p eventId).1.events.filter (fun x => !eventIdIs eventId x) =
          p.events.filter (fun x => !eventIdIs eventId x) ∧
        ((∀ x ∈ l2, eventIdIs eventId x = false) →
          getEvent (deleteEvent p eventId).1 eventId =
            { status := 404, success := some false, error := some "Event not found" })) := by
  constructor
  · intro hnone
    simp [deleteEvent, find_none_of_all_false _ _ hnone]
  · intro l1 l2 e hs hl1 he
    obtain ⟨-, hrem, hfind⟩ := replaceFirst_split (eventIdIs eventId) id l1 l2 e hl1 he
    have hdel : deleteEvent p eventId =
        ({ p with inMemoryEvents := some (l1 ++ l2) },
         { status := 200, success := some true,
           message := some "Event deleted successfully" }) := by
      simp [deleteEvent, hs, hfind, hrem]
    refine ⟨hdel, ?_, ?_⟩
    · rw [hdel, hs]
      simp [Process.events, List.filter_append, List.filter_cons, he]
    · intro hl2
      rw [hdel]
      have hall : ∀ x ∈ l1 ++ l2, eventIdIs eventId x = false := by
        intro x hx
        rcases List.mem_append.1 hx with h | h
        · exact hl1 x h
        · exact hl2 x h
      simp [getEvent, Process.events, find_none_of_all_false _ _ hall]

/-- C19 as amended, at an unknown id and at the sample event, which is the only one with its
id. -/
theorem delete_event_contract_witness :
    deleteEvent oneEvent "EVENT-0" =
      (oneEvent, { status := 404, success := some false, error := some "Event not found" }) ∧
    deleteEvent oneEvent "EVENT-1700000000000ABCDEFGHI" =
      ({ oneEvent with inMemoryEvents := some ([] ++ []) },
       { status := 200, success := some true,
         message := some "Event deleted successfully" }) ∧
    getEvent (deleteEvent oneEvent "EVENT-1700000000000ABCDEFGHI").1
        "EVENT-1700000000000ABCDEFGHI" =
      { status := 404, success := some false, error := some "Event not found" } :=
  ⟨(delete_event_contract oneEvent "EVENT-0").1 (by decide),
   ((delete_event_contract oneEvent "EVENT-1700000000000ABCDEFGHI").2 [] []
      (eventData memoryEnv sampleEventBody) (by decide) (by decide) (by decide)).1,
   ((delete_event_contract oneEvent "EVENT-1700000000000ABCDEFGHI").2 [] []
      (eventData memoryEnv sampleEventBody) (by decide) (by decide) (by decide)).2.2
      (by decide)⟩

/-! ## Event status invariant -/

/-- C12 on the code: after the sample event is created, an update whose body names
`status: 'archived'` is answered 200 and the stored event has status `archived`, which is none
of active, cancelled, completed, draft. -/
theorem update_stores_any_status :
    (putEvent laterEnv oneEvent "EVENT-1700000000000ABCDEFGHI"
        [("status", EVal.text "archived")]).2.status = 200 ∧
    (putEvent laterEnv oneEvent "EVENT-1700000000000ABCDEFGHI"
        [("status", EVal.text "archived")]).1.events.map (fun e => objGet e "status") =
      [EVal.text "archived"] ∧
    isEventStatus (EVal.text "archived") = false ∧
    oneEvent.events.map (fun e => objGet e "status") = [EVal.text "active"] := by
  decide

/-- An element of a list after a replacement is an old element or the image of one. -/
theorem mem_replaceFirst (q : Obj → Bool) (f : Obj → Obj) (l : List Obj) (x : Obj)
    (hx : x ∈ replaceFirst q f l) : x ∈ l ∨ ∃ y ∈ l, x = f y := by
  induction l with
  | nil => simp [replaceFirst] at hx
  | cons a rest ih =>
    by_cases ha : q a = true
    · simp only [replaceFirst, ha, if_true, List.mem_cons] at hx
      rcases hx with h | h
      · exact Or.inr ⟨a, List.mem_cons_self _ _, h⟩
      · exact Or.inl (List.mem_cons_of_mem _ h)
    · have ha2 : q a = false := by simpa using ha
      simp only [replaceFirst, ha2, Bool.false_eq_true, if_false, List.mem_cons] at hx
      rcases hx with h | h
      · exact Or.inl (by rw [h]; exact List.mem_cons_self _ _)
      · rcases ih h with h1 | ⟨y, hy, hxy⟩
        · exact Or.inl (List.mem_cons_of_mem _ h1)
        · exact Or.inr ⟨y, List.mem_cons_of_mem _ hy, hxy⟩

/-- An element of a list after a removal is an old element. -/
theorem mem_removeFirst (q : Obj → Bool) (l : List Obj) (x : Obj)
    (hx : x ∈ removeFirst q l) : x ∈ l := by
  induction l with
  | nil => simp [removeFirst] at hx
  | cons a rest ih =>
    by_cases ha : q a = true
    · simp only [removeFirst, ha, if_true] at hx
      exact List.mem_cons_of_mem _ hx
    · have ha2 : q a = false := by simpa using ha
      simp only [removeFirst, ha2, Bool.false_eq_true, if_false, List.mem_cons] at hx
      rcases hx with h | h
      · rw [h]; exact List.mem_cons_self _ _
      · exact List.mem_cons_of_mem _ (ih h)

/-- The create, status and delete routes keep every stored event within the four status
values, and so does an update whose body names no `status` or names one of the four. -/
theorem eventStatusInvariant_kept (env : Env) (p : Process) (eventId : String) (body : Obj)
    (hp : EventStatusInvariant p) :
    EventStatusInvariant (postEventsCreate env p body).1 ∧
    EventStatusInvariant (patchEventStatus env p eventId body).1 ∧
    EventStatusInvariant (deleteEvent p eventId).1 ∧
    ((body.map Prod.fst).Nodup →
      ("status" ∉ body.map Prod.fst ∨ isEventStatus (objGet body "status") = true) →
      EventStatusInvariant (putEvent env p eventId body).1) := by
  refine ⟨?_, ?_, ?_, ?_⟩
  · unfold postEventsCreate
    split
    · exact hp
    · intro e he
      have hev : (sendEventCreatedEmail env
          { p with inMemoryEvents := some (p.events ++ [eventData env body]) }
          (objGet body "contactEmail") (eventData env body)).events =
          p.events ++ [eventData env body] := by
        unfold sendEventCreatedEmail
        split <;> rfl
      rw [hev] at he
      rcases List.mem_append.1 he with h | h
      · exact hp e h
      · simp only [List.mem_singleton] at h
        rw [h]
        rfl
  · unfold patchEventStatus
    split
    · exact hp
    · rename_i hst
      split
      · exact hp
      · intro e he
        have hst2 : isEventStatus (objGet body "status") = true := by simpa using hst
        rcases mem_replaceFirst _ _ _ e he with h | ⟨y, -, hy⟩
        · exact hp e h
        · rw [hy]
          unfold setStatus
          rw [objGet_objSet_other _ _ _ _ (by decide), objGet_objSet_same]
          exact hst2
  · unfold deleteEvent
    split
    · exact hp
    · intro e he
      exact hp e (mem_removeFirst _ _ e he)
  · intro hnd hbody
    unfold putEvent
    split
    · exact hp
    · intro e he
      rcases mem_replaceFirst _ _ _ e he with h | ⟨y, hy, hey⟩
      · exact hp e h
      · rw [hey]
        obtain ⟨-, -, -, -, -, hnamed, hkeep⟩ := applyUpdate_props env body y hnd
        by_cases hin : "status" ∈ body.map Prod.fst
        · rw [hnamed "status" hin (by decide) (by decide) (by decide) (by decide) (by decide)]
          rcases hbody with h | h
          · exact absurd hin h
          · exact h
        · rw [hkeep "status" hin (by decide)]
          exact hp y hy

/-! ## Sign-up -/

/-- C14 on the code: a sign-up with name, email and password is answered 500 `Server error
during signup` (the user lookup targets are not declared), the sign-in that follows with the
same email and password is answered 500 too, and a sign-up without password is answered
400. -/
theorem signup_is_500 :
    postAuthSignup sampleHash sampleCrypto memoryEnv sampleSignup =
      { status := 500, error := some "Server error during signup" } ∧
    postAuthSignin sampleCrypto memoryEnv
        { email := JVal.str "asha@example.com", password := JVal.str "secret" } =
      { status := 500, error := some "Server error during signin" } ∧
    postAuthSignup sampleHash sampleCrypto memoryEnv
        { sampleSignup with password := JVal.undefined } =
      { status := 400, error := some "All fields are required" } := by
  decide

/-- The decimal text of a number is not empty. -/
theorem toString_nat_ne_empty (n : Nat) : toString n ≠ "" := by
  intro h
  have hd : (toString n).data = Nat.toDigits 10 n := rfl
  rw [h] at hd
  exact (toDigits_spec n).2.2.1 hd.symm

/-- A truthy value is strictly equal to itself. -/
theorem strictEq_self (v : JVal) (h : v.truthy = true) : JVal.strictEq v v = true := by
  cases v <;> simp_all [JVal.strictEq, JVal.truthy]

/-- Had the module bound `inMemoryUsers` (the store being unreachable or `User` unbound), a
sign-up with all three fields and an email no stored user has would be answered 201, and the
sign-in with the same email and password would be answered 200 with a token and the user's
name and email; a sign-up with a field missing is answered 400 and stores no user. -/
theorem signup_then_signin_bound (users : List UserRecord) (hash : JVal → Option JVal)
    (crypto : Crypto) (env env2 : Env) (body : SignupRequest) (hashed : JVal)
    (hn : body.name.truthy = true) (he : body.email.truthy = true)
    (hp : body.password.truthy = true) (hh : hash body.password = some hashed)
    (hc : crypto.compare body.password hashed = some true)
    (hfresh : ∀ u ∈ users, JVal.strictEq u.email body.email = false) :
    (signupIn { User := none, inMemoryUsers := some users } hash crypto env body).2.status
      = 201 ∧
    signinIn (signupIn { User := none, inMemoryUsers := some users } hash crypto env body).1
        crypto env2 { email := body.email, password := body.password } =
      { status := 200, message := some "Login successful",
        payload := some { token := crypto.sign (JVal.str (toString (env.clock 0))) body.email
                          id := JVal.str (toString (env.clock 0))
                          name := body.name
                          email := body.email } } ∧
    (signupIn { User := none, inMemoryUsers := some users } hash crypto env
        { body with name := JVal.undefined }) =
      ({ User := none, inMemoryUsers := some users },
       { status := 400, error := some "All fields are required" }) := by
  have hfind : (users ++ [newUserData env body hashed]).find?
      (fun u => JVal.strictEq u.email body.email) = some (newUserData env body hashed) := by
    have hnone : users.find? (fun u => JVal.strictEq u.email body.email) = none := by
      rw [List.find?_eq_none]
      intro u hu
      simp [hfresh u hu]
    rw [List.find?_append, hnone]
    simp [newUserData, strictEq_self body.email he]
  refine ⟨?_, ?_, ?_⟩
  · simp [signupIn, hn, he, hp, hh]
  · simp only [signupIn, hn, he, hp, hh, signinIn, findUser, hfind, Bool.not_true,
      Bool.or_self, Bool.false_eq_true, if_false]
    simp [newUserData, hc, JVal.or, JVal.truthy, toString_nat_ne_empty]
  · simp [signupIn, JVal.truthy]

/-! ## Client payment flow -/

/-- A failed `processPayment` leaves the payment modal hidden and `currentPaymentData`
cleared, with one more re-open timer armed, whatever the page state before. -/
theorem processPayment_failed_state (c : Client) (paymentData : Obj) (reply : PaymentReply)
    (qr : QrReply) (hf : replyFails reply = true) :
    (processPayment c paymentData reply qr).currentPaymentData = none ∧
    (processPayment c paymentData reply qr).paymentModalHidden = true ∧
    (processPayment c paymentData reply qr).reopenTimers = c.reopenTimers + 1 ∧
    (processPayment c paymentData reply qr).myBookings = c.myBookings := by
  cases reply with
  | rejected message => exact ⟨rfl, rfl, rfl, rfl⟩
  | response ok status body =>
    cases ok with
    | false => exact ⟨rfl, rfl, rfl, rfl⟩
    | true =>
      cases body with
      | error message => exact ⟨rfl, rfl, rfl, rfl⟩
      | ok data =>
        obtain ⟨success, booking⟩ := data
        cases booking with
        | none => exact ⟨rfl, rfl, rfl, rfl⟩
        | some b =>
          have hs : success.truthy = false := by simpa [replyFails] using hf
          simp [processPayment, hs, paymentFailed, showNotification, hideProcessingLoader,
            showProcessingLoader, closePaymentModal]

/-- After a failed `processPayment`, the timer callback finds `currentPaymentData` cleared
and does not show the payment modal again, whatever data the modal had been opened with. -/
theorem reopen_after_failure_does_nothing (c : Client) (data paymentData : Obj)
    (reply : PaymentReply) (qr : QrReply) (hf : replyFails reply = true) :
    (fireReopenTimer
      (processPayment (showPaymentModal c data) paymentData reply qr)).paymentModalHidden
        = true ∧
    (fireReopenTimer
      (processPayment (showPaymentModal c data) paymentData reply qr)).currentPaymentData
        = none := by
  obtain ⟨h1, h2, -, -⟩ := processPayment_failed_state (showPaymentModal c data) paymentData
    reply qr hf
  unfold fireReopenTimer
  simp only [h1]
  exact ⟨h2, trivial⟩

/-- C13 on the code: the payment modal is opened with the sample data, the demo payment calls
`processPayment`, and the booking request rejects, is answered 500, or is answered without
booking; in each case, once the timer has fired, the payment modal is hidden and
`currentPaymentData` is `null`, not the sample data. -/
theorem payment_modal_not_reopened :
    ((fireReopenTimer (processPayment (showPaymentModal {} samplePaymentData)
        (demoPaymentData samplePaymentData) (PaymentReply.rejected "Failed to fetch")
        none)).paymentModalHidden,
      (fireReopenTimer (processPayment (showPaymentModal {} samplePaymentData)
        (demoPaymentData samplePaymentData) (PaymentReply.rejected "Failed to fetch")
        none)).currentPaymentData) = (true, none) ∧
    ((fireReopenTimer (processPayment (showPaymentModal {} samplePaymentData)
        (demoPaymentData samplePaymentData)
        (PaymentReply.response false 500 (Except.ok (JVal.bool false, none)))
        none)).paymentModalHidden,
      (fireReopenTimer (processPayment (showPaymentModal {} samplePaymentData)
        (demoPaymentData samplePaymentData)
        (PaymentReply.response false 500 (Except.ok (JVal.bool false, none)))
        none)).currentPaymentData) = (true, none) ∧
    ((fireReopenTimer (processPayment (showPaymentModal {} samplePaymentData)
        (demoPaymentData samplePaymentData)
        (PaymentReply.response true 200 (Except.ok (JVal.bool true, none)))
        none)).paymentModalHidden,
      (fireReopenTimer (processPayment (showPaymentModal {} samplePaymentData)
        (demoPaymentData samplePaymentData)
        (PaymentReply.response true 200 (Except.ok (JVal.bool true, none)))
        none)).currentPaymentData) = (true, none) ∧
    (processPayment (showPaymentModal {} samplePaymentData)
        (demoPaymentData samplePaymentData) (PaymentReply.rejected "Failed to fetch")
        none).reopenTimers = 1 ∧
    (showPaymentModal {} samplePaymentData).currentPaymentData = some samplePaymentData := by
  decide

/-! ## Fields of a paid booking -/

/-- C21: every booking created by `POST /api/bookings/with-payment` (every request answered
201) is stored and returned with status `confirmed` and payment status `completed`; its
`bookingId` is `BK` followed by the clock reading and the upper-cased random suffix; its
`paymentId` is the request's when that is truthy (supplied and non-empty) and otherwise the
generated id: `TXN` followed by the clock reading and the upper-cased random suffix of the
second draw; `paymentMethod` falls back to `unknown`, and `userPhone` and `paymentToken` to
`N/A`, when the request's value is absent (or otherwise falsy). -/
theorem paid_booking_fields (env : Env) (s : Server) (body : BookingRequest)
    (h : (postBookingsWithPayment env s body).2.status = 201) :
    ∃ (b : Booking) (v : BookingView),
      StoredNew s (postBookingsWithPayment env s body).1 b ∧
      (postBookingsWithPayment env s body).2.payload = some v ∧
      b.status = "confirmed" ∧ b.paymentStatus = "completed" ∧
      v.status = "confirmed" ∧ v.paymentStatus = JVal.str "completed" ∧
      b.bookingId =
        "BK" ++ (toString (env.clock 0) ++ toUpperCase (substr (env.random36 0) 2 9)) ∧
      v.bookingId = b.bookingId ∧
      (body.paymentId.truthy = true → b.paymentId = body.paymentId) ∧
      (body.paymentId.truthy = false →
        b.paymentId = JVal.str ("TXN" ++ (toString (env.clock 1) ++
          toUpperCase (substr (env.random36 1) 2 9)))) ∧
      v.paymentId = b.paymentId ∧
      (body.paymentMethod.truthy = true → b.paymentMethod = body.paymentMethod) ∧
      (body.paymentMethod.truthy = false → b.paymentMethod = JVal.str "unknown") ∧
      v.paymentMethod = b.paymentMethod ∧
      (body.userPhone.truthy = true → b.userPhone = body.userPhone) ∧
      (body.userPhone.truthy = false → b.userPhone = JVal.str "N/A") ∧
      v.userPhone = b.userPhone ∧
      (body.paymentToken.truthy = true → b.paymentToken = body.paymentToken) ∧
      (body.paymentToken.truthy = false → b.paymentToken = JVal.str "N/A") := by
  obtain ⟨qr, -, hb⟩ := postBookingsWithPayment_accepted env s body h
  refine ⟨paymentBookingData env body qr,
    paymentBookingView env (paymentBookingData env body qr),
    ?_, ?_, rfl, rfl, rfl, rfl, ?_, rfl, ?_, ?_, rfl, ?_, ?_, rfl, ?_, ?_, rfl, ?_, ?_⟩
  · rw [hb]; exact save_then_mail_storedNew env s _ _
  · rw [hb]
  · simp [paymentBookingData, generateBookingId, String.append_assoc]
  · intro ht; simp [paymentBookingData, JVal.or, ht]
  · intro ht
    simp [paymentBookingData, JVal.or, ht, generateTransactionId, String.append_assoc]
  · intro ht; simp [paymentBookingData, JVal.or, ht]
  · intro ht; simp [paymentBookingData, JVal.or, ht]
  · intro ht; simp [paymentBookingData, JVal.or, ht]
  · intro ht; simp [paymentBookingData, JVal.or, ht]
  · intro ht; simp [paymentBookingData, JVal.or, ht]
  · intro ht; simp [paymentBookingData, JVal.or, ht]

/-- C21 at the sample request in memory mode, which names no payment id, method, token or
phone: the booking has the id `BK1700000000000ABCDEFGHI`, the generated payment id
`TXN1700000000000ABCDEFGHI` and the three default values. -/
theorem paid_booking_fields_witness :
    ∃ (b : Booking) (v : BookingView),
      StoredNew {} (postBookingsWithPayment memoryEnv {} sampleRequest).1 b ∧
      (postBookingsWithPayment memoryEnv {} sampleRequest).2.payload = some v ∧
      b.status = "confirmed" ∧ b.paymentStatus = "completed" ∧
      v.status = "confirmed" ∧ v.paymentStatus = JVal.str "completed" ∧
      b.bookingId = "BK1700000000000ABCDEFGHI" ∧ v.bookingId = b.bookingId ∧
      b.paymentId = JVal.str "TXN1700000000000ABCDEFGHI" ∧ v.paymentId = b.paymentId ∧
      b.paymentMethod = JVal.str "unknown" ∧ v.paymentMethod = b.paymentMethod ∧
      b.userPhone = JVal.str "N/A" ∧ v.userPhone = b.userPhone ∧
      b.paymentToken = JVal.str "N/A" := by
  obtain ⟨b, v, h1, h2, h3, h4, h5, h6, h7, h8, -, h10, h11, -, h13, h14, -, h16, h17, -,
      h19⟩ := paid_booking_fields memoryEnv {} sampleRequest (by decide)
  exact ⟨b, v, h1, h2, h3, h4, h5, h6, h7.trans (by decide), h8,
    (h10 (by decide)).trans (by decide), h11, h13 (by decide), h14, h16 (by decide), h17,
    h19 (by decide)⟩

/-! ## Free events -/

/-- C30 fails on the code: an order for a free event (price 0, total 0, every other mandatory
field present) is answered 400 by the payment route in every environment and state, for the
total 0 is falsy in the required-field test, and nothing is stored; the plain booking route
accepts the same order with 201 and total 0. -/
theorem free_event_is_rejected :
    freeRequest.totalAmount = JVal.mul freeRequest.price freeRequest.ticketQuantity ∧
    (∀ (env : Env) (s : Server),
      postBookingsWithPayment env s freeRequest =
        (s, { status := 400, success := some false,
              error := some "Missing required booking information" })) ∧
    (postBookings memoryEnv {} freeRequest).2.status = 201 ∧
    (postBookings memoryEnv {} freeRequest).2.payload.map (fun v => v.totalAmount) =
      some (JVal.num 0) := by
  refine ⟨by decide, ?_, by decide, by decide⟩
  intro env s
  rfl

/-! ## Refund after verify -/

/-- C27 fails on the code: in memory, after a booking is paid and refunded (200), a verify
request for its id sets its payment status back to `completed`, and the next refund request
for the same id is answered 200 with the full amount again instead of 400. Without the verify
the second refund is answered 400. -/
theorem refund_again_after_verify :
    (handle memoryEnv (run {} (refundTwiceTrace.take 1))
      (Request.paymentsRefund (JVal.str "BK1700000000000ABCDEFGHI"))).2 = 200 ∧
    (run {} (refundTwiceTrace.take 2)).inMemoryBookings.map (fun b => b.paymentStatus) =
      ["refunded"] ∧
    (handle memoryEnv (run {} (refundTwiceTrace.take 2))
      (Request.paymentsRefund (JVal.str "BK1700000000000ABCDEFGHI"))).2 = 400 ∧
    (run {} refundTwiceTrace).inMemoryBookings.map (fun b => b.paymentStatus) =
      ["completed"] ∧
    (postPaymentsRefund memoryEnv (run {} refundTwiceTrace)
      (JVal.str "BK1700000000000ABCDEFGHI")).2 =
      { status := 200, success := some true, message := some "Refund processed successfully",
        payload := some (JVal.num 20) } := by
  decide

/-! ## Bookings of an event -/

/-- A booking record has no `eventId` property, so reading it gives `undefined`. -/
theorem booking_eventId_undefined (b : Booking) :
    "eventId" ∉ b.props.map Prod.fst ∧
      objGet b.props "eventId" = EVal.scalar JVal.undefined := by
  constructor
  · simp [Booking.props]
  · simp [Booking.props, objGet, List.find?]

/-- A route path matches only request paths of its own length. -/
theorem matchPath_length (segs : List Seg) : ∀ (path : List String)
    (params : List (String × String)), matchPath segs path = some params →
    segs.length = path.length := by
  induction segs with
  | nil =>
    intro path params h
    cases path with
    | nil => rfl
    | cons s rest => simp [matchPath] at h
  | cons seg segs ih =>
    intro path params h
    cases path with
    | nil => cases seg <;> simp [matchPath] at h
    | cons s rest =>
      cases seg with
      | lit text =>
        simp only [matchPath] at h
        split at h
        · simp [ih rest params h]
        · cases h
      | param name =>
        simp only [matchPath] at h
        split at h
        · cases h
        · cases hm : matchPath segs rest with
          | none => rw [hm] at h; cases h
          | some ps => simp [ih rest ps hm]

/-- Routes that do not match the request are passed over. -/
theorem firstMatch_skip (method : Method) (path : List String)
    (rest : List (Method × List Seg × Handler)) :
    ∀ pre : List (Method × List Seg × Handler),
      (∀ r ∈ pre, matchPath r.2.1 path = none) →
      firstMatch method path (pre ++ rest) = firstMatch method path rest := by
  intro pre
  induction pre with
  | nil => intro _; rfl
  | cons r pre ih =>
    intro h
    obtain ⟨m, segs, handler⟩ := r
    have hr : matchPath segs path = none := h (m, segs, handler) (List.mem_cons_self _ _)
    have hi := ih (fun x hx => h x (List.mem_cons_of_mem _ hx))
    simp only [List.cons_append, firstMatch, hr]
    split <;> exact hi

/-- A GET request for the bookings of an event reaches the event-bookings handler with the
event id as parameter, unless the id is `my-events`. -/
theorem dispatch_event_bookings (eventId : String) (h1 : eventId ≠ "")
    (h2 : asciiLower eventId ≠ asciiLower "my-events") :
    dispatch Method.get ["api", "events", eventId, "bookings"] =
      some (Handler.eventBookings, [("eventId", eventId)]) := by
  have hsplit : routes = routes.take 20 ++
      ((Method.get, [Seg.lit "api", Seg.lit "events", Seg.lit "my-events", Seg.param "email"],
          Handler.myEvents) ::
       (Method.get, [Seg.lit "api", Seg.lit "events", Seg.param "eventId", Seg.lit "bookings"],
          Handler.eventBookings) :: routes.drop 22) := by decide
  have hlen : ∀ r ∈ routes.take 20, r.2.1.length ≠ 4 := by decide
  have hpre : ∀ r ∈ routes.take 20,
      matchPath r.2.1 ["api", "events", eventId, "bookings"] = none := by
    intro r hr
    cases hm : matchPath r.2.1 ["api", "events", eventId, "bookings"] with
    | none => rfl
    | some ps => exact absurd (matchPath_length _ _ ps hm) (hlen r hr)
  unfold dispatch
  rw [hsplit, firstMatch_skip _ _ _ _ hpre]
  have ha : asciiLower "api" = asciiLower "api" := rfl
  have h3 : ¬ asciiLower "my-events" = asciiLower eventId := fun h => h2 h.symm
  simp only [firstMatch, matchPath, if_true, if_false, h1, h3]

/-- Adding integers from zero gives the integer that is their sum, as long as the magnitudes
add up to less than `2^53`. -/
theorem foldl_add_numbers (f : Booking → JVal) (bs : List Booking)
    (h : ∀ b ∈ bs, ∃ n : Int, f b = JVal.num n) : ∀ acc : Int,
    acc.natAbs + (bs.map (fun b => (f b).intValue.natAbs)).sum < 2 ^ 53 →
    bs.foldl (fun sum b => JVal.add sum (JVal.or (f b) (JVal.num 0))) (JVal.num acc) =
      JVal.num (acc + (bs.map (fun b => (f b).intValue)).sum) := by
  induction bs with
  | nil => intro acc _; simp
  | cons b bs ih =>
    intro acc hbound
    obtain ⟨n, hn⟩ := h b (List.mem_cons_self _ _)
    have hval : (f b).intValue = n := by rw [hn]; rfl
    simp only [List.map_cons, List.sum_cons, hval] at hbound
    have hsmall : (acc + n).natAbs < 2 ^ 53 := by
      have := Int.natAbs_add_le acc n
      omega
    have hstep : JVal.add (JVal.num acc) (JVal.or (f b) (JVal.num 0)) = JVal.num (acc + n) := by
      rw [hn]
      by_cases h0 : n = 0
      · subst h0
        have hacc : roundToDouble acc = acc := roundToDouble_small _ (by simpa using hsmall)
        simp [JVal.or, JVal.truthy, JVal.add, JVal.toNumber, hacc]
      · simp [JVal.or, JVal.truthy, h0, JVal.add, JVal.toNumber,
          roundToDouble_small _ hsmall]
    rw [List.foldl_cons, hstep, ih (fun x hx => h x (List.mem_cons_of_mem _ hx)) (acc + n)
      (by have := Int.natAbs_add_le acc n; omega)]
    simp [hn, JVal.intValue, add_assoc]

/-- C26 fails for the id `my-events`: the route `/api/events/my-events/:email` is registered
before `/api/events/:eventId/bookings`, so a GET of `/api/events/my-events/bookings` is
answered by the my-events handler with `email` `bookings`: a list of events and its count (1
here), and no statistics. -/
theorem my_events_answers_for_bookings :
    dispatch Method.get ["api", "events", "my-events", "bookings"] =
      some (Handler.myEvents, [("email", "bookings")]) ∧
    answerGet creatorProcess ["api", "events", "my-events", "bookings"] =
      Answer.events (getMyEvents creatorProcess "bookings") ∧
    (getMyEvents creatorProcess "bookings").payload.map (fun l => l.count) = some 1 ∧
    creatorProcess.server.inMemoryBookings.length = 1 := by
  decide

/-- C26 as amended: a booking record has no `eventId` property; hence, whatever requests were
served before and from whatever state, a GET of `/api/events/:eventId/bookings` for an
`eventId` other than `my-events` is answered by the event-bookings handler with no booking,
count 0 and statistics 0, 0, 0 and 0; and for every list of bookings with integer amounts and
quantities whose magnitudes add up to less than `2^53` the two totals are the sums of
`totalAmount` and of `ticketQuantity` over the list. -/
theorem event_bookings_empty (p : Process) (rs : List (Env × Endpoint)) (eventId : String)
    (h1 : eventId ≠ "") (h2 : asciiLower eventId ≠ asciiLower "my-events") :
    (∀ b : Booking, "eventId" ∉ b.props.map Prod.fst) ∧
    answerGet (serveAll p rs) ["api", "events", eventId, "bookings"] =
      Answer.eventBookings
        { status := 200, success := some true,
          payload := some { count := 0, totalBookings := 0, confirmedBookings := 0,
                            totalRevenue := JVal.num 0, totalTickets := JVal.num 0,
                            bookings := [] } } ∧
    (∀ bs : List Booking,
      (∀ b ∈ bs, ∃ a q : Int, b.totalAmount = JVal.num a ∧ b.ticketQuantity = JVal.num q) →
      (bs.map (fun b => b.totalAmount.intValue.natAbs)).sum < 2 ^ 53 →
      (bs.map (fun b => b.ticketQuantity.intValue.natAbs)).sum < 2 ^ 53 →
      (eventBookingsView bs).totalRevenue =
          JVal.num ((bs.map (fun b => b.totalAmount.intValue)).sum) ∧
        (eventBookingsView bs).totalTickets =
          JVal.num ((bs.map (fun b => b.ticketQuantity.intValue)).sum)) := by
  refine ⟨fun b => (booking_eventId_undefined b).1, ?_, ?_⟩
  · have hnil : (serveAll p rs).server.inMemoryBookings.filter
        (fun b => decide (objGet b.props "eventId" = EVal.text eventId)) = [] := by
      rw [List.filter_eq_nil_iff]
      intro b _
      simp [(booking_eventId_undefined b).2, EVal.text]
    simp [answerGet, dispatch_event_bookings eventId h1 h2, routeParam, List.lookup,
      getEventBookings, hnil, eventBookingsView, totalRevenue, totalTickets]
  · intro bs h ha hq
    have k1 := foldl_add_numbers (fun b => b.totalAmount) bs
      (fun b hb => (h b hb).elim fun a hx => hx.elim fun _ hh => ⟨a, hh.1⟩) 0
      (by simpa using ha)
    have k2 := foldl_add_numbers (fun b => b.ticketQuantity) bs
      (fun b hb => (h b hb).elim fun _ hx => hx.elim fun q hh => ⟨q, hh.2⟩) 0
      (by simpa using hq)
    simp only [zero_add] at k1 k2
    exact ⟨k1, k2⟩

/-- C26 as amended, after one paid booking in memory, asked for the `eventId` its 201 answer
carried, and the totals of a one-booking list. -/
theorem event_bookings_empty_witness :
    (serveAll {} [(memoryEnv, Endpoint.booking (Request.bookingWithPayment sampleRequest))]
      ).server.inMemoryBookings.length = 1 ∧
    (postBookingsWithPayment memoryEnv {} sampleRequest).2.payload.map (fun v => v.eventId) =
      some "1700000000000" ∧
    answerGet
      (serveAll {} [(memoryEnv, Endpoint.booking (Request.bookingWithPayment sampleRequest))])
      ["api", "events", "1700000000000", "bookings"] =
      Answer.eventBookings
        { status := 200, success := some true,
          payload := some { count := 0, totalBookings := 0, confirmedBookings := 0,
                            totalRevenue := JVal.num 0, totalTickets := JVal.num 0,
                            bookings := [] } } ∧
    (eventBookingsView [refundedBooking]).totalRevenue =
      JVal.num (([refundedBooking].map (fun b => b.totalAmount.intValue)).sum) ∧
    (eventBookingsView [refundedBooking]).totalRevenue = JVal.num 20 :=
  ⟨by decide, by decide,
   (event_bookings_empty {}
     [(memoryEnv, Endpoint.booking (Request.bookingWithPayment sampleRequest))]
     "1700000000000" (by decide) (by decide)).2.1,
   ((event_bookings_empty {} [] "x" (by decide) (by decide)).2.2 [refundedBooking]
     (fun b hb => ⟨20, 2, by simp at hb; subst hb; exact ⟨rfl, rfl⟩⟩)
     (by decide) (by decide)).1,
   by decide⟩

/-! ## Listing events -/

/-- A filter whose callback never throws is the plain filter. -/
theorem filterThrowing_of_total (f : Obj → Option Bool) (g : Obj → Bool) (l : List Obj)
    (h : ∀ e ∈ l, f e = some (g e)) : filterThrowing f l = some (l.filter g) := by
  induction l with
  | nil => rfl
  | cons e es ih =>
    rw [filterThrowing, h e (List.mem_cons_self _ _),
      ih (fun x hx => h x (List.mem_cons_of_mem _ hx))]
    by_cases hg : g e = true <;> simp [hg]

/-- On a string the lower-cased test does not throw. -/
theorem lowerIncludes_text (lower : String → String) (v : EVal) (t : String)
    (h : v.isText = true) :
    lowerIncludes lower v (lower t) = some (containsIgnoringCase lower v t) := by
  cases v with
  | scalar x =>
    cases x <;> simp_all [EVal.isText, lowerIncludes, containsIgnoringCase, EVal.textOr]
  | array items => simp [EVal.isText] at h
  | date ms => simp [EVal.isText] at h

/-- On an event whose three searched fields are strings, the search callback returns whether
one of them contains the search text ignoring case. -/
theorem searchMatches_text (lower : String → String) (t : String) (e : Obj)
    (h : (objGet e "title").isText = true ∧ (objGet e "description").isText = true ∧
      (objGet e "location").isText = true) :
    searchMatches lower (lower t) e =
      some (containsIgnoringCase lower (objGet e "title") t ||
        containsIgnoringCase lower (objGet e "description") t ||
        containsIgnoringCase lower (objGet e "location") t) := by
  unfold searchMatches
  rw [lowerIncludes_text lower _ t h.1, lowerIncludes_text lower _ t h.2.1,
    lowerIncludes_text lower _ t h.2.2]
  cases containsIgnoringCase lower (objGet e "title") t <;>
    cases containsIgnoringCase lower (objGet e "description") t <;> simp

/-- The category filter as a plain filter. -/
theorem categoryFiltered_eq (category : Option String) (events : List Obj) :
    categoryFiltered category events =
      events.filter (fun e =>
        match category with
        | none => true
        | some c => c = "" || decide (objGet e "category" = EVal.text c)) := by
  cases category with
  | none => simp [categoryFiltered]
  | some c =>
    by_cases hc : c = ""
    · simp [categoryFiltered, hc]
    · simp [categoryFiltered, hc]

/-- When no non-empty search text is given, or every stored event that passes the category
filter has strings as title, description and location, the list route answers 200 with
exactly the stored events, in stored order, whose status is the `status` parameter (default
`active`), whose category is the `category` parameter when a non-empty one is given, and,
when a non-empty search text is given, whose title, description or location contains it
ignoring letter case; `count` is the number of events returned. -/
theorem list_events_of_text_fields (lower : String → String) (p : Process) (q : EventsQuery)
    (h : ∀ t, q.search = some t → t ≠ "" → ∀ e ∈ categoryFiltered q.category p.events,
      (objGet e "title").isText = true ∧ (objGet e "description").isText = true ∧
        (objGet e "location").isText = true) :
    getEvents lower p q =
      { status := 200, success := some true,
        payload := some { count := (p.events.filter (listed lower q)).length
                          events := p.events.filter (listed lower q) } } := by
  have hs : searchFiltered lower q.search (categoryFiltered q.category p.events) =
      some ((categoryFiltered q.category p.events).filter (fun e =>
        match q.search with
        | none => true
        | some t =>
          t = "" || containsIgnoringCase lower (objGet e "title") t ||
            containsIgnoringCase lower (objGet e "description") t ||
            containsIgnoringCase lower (objGet e "location") t)) := by
    cases hq : q.search with
    | none => simp [searchFiltered]
    | some t =>
      by_cases ht : t = ""
      · simp [searchFiltered, ht]
      · simp only [searchFiltered, ht, if_false]
        rw [filterThrowing_of_total _ (fun e =>
          containsIgnoringCase lower (objGet e "title") t ||
            containsIgnoringCase lower (objGet e "description") t ||
            containsIgnoringCase lower (objGet e "location") t)]
        · simp [ht]
        · intro e he
          exact searchMatches_text lower t e (h t hq ht e he)
  have hl : ((categoryFiltered q.category p.events).filter (fun e =>
        match q.search with
        | none => true
        | some t =>
          t = "" || containsIgnoringCase lower (objGet e "title") t ||
            containsIgnoringCase lower (objGet e "description") t ||
            containsIgnoringCase lower (objGet e "location") t)).filter
        (fun e => decide (objGet e "status" = EVal.text (q.status.getD "active"))) =
      p.events.filter (listed lower q) := by
    rw [categoryFiltered_eq, List.filter_filter, List.filter_filter]
    apply List.filter_congr
    intro e _
    unfold listed
    cases q.category <;> cases q.search <;>
      cases decide (objGet e "status" = EVal.text (q.status.getD "active")) <;>
      simp [Bool.and_comm]
  simp only [getEvents, hs, hl]

/-- C22 fails on the code: an event created with the number 2025 as title and `Talks` as
description is stored (201) and is active; listed with the search text `talks` it is among
the events the claim says are returned, for its description contains the text ignoring case;
but the search callback calls `toLowerCase` on the title first, which throws, and the route
answers 500 with no events. The same event created with a string as title is listed
(count 1). -/
theorem list_with_search_can_fail :
    (postEventsCreate memoryEnv {} numericTitleBody).2.status = 201 ∧
    (postEventsCreate memoryEnv {} numericTitleBody).1.events.map
        (fun e => (objGet e "title", objGet e "description", objGet e "status")) =
      [(EVal.scalar (JVal.num 2025), EVal.text "Talks", EVal.text "active")] ∧
    (postEventsCreate memoryEnv {} numericTitleBody).1.events.filter
        (listed asciiLower { search := some "talks" }) =
      (postEventsCreate memoryEnv {} numericTitleBody).1.events ∧
    getEvents asciiLower (postEventsCreate memoryEnv {} numericTitleBody).1
        { search := some "talks" } =
      { status := 500, success := some false, error := some "Error fetching events" } ∧
    (getEvents asciiLower oneEvent { search := some "talks" }).payload.map
        (fun l => l.count) = some 1 := by
  decide

/-! ## Featured events -/

/-- The sort returns a permutation of its input. -/
theorem insertSorted_perm (cmp : Obj → Obj → JVal) (a : Obj) (l : List Obj) :
    (insertSorted cmp a l).Perm (a :: l) := by
  induction l with
  | nil => exact List.Perm.refl _
  | cons b l ih =>
    unfold insertSorted
    split
    · exact List.Perm.refl _
    · exact (List.Perm.cons b ih).trans (List.Perm.swap a b l)

/-- The sort returns a permutation of its input. -/
theorem jsSort_perm (cmp : Obj → Obj → JVal) (l : List Obj) : (jsSort cmp l).Perm l := by
  induction l with
  | nil => exact List.Perm.refl _
  | cons a l ih =>
    exact (insertSorted_perm cmp a (jsSort cmp l)).trans (List.Perm.cons a ih)

/-- Inserting keeps a list ordered, for a comparator that is total and transitive on the
elements at hand. -/
theorem insertSorted_pairwise (cmp : Obj → Obj → JVal) (P : Obj → Prop)
    (htot : ∀ a b, P a → P b → sortOrder cmp a b ≤ 0 ∨ sortOrder cmp b a ≤ 0)
    (htrans : ∀ a b c, P a → P b → P c → sortOrder cmp a b ≤ 0 → sortOrder cmp b c ≤ 0 →
      sortOrder cmp a c ≤ 0)
    (a : Obj) (ha : P a) (l : List Obj) (hl : ∀ x ∈ l, P x)
    (hs : l.Pairwise (fun x y => sortOrder cmp x y ≤ 0)) :
    (insertSorted cmp a l).Pairwise (fun x y => sortOrder cmp x y ≤ 0) := by
  induction l with
  | nil => simp [insertSorted]
  | cons b l ih =>
    have hb : P b := hl b (List.mem_cons_self _ _)
    have hl2 : ∀ x ∈ l, P x := fun x hx => hl x (List.mem_cons_of_mem _ hx)
    rw [List.pairwise_cons] at hs
    unfold insertSorted
    split
    · rename_i hab
      rw [List.pairwise_cons]
      refine ⟨?_, List.pairwise_cons.2 hs⟩
      intro x hx
      rcases List.mem_cons.1 hx with rfl | hx2
      · exact hab
      · exact htrans a b x ha hb (hl2 x hx2) hab (hs.1 x hx2)
    · rename_i hab
      have hba : sortOrder cmp b a ≤ 0 := (htot a b ha hb).resolve_left hab
      rw [List.pairwise_cons]
      refine ⟨?_, ih hl2 hs.2⟩
      intro x hx
      rcases List.mem_cons.1 ((insertSorted_perm cmp a l).mem_iff.1 hx) with rfl | hx2
      · exact hba
      · exact hs.1 x hx2

/-- The sort orders its input, for a comparator that is total and transitive on the
elements at hand. -/
theorem jsSort_pairwise (cmp : Obj → Obj → JVal) (P : Obj → Prop)
    (htot : ∀ a b, P a → P b → sortOrder cmp a b ≤ 0 ∨ sortOrder cmp b a ≤ 0)
    (htrans : ∀ a b c, P a → P b → P c → sortOrder cmp a b ≤ 0 → sortOrder cmp b c ≤ 0 →
      sortOrder cmp a c ≤ 0)
    (l : List Obj) (hl : ∀ x ∈ l, P x) :
    (jsSort cmp l).Pairwise (fun x y => sortOrder cmp x y ≤ 0) := by
  induction l with
  | nil => simp [jsSort]
  | cons a l ih =>
    have hl2 : ∀ x ∈ l, P x := fun x hx => hl x (List.mem_cons_of_mem _ hx)
    exact insertSorted_pairwise cmp P htot htrans a (hl a (List.mem_cons_self _ _))
      (jsSort cmp l) (fun x hx => hl2 x ((jsSort_perm cmp l).mem_iff.1 hx)) (ih hl2)

/-- On two events with numeric attendees and dated creation, the comparator puts `a` no later
than `b` exactly when `a` has more attendees, or as many and is not older. -/
theorem sortOrder_compareFeatured (parseDate : String → JVal) (a b : Obj)
    (ha : Rankable a) (hb : Rankable b) :
    sortOrder (compareFeatured parseDate) a b ≤ 0 ↔ FeaturedBefore a b := by
  obtain ⟨⟨na, hna⟩, ⟨ca, hca⟩⟩ := ha
  obtain ⟨⟨nb, hnb⟩, ⟨cb, hcb⟩⟩ := hb
  unfold FeaturedBefore attendeesOf createdAtOf sortOrder compareFeatured
  rw [hna, hnb, hca, hcb]
  by_cases hn : nb = na
  · subst hn
    simp [EVal.strictNe, JVal.strictEq, timeValue, JVal.sub, JVal.toNumber]
  · have hn2 : (JVal.num nb == JVal.num na) = false := by simpa using hn
    simp [EVal.strictNe, JVal.strictEq, hn2, EVal.toNumber, JVal.toNumber, JVal.sub, hn]
    omega

/-- The featured list of a process whose active events have numeric attendees and dated
creation. -/
theorem getFeatured_ranked (parseDate : String → JVal) (p : Process)
    (h : ∀ e ∈ p.events, isActive e = true → Rankable e) :
    ∃ result rest : List Obj,
      getFeatured parseDate p =
        { status := 200, success := some true,
          payload := some { count := result.length, events := result } } ∧
      (∀ e ∈ result, objGet e "status" = EVal.text "active") ∧
      result.length = min 6 (p.events.filter isActive).length ∧
      result.Pairwise FeaturedBefore ∧
      (result ++ rest).Perm (p.events.filter isActive) ∧
      ∀ x ∈ rest, ∀ r ∈ result, attendeesOf x ≤ attendeesOf r := by
  have hact : ∀ x ∈ p.events.filter isActive, Rankable x := by
    intro x hx
    rw [List.mem_filter] at hx
    exact h x hx.1 hx.2
  have hsorted := jsSort_pairwise (compareFeatured parseDate) Rankable
    (fun a b ha hb => by
      rw [sortOrder_compareFeatured parseDate a b ha hb,
        sortOrder_compareFeatured parseDate b a hb ha]
      unfold FeaturedBefore
      omega)
    (fun a b c ha hb hc => by
      rw [sortOrder_compareFeatured parseDate a b ha hb,
        sortOrder_compareFeatured parseDate b c hb hc,
        sortOrder_compareFeatured parseDate a c ha hc]
      unfold FeaturedBefore
      omega)
    (p.events.filter isActive) hact
  have hperm := jsSort_perm (compareFeatured parseDate) (p.events.filter isActive)
  have hmem : ∀ x ∈ jsSort (compareFeatured parseDate) (p.events.filter isActive),
      Rankable x := fun x hx => hact x (hperm.mem_iff.1 hx)
  have hranked : (jsSort (compareFeatured parseDate) (p.events.filter isActive)).Pairwise
      FeaturedBefore :=
    List.Pairwise.imp_of_mem
      (fun {a b} ha hb hab => (sortOrder_compareFeatured parseDate a b (hmem a ha)
        (hmem b hb)).1 hab) hsorted
  refine ⟨(jsSort (compareFeatured parseDate) (p.events.filter isActive)).take 6,
    (jsSort (compareFeatured parseDate) (p.events.filter isActive)).drop 6, rfl, ?_, ?_, ?_,
    ?_, ?_⟩
  · intro e he
    have he2 := hperm.mem_iff.1 (List.mem_of_mem_take he)
    rw [List.mem_filter] at he2
    simpa [isActive] using he2.2
  · rw [List.length_take, hperm.length_eq]
  · exact List.Pairwise.sublist (List.take_sublist _ _) hranked
  · rw [List.take_append_drop]
    exact hperm
  · intro x hx r hr
    have hsplit := hranked
    rw [← List.take_append_drop 6
      (jsSort (compareFeatured parseDate) (p.events.filter isActive)),
      List.pairwise_append] at hsplit
    have hrx := hsplit.2.2 r hr x hx
    unfold FeaturedBefore at hrx
    omega

/-- Reading a property of `{ ...a, ...b }` that `b` does not have. -/
theorem objGet_objSpread_absent (b : Obj) : ∀ (a : Obj) (k : String),
    k ∉ b.map Prod.fst → objGet (objSpread a b) k = objGet a k := by
  induction b with
  | nil => intro a k _; rfl
  | cons m rest ih =>
    intro a k hk
    simp only [List.map_cons, List.mem_cons, not_or] at hk
    have hstep : objSpread a (m :: rest) = objSpread (objSet a m.1 m.2) rest := rfl
    rw [hstep, ih (objSet a m.1 m.2) k hk.2]
    exact objGet_objSet_other a m.1 k m.2 hk.1

/-- The update route leaves `createdAt` as it was, whatever the body. -/
theorem createdAt_applyUpdate (env : Env) (body e : Obj) :
    objGet (applyUpdate env body e) "createdAt" = objGet e "createdAt" := by
  unfold applyUpdate
  apply objGet_objSpread_absent
  rw [mem_keys_updateData]
  simp

/-- Every route keeps `createdAt` a `Date` on every stored event. -/
theorem datedEvents_serve (env : Env) (p : Process) (r : Endpoint) (hp : DatedEvents p) :
    DatedEvents (serve env p r) := by
  cases r with
  | booking req => exact hp
  | authSignup body => exact hp
  | authSignin body => exact hp
  | readOnly route => exact hp
  | eventsCreate body =>
    simp only [serve]
    unfold postEventsCreate
    split
    · exact hp
    · intro e he
      have hev : (sendEventCreatedEmail env
          { p with inMemoryEvents := some (p.events ++ [eventData env body]) }
          (objGet body "contactEmail") (eventData env body)).events =
          p.events ++ [eventData env body] := by
        unfold sendEventCreatedEmail
        split <;> rfl
      rw [hev] at he
      rcases List.mem_append.1 he with h | h
      · exact hp e h
      · simp only [List.mem_singleton] at h
        rw [h]
        exact ⟨env.clock 3, rfl⟩
  | eventsUpdate eventId body =>
    simp only [serve]
    unfold putEvent
    split
    · exact hp
    · intro e he
      rcases mem_replaceFirst _ _ _ e he with h | ⟨y, hy, hey⟩
      · exact hp e h
      · rw [hey, createdAt_applyUpdate]
        exact hp y hy
  | eventsDelete eventId =>
    simp only [serve]
    unfold deleteEvent
    split
    · exact hp
    · intro e he
      exact hp e (mem_removeFirst _ _ e he)
  | eventsStatus eventId body =>
    simp only [serve]
    unfold patchEventStatus
    split
    · exact hp
    · split
      · exact hp
      · intro e he
        rcases mem_replaceFirst _ _ _ e he with h | ⟨y, hy, hey⟩
        · exact hp e h
        · rw [hey]
          unfold setStatus
          rw [objGet_objSet_other _ _ _ _ (by decide), objGet_objSet_other _ _ _ _ (by decide)]
          exact hp y hy

/-- After any sequence of requests from start-up, `createdAt` is a `Date` on every stored
event. -/
theorem datedEvents_serveAll (rs : List (Env × Endpoint)) : ∀ p : Process, DatedEvents p →
    DatedEvents (serveAll p rs) := by
  induction rs with
  | nil => intro p hp; exact hp
  | cons r rest ih =>
    intro p hp
    obtain ⟨env, req⟩ := r
    exact ih (serve env p req) (datedEvents_serve env p req hp)

/-- C23: after any sequence of requests from start-up, if the active events have numeric
attendee counts, the featured route answers with a list that holds only active events, has
`min 6 n` entries for `n` active events, is ordered by attendees descending and, among equal
attendees, by `createdAt` newest first, and is the front of a permutation of the active
events whose remaining part holds no event with more attendees than any event of the
list. -/
theorem featured_contract (parseDate : String → JVal) (rs : List (Env × Endpoint))
    (hn : ∀ e ∈ (serveAll {} rs).events, isActive e = true →
      ∃ n : Int, objGet e "attendees" = EVal.scalar (JVal.num n)) :
    ∃ result rest : List Obj,
      getFeatured parseDate (serveAll {} rs) =
        { status := 200, success := some true,
          payload := some { count := result.length, events := result } } ∧
      (∀ e ∈ result, objGet e "status" = EVal.text "active") ∧
      result.length = min 6 ((serveAll {} rs).events.filter isActive).length ∧
      result.Pairwise FeaturedBefore ∧
      (result ++ rest).Perm ((serveAll {} rs).events.filter isActive) ∧
      ∀ x ∈ rest, ∀ r ∈ result, attendeesOf x ≤ attendeesOf r := by
  have hd : DatedEvents (serveAll {} rs) :=
    datedEvents_serveAll rs {} (fun e he => by simp [Process.events] at he)
  exact getFeatured_ranked parseDate (serveAll {} rs)
    (fun e he ha => ⟨hn e he ha, hd e he⟩)

/-- C23 on three created events with 5, 9 and 5 attendees, the last two created later: the
list is the event with 9, then the later of the two with 5, then the earlier. -/
theorem featured_contract_witness :
    (∃ result rest : List Obj,
      getFeatured noDate (serveAll {} featuredTrace) =
        { status := 200, success := some true,
          payload := some { count := result.length, events := result } } ∧
      (∀ e ∈ result, objGet e "status" = EVal.text "active") ∧
      result.length = min 6 ((serveAll {} featuredTrace).events.filter isActive).length ∧
      result.Pairwise FeaturedBefore ∧
      (result ++ rest).Perm ((serveAll {} featuredTrace).events.filter isActive) ∧
      ∀ x ∈ rest, ∀ r ∈ result, attendeesOf x ≤ attendeesOf r) ∧
    (getFeatured noDate (serveAll {} featuredTrace)).payload.map
        (fun l => l.events.map (fun e => (attendeesOf e, createdAtOf e))) =
      some [(9, 1700000005000), (5, 1700000005000), (5, 1700000000000)] := by
  refine ⟨featured_contract noDate featuredTrace ?_, by decide⟩
  intro e he _
  have hl : (serveAll {} featuredTrace).events.map (fun e => objGet e "attendees") =
      [EVal.scalar (JVal.num 5), EVal.scalar (JVal.num 9), EVal.scalar (JVal.num 5)] := by
    decide
  have hm : objGet e "attendees" ∈
      (serveAll {} featuredTrace).events.map (fun e => objGet e "attendees") :=
    List.mem_map_of_mem _ he
  rw [hl] at hm
  simp only [List.mem_cons, List.mem_singleton, List.not_mem_nil, or_false] at hm
  rcases hm with h | h | h
  · exact ⟨5, h⟩
  · exact ⟨9, h⟩
  · exact ⟨5, h⟩

/-! ## Route order -/

/-- A path that the single-event route does not match is matched by no three-segment route
under `/api/events` that ends in a non-empty literal. -/
theorem matchPath_events_literal (x : String) (path : List String)
    (hx : asciiLower x ≠ asciiLower "")
    (h : matchPath [Seg.lit "api", Seg.lit "events", Seg.param "eventId"] path = none) :
    matchPath [Seg.lit "api", Seg.lit "events", Seg.lit x] path = none := by
  rcases path with _ | ⟨a, _ | ⟨b, _ | ⟨c, _ | ⟨d, rest⟩⟩⟩⟩
  · rfl
  · simp only [matchPath]
    split <;> rfl
  · simp only [matchPath]
    split
    · split <;> rfl
    · rfl
  · simp only [matchPath] at h ⊢
    by_cases h1 : asciiLower "api" = asciiLower a
    · by_cases h2 : asciiLower "events" = asciiLower b
      · by_cases h3 : c = ""
        · subst h3
          simp [h1, h2, hx]
        · simp [h1, h2, h3] at h
      · simp [h1, h2]
    · simp [h1]
  · simp only [matchPath]
    split
    · split
      · split <;> rfl
      · rfl
    · rfl

/-- A request answered by the table is answered by one of its routes, whose path matches. -/
theorem firstMatch_mem (method : Method) (path : List String) (h : Handler)
    (params : List (String × String)) (table : List (Method × List Seg × Handler))
    (hf : firstMatch method path table = some (h, params)) :
    ∃ segs, (method, segs, h) ∈ table ∧ matchPath segs path = some params := by
  induction table with
  | nil => simp [firstMatch] at hf
  | cons r rest ih =>
    obtain ⟨m, segs, h0⟩ := r
    simp only [firstMatch] at hf
    by_cases hm : m = method
    · rw [if_pos hm] at hf
      cases hmp : matchPath segs path with
      | none =>
        rw [hmp] at hf
        obtain ⟨segs2, hmem, hmatch⟩ := ih hf
        exact ⟨segs2, List.mem_cons_of_mem _ hmem, hmatch⟩
      | some ps =>
        rw [hmp] at hf
        simp only [Option.some.injEq, Prod.mk.injEq] at hf
        refine ⟨segs, ?_, ?_⟩
        · rw [hm, hf.1]; exact List.mem_cons_self _ _
        · rw [hmp, hf.2]
    · rw [if_neg hm] at hf
      obtain ⟨segs2, hmem, hmatch⟩ := ih hf
      exact ⟨segs2, List.mem_cons_of_mem _ hmem, hmatch⟩

/-- When a route of the table matches the request, the request is answered by that route or
by one registered before it. -/
theorem firstMatch_before (method : Method) (path : List String) (segs : List Seg)
    (h0 : Handler) (params0 : List (String × String))
    (post : List (Method × List Seg × Handler))
    (hmatch : matchPath segs path = some params0) :
    ∀ (pre : List (Method × List Seg × Handler)) (x : Handler × List (String × String)),
      firstMatch method path (pre ++ (method, segs, h0) :: post) = some x →
      x.1 ∈ pre.map (fun r => r.2.2) ∨ x.1 = h0 := by
  intro pre
  induction pre with
  | nil =>
    intro x hx
    simp only [List.nil_append, firstMatch, if_true, hmatch, Option.some.injEq] at hx
    right
    rw [← hx]
  | cons r rest ih =>
    intro x hx
    obtain ⟨m, segs1, h1⟩ := r
    simp only [List.cons_append, firstMatch] at hx
    by_cases hm : m = method
    · rw [if_pos hm] at hx
      cases hmp : matchPath segs1 path with
      | none =>
        rw [hmp] at hx
        rcases ih x hx with h | h
        · exact Or.inl (List.mem_cons_of_mem _ h)
        · exact Or.inr h
      | some ps =>
        rw [hmp] at hx
        simp only [Option.some.injEq] at hx
        left
        rw [← hx]
        exact List.mem_cons_self _ _
    · rw [if_neg hm] at hx
      rcases ih x hx with h | h
      · exact Or.inl (List.mem_cons_of_mem _ h)
      · exact Or.inr h

/-- No GET request is answered by the search, featured or upcoming handler. -/
theorem listing_handlers_unreachable (path : List String) (h : Handler)
    (params : List (String × String)) (hd : dispatch Method.get path = some (h, params)) :
    h ≠ Handler.eventsSearch ∧ h ≠ Handler.featured ∧ h ≠ Handler.upcoming := by
  cases hg : matchPath [Seg.lit "api", Seg.lit "events", Seg.param "eventId"] path with
  | some ps =>
    have hsplit : routes = routes.take 17 ++
        (Method.get, [Seg.lit "api", Seg.lit "events", Seg.param "eventId"],
          Handler.eventsGet) :: routes.drop 18 := by decide
    unfold dispatch at hd
    rw [hsplit] at hd
    have hx := firstMatch_before Method.get path _ Handler.eventsGet ps _ hg _ _ hd
    rcases hx with hx | hx
    · have hnot : Handler.eventsSearch ∉ (routes.take 17).map (fun r => r.2.2) ∧
          Handler.featured ∉ (routes.take 17).map (fun r => r.2.2) ∧
          Handler.upcoming ∉ (routes.take 17).map (fun r => r.2.2) := by decide
      refine ⟨?_, ?_, ?_⟩ <;> intro heq <;> simp only [heq] at hx
      · exact hnot.1 hx
      · exact hnot.2.1 hx
      · exact hnot.2.2 hx
    · simp only at hx
      rw [hx]
      decide
  | none =>
    obtain ⟨segs, hmem, hmatch⟩ := firstMatch_mem Method.get path h params routes hd
    have h1 := matchPath_events_literal "search" path (by decide) hg
    have h2 := matchPath_events_literal "featured" path (by decide) hg
    have h3 := matchPath_events_literal "upcoming" path (by decide) hg
    refine ⟨?_, ?_, ?_⟩ <;> intro heq <;> subst heq <;>
      simp [routes] at hmem <;> subst hmem <;> simp_all

/-- C28 fails on the code: `/api/events/:eventId` is registered before the search, featured
and upcoming routes, so a GET of `/api/events/search`, `/api/events/featured` or
`/api/events/upcoming` is handled by the single-event handler with the last segment as
`eventId`; with an active event stored, that handler answers 404 where the featured handler
would list the event. The booking routes register `my-bookings` before `:bookingId`, and that
request reaches its own handler. -/
theorem listing_routes_are_shadowed :
    dispatch Method.get ["api", "events", "search"] =
      some (Handler.eventsGet, [("eventId", "search")]) ∧
    dispatch Method.get ["api", "events", "featured"] =
      some (Handler.eventsGet, [("eventId", "featured")]) ∧
    dispatch Method.get ["api", "events", "upcoming"] =
      some (Handler.eventsGet, [("eventId", "upcoming")]) ∧
    (∀ path params, dispatch Method.get path ≠ some (Handler.eventsSearch, params) ∧
      dispatch Method.get path ≠ some (Handler.featured, params) ∧
      dispatch Method.get path ≠ some (Handler.upcoming, params)) ∧
    getEvent oneEvent "featured" =
      { status := 404, success := some false, error := some "Event not found" } ∧
    (getFeatured noDate oneEvent).payload.map (fun l => l.count) = some 1 ∧
    dispatch Method.get ["api", "bookings", "my-bookings"] = some (Handler.myBookings, []) := by
  refine ⟨by decide, by decide, by decide, ?_, by decide, by decide, by decide⟩
  intro path params
  refine ⟨fun hd => ?_, fun hd => ?_, fun hd => ?_⟩
  · exact (listing_handlers_unreachable path _ params hd).1 rfl
  · exact (listing_handlers_unreachable path _ params hd).2.1 rfl
  · exact (listing_handlers_unreachable path _ params hd).2.2 rfl

/-! ## Client event list -/

/-- C24 fails in its last part: with the backend unavailable and two local events of
different ids, the second is left out because the first one's `eventId` is its `id`; the
local list with repeated ids removed keeps both. -/
theorem local_event_dropped_by_eventId :
    localPair.map (fun e => objGet e "id") =
      [EVal.text "EVENT-1700000000000", EVal.text "EVENT-1700000000001"] ∧
    dedupById localPair = localPair ∧
    loadAllEvents EventsReply.rejected localPair = localPair.take 1 ∧
    loadAllEvents EventsReply.rejected localPair ≠ dedupById localPair := by
  decide

/-- What the merge loop appends to the events it starts from. -/
theorem foldl_mergeLocal (ls : List Obj) : ∀ acc : List Obj,
    ∃ appended : List Obj,
      ls.foldl mergeLocal acc = acc ++ appended ∧
      appended.Sublist ls ∧
      (∀ (i : Nat) (x : Obj), appended[i]? = some x →
        (acc ++ appended.take i).any (fun e => sameEvent e x) = false) ∧
      (∀ l ∈ ls, l ∈ appended ∨ (acc ++ appended).any (fun e => sameEvent e l) = true) := by
  induction ls with
  | nil =>
    intro acc
    exact ⟨[], by simp, List.Sublist.refl _, by simp, by simp⟩
  | cons l ls ih =>
    intro acc
    by_cases hl : acc.any (fun e => sameEvent e l) = true
    · obtain ⟨app, h1, h2, h3, h4⟩ := ih acc
      refine ⟨app, ?_, List.Sublist.cons l h2, h3, ?_⟩
      · rw [List.foldl_cons]
        simp only [mergeLocal, hl, if_true]
        exact h1
      · intro x hx
        rcases List.mem_cons.1 hx with rfl | hx2
        · right
          rw [List.any_append, hl, Bool.true_or]
        · exact h4 x hx2
    · have hl2 : acc.any (fun e => sameEvent e l) = false := by simpa using hl
      obtain ⟨app, h1, h2, h3, h4⟩ := ih (acc ++ [l])
      refine ⟨l :: app, ?_, List.Sublist.cons₂ l h2, ?_, ?_⟩
      · rw [List.foldl_cons]
        simp only [mergeLocal, hl2, Bool.false_eq_true, if_false]
        rw [h1, List.append_assoc]
        rfl
      · intro i x hx
        cases i with
        | zero =>
          simp only [List.getElem?_cons_zero, Option.some.injEq] at hx
          rw [← hx]
          simpa using hl2
        | succ j =>
          simp only [List.getElem?_cons_succ] at hx
          have := h3 j x hx
          simpa [List.append_assoc] using this
      · intro x hx
        rcases List.mem_cons.1 hx with rfl | hx2
        · left; exact List.mem_cons_self _ _
        · rcases h4 x hx2 with h | h
          · left; exact List.mem_cons_of_mem _ h
          · right
            simpa [List.append_assoc] using h

/-- Two events with the same id read the same `id` value. -/
theorem sameId_eq (a b : Obj) (h : sameId a b = true) : objGet a "id" = objGet b "id" := by
  unfold sameId at h
  cases ha : objGet a "id" with
  | scalar x =>
    cases hb : objGet b "id" with
    | scalar y =>
      rw [ha, hb] at h
      cases x <;> cases y <;> simp_all [EVal.strictNe, JVal.strictEq]
    | array items => rw [ha, hb] at h; simp [EVal.strictNe] at h
    | date ms => rw [ha, hb] at h; simp [EVal.strictNe] at h
  | array items => rw [ha] at h; simp [EVal.strictNe] at h
  | date ms => rw [ha] at h; simp [EVal.strictNe] at h

/-- Having the same id is transitive. -/
theorem sameId_trans (a b c : Obj) (h1 : sameId a b = true) (h2 : sameId b c = true) :
    sameId a c = true := by
  have h := sameId_eq a b h1
  unfold sameId at h2 ⊢
  rw [h]
  exact h2

/-- Two callbacks that agree on a list give the same `some`. -/
theorem any_congr_mem (l : List Obj) (f g : Obj → Bool) (h : ∀ e ∈ l, f e = g e) :
    l.any f = l.any g := by
  induction l with
  | nil => rfl
  | cons a l ih =>
    simp only [List.any_cons]
    rw [h a (List.mem_cons_self _ _), ih (fun e he => h e (List.mem_cons_of_mem _ he))]

/-- When the `eventId` test adds nothing to the `id` test, the merge loop appends the local
events with repeated ids removed, less those whose id is already there. -/
theorem foldl_mergeLocal_dedup (ls : List Obj) : ∀ acc : List Obj,
    (∀ e ∈ acc ++ ls, ∀ x ∈ ls, sameEvent e x = sameId e x) →
    ls.foldl mergeLocal acc =
      acc ++ (dedupById ls).filter (fun x => !acc.any (fun e => sameId e x)) := by
  induction ls with
  | nil => intro acc _; simp [dedupById]
  | cons l ls ih =>
    intro acc hc
    have hany : acc.any (fun e => sameEvent e l) = acc.any (fun e => sameId e l) :=
      any_congr_mem acc _ _ (fun e he =>
        hc e (List.mem_append_left _ he) l (List.mem_cons_self _ _))
    rw [List.foldl_cons]
    by_cases hl : acc.any (fun e => sameId e l) = true
    · have hm : mergeLocal acc l = acc := by simp [mergeLocal, hany, hl]
      rw [hm, ih acc (fun e he x hx => hc e (by
        rcases List.mem_append.1 he with h | h
        · exact List.mem_append_left _ h
        · exact List.mem_append_right _ (List.mem_cons_of_mem _ h))
        x (List.mem_cons_of_mem _ hx))]
      congr 1
      simp only [dedupById, List.filter_cons, hl, Bool.not_true, Bool.false_eq_true, if_false,
        List.filter_filter]
      apply List.filter_congr
      intro x _
      by_cases hx : acc.any (fun e => sameId e x) = true
      · simp [hx]
      · have hx2 : acc.any (fun e => sameId e x) = false := by simpa using hx
        have hlx : sameId l x = false := by
          by_contra hcon
          have hlx : sameId l x = true := by simpa using hcon
          obtain ⟨e, he, hel⟩ := List.any_eq_true.1 hl
          have : acc.any (fun e => sameId e x) = true :=
            List.any_eq_true.2 ⟨e, he, sameId_trans e l x hel hlx⟩
          rw [hx2] at this
          cases this
        simp [hx2, hlx]
    · have hl2 : acc.any (fun e => sameId e l) = false := by simpa using hl
      have hm : mergeLocal acc l = acc ++ [l] := by simp [mergeLocal, hany, hl2]
      rw [hm, ih (acc ++ [l]) (fun e he x hx => hc e (by
        rcases List.mem_append.1 he with h | h
        · rcases List.mem_append.1 h with h1 | h1
          · exact List.mem_append_left _ h1
          · simp only [List.mem_singleton] at h1
            rw [h1]
            exact List.mem_append_right _ (List.mem_cons_self _ _)
        · exact List.mem_append_right _ (List.mem_cons_of_mem _ h))
        x (List.mem_cons_of_mem _ hx))]
      rw [List.append_assoc]
      congr 1
      simp only [dedupById, List.filter_cons, hl2, Bool.not_false, if_true, List.filter_filter,
        List.singleton_append, List.cons.injEq, true_and]
      apply List.filter_congr
      intro x _
      simp [List.any_append, Bool.and_comm]

/-- C24 as amended: `loadAllEvents` returns the backend events in their order followed by a
sublist of the local events, in local order: a local event is appended exactly when no event
already in the result has its id as `eventId` or as `id`; so no two appended events have the
same id. When the backend gives no event and no local event has as `eventId` the id of a
local event with another id, the result is the local list with repeated ids removed, the
first occurrence kept. -/
theorem load_all_events_contract (reply : EventsReply) (localEvents : List Obj) :
    (∃ appended : List Obj,
      loadAllEvents reply localEvents = backendEvents reply ++ appended ∧
      appended.Sublist localEvents ∧
      (∀ (i : Nat) (x : Obj), appended[i]? = some x →
        (backendEvents reply ++ appended.take i).any (fun e => sameEvent e x) = false) ∧
      (∀ l ∈ localEvents, l ∈ appended ∨
        (loadAllEvents reply localEvents).any (fun e => sameEvent e l) = true) ∧
      appended.Pairwise (fun a b => sameId a b = false)) ∧
    (backendEvents reply = [] →
      (∀ a ∈ localEvents, ∀ b ∈ localEvents, sameEvent a b = sameId a b) →
      loadAllEvents reply localEvents = dedupById localEvents) := by
  constructor
  · obtain ⟨app, h1, h2, h3, h4⟩ := foldl_mergeLocal localEvents (backendEvents reply)
    refine ⟨app, h1, h2, h3, ?_, ?_⟩
    · intro l hl
      rcases h4 l hl with h | h
      · exact Or.inl h
      · right
        unfold loadAllEvents
        rw [h1]
        exact h
    · rw [List.pairwise_iff_getElem]
      intro i j hi hj hij
      have hx := h3 j app[j] (List.getElem?_eq_getElem hj)
      rw [List.any_append, Bool.or_eq_false_iff] at hx
      have hmem : app[i] ∈ app.take j := by
        rw [List.mem_take_iff_getElem]
        exact ⟨i, by omega, rfl⟩
      have hs : sameEvent app[i] app[j] = false := by
        have := hx.2
        rw [List.any_eq_false] at this
        simpa using this app[i] hmem
      unfold sameEvent at hs
      rw [Bool.or_eq_false_iff] at hs
      exact hs.2
  · intro hb hc
    unfold loadAllEvents
    rw [hb, foldl_mergeLocal_dedup localEvents []
      (fun e he x hx => hc e (by simpa using he) x hx)]
    simp

/-- C24 as amended, with the backend unavailable and three local events of which the third
repeats the id of the first: the result is the first two. -/
theorem load_all_events_contract_witness :
    backendEvents EventsReply.rejected = [] ∧
    (∀ a ∈ localRepeated, ∀ b ∈ localRepeated, sameEvent a b = sameId a b) ∧
    loadAllEvents EventsReply.rejected localRepeated = dedupById localRepeated ∧
    dedupById localRepeated = localRepeated.take 2 :=
  ⟨rfl, by decide,
   (load_all_events_contract EventsReply.rejected localRepeated).2 rfl (by decide),
   by decide⟩

/-! ## The list of my bookings -/

/-- C25 fails in its success part: when the QR service answers with a code of its own, the
booking appended to `myBookings` is not the booking of the response with only its price
overwritten, for its `qrCode` was replaced too. -/
theorem appended_booking_has_new_qr :
    (processPayment {} samplePaymentData sampleOkReply sampleQrReply).myBookings ≠
      [objSet sampleBookingReply "price" (objGet samplePaymentData "price")] ∧
    (processPayment {} samplePaymentData sampleOkReply sampleQrReply).myBookings.map
        (fun b => objGet b "qrCode") = [EVal.text "data:image/png;base64,service"] ∧
    objGet sampleBookingReply "qrCode" = EVal.text "data:image/png;base64,server" := by
  decide

/-- The properties of the booking as `processPayment` completes it. -/
theorem completedBooking_props (booking paymentData : Obj) (qr : QrReply) :
    objGet (completedBooking booking paymentData qr) "price" = objGet paymentData "price" ∧
    (∀ ok code, qr = some (ok, code) → ok.truthy = true →
      objGet (completedBooking booking paymentData qr) "qrCode" = code) ∧
    ((∀ ok code, qr = some (ok, code) → ok.truthy = false) →
      objGet (completedBooking booking paymentData qr) "qrCode" = objGet booking "qrCode") ∧
    (∀ k ∈ ["eventTitle", "eventDate", "eventTime", "eventLocation"],
      objGet (completedBooking booking paymentData qr) k =
        EVal.or (objGet booking k) (objGet paymentData k)) ∧
    (∀ k, k ∉ ["qrCode", "eventTitle", "eventDate", "eventTime", "eventLocation", "price"] →
      objGet (completedBooking booking paymentData qr) k = objGet booking k) := by
  have hne : ∀ (o : Obj) (k k1 : String) (v : EVal), k1 ≠ k →
      objGet (objSet o k v) k1 = objGet o k1 := fun o k k1 v h => objGet_objSet_other o k k1 v h
  refine ⟨?_, ?_, ?_, ?_, ?_⟩
  · unfold completedBooking
    exact objGet_objSet_same _ _ _
  · intro ok code hq ht
    subst hq
    simp only [completedBooking, ht, if_true]
    rw [hne _ _ _ _ (by decide), hne _ _ _ _ (by decide), hne _ _ _ _ (by decide),
      hne _ _ _ _ (by decide), hne _ _ _ _ (by decide), objGet_objSet_same]
  · intro hq
    simp only [completedBooking]
    rw [hne _ _ _ _ (by decide), hne _ _ _ _ (by decide), hne _ _ _ _ (by decide),
      hne _ _ _ _ (by decide), hne _ _ _ _ (by decide)]
    cases qr with
    | none => rfl
    | some x =>
      obtain ⟨ok, code⟩ := x
      simp [hq ok code rfl]
  · have hb : ∀ k, k ≠ "qrCode" → objGet (match qr with
        | some (ok, code) => if ok.truthy then objSet booking "qrCode" code else booking
        | none => booking) k = objGet booking k := by
      intro k hk
      cases qr with
      | none => rfl
      | some x =>
        obtain ⟨ok, code⟩ := x
        by_cases ht : ok.truthy = true
        · simp only [ht, if_true]
          exact hne _ _ _ _ hk
        · simp [ht]
    intro k hk
    simp only [List.mem_cons, List.mem_singleton, List.not_mem_nil, or_false] at hk
    simp only [completedBooking]
    rcases hk with rfl | rfl | rfl | rfl
    · rw [hne _ _ _ _ (by decide), hne _ _ _ _ (by decide), hne _ _ _ _ (by decide),
        hne _ _ _ _ (by decide), objGet_objSet_same, hb _ (by decide)]
    · rw [hne _ _ _ _ (by decide), hne _ _ _ _ (by decide), hne _ _ _ _ (by decide),
        objGet_objSet_same, hne _ _ _ _ (by decide), hb _ (by decide)]
    · rw [hne _ _ _ _ (by decide), hne _ _ _ _ (by decide), objGet_objSet_same,
        hne _ _ _ _ (by decide), hne _ _ _ _ (by decide), hb _ (by decide)]
    · rw [hne _ _ _ _ (by decide), objGet_objSet_same, hne _ _ _ _ (by decide),
        hne _ _ _ _ (by decide), hne _ _ _ _ (by decide), hb _ (by decide)]
  · intro k hk
    simp only [List.mem_cons, List.mem_singleton, List.not_mem_nil, or_false, not_or] at hk
    obtain ⟨h1, h2, h3, h4, h5, h6⟩ := hk
    have hb : objGet (match qr with
        | some (ok, code) => if ok.truthy then objSet booking "qrCode" code else booking
        | none => booking) k = objGet booking k := by
      cases qr with
      | none => rfl
      | some x =>
        obtain ⟨ok, code⟩ := x
        by_cases ht : ok.truthy = true
        · simp only [ht, if_true]
          exact hne _ _ _ _ h1
        · simp [ht]
    simp only [completedBooking]
    rw [hne _ _ _ _ h6, hne _ _ _ _ h5, hne _ _ _ _ h4, hne _ _ _ _ h3, hne _ _ _ _ h2, hb]

/-- C25 as amended: `processPayment` leaves `myBookings` unchanged when the request fails, is
not OK or has an invalid body; when the response is OK with a truthy `success` and a booking,
the new list is the old list with one booking appended at the end, which is the booking of
the response with its price overwritten by the price of the payment data, its `qrCode`
replaced by the code of the QR service when that service answered with success, and its
`eventTitle`, `eventDate`, `eventTime` and `eventLocation` taken from the payment data where
the response's are falsy; every other property is the response's. -/
theorem my_bookings_contract (c : Client) (paymentData : Obj) (reply : PaymentReply)
    (qr : QrReply) :
    (replyFails reply = true →
      (processPayment c paymentData reply qr).myBookings = c.myBookings) ∧
    (∀ status success booking,
      reply = PaymentReply.response true status (Except.ok (success, some booking)) →
      success.truthy = true →
      ∃ stored : Obj,
        (processPayment c paymentData reply qr).myBookings = c.myBookings ++ [stored] ∧
        objGet stored "price" = objGet paymentData "price" ∧
        (∀ ok code, qr = some (ok, code) → ok.truthy = true →
          objGet stored "qrCode" = code) ∧
        ((∀ ok code, qr = some (ok, code) → ok.truthy = false) →
          objGet stored "qrCode" = objGet booking "qrCode") ∧
        (∀ k ∈ ["eventTitle", "eventDate", "eventTime", "eventLocation"],
          objGet stored k = EVal.or (objGet booking k) (objGet paymentData k)) ∧
        (∀ k,
          k ∉ ["qrCode", "eventTitle", "eventDate", "eventTime", "eventLocation", "price"] →
          objGet stored k = objGet booking k)) := by
  constructor
  · intro hf
    exact (processPayment_failed_state c paymentData reply qr hf).2.2.2
  · intro status success booking hr hs
    subst hr
    refine ⟨completedBooking booking paymentData qr, ?_,
      completedBooking_props booking paymentData qr⟩
    simp [processPayment, hs, paymentSucceeded, showNotification, hideProcessingLoader,
      showProcessingLoader, closePaymentModal]

/-- C25 as amended, at a rejected request and at the sample OK response with the QR service
unavailable: the list is unchanged in the first case and gains the response's booking, QR
code and all, in the second. -/
theorem my_bookings_contract_witness :
    (processPayment { myBookings := [sampleBookingReply] } samplePaymentData
      (PaymentReply.rejected "Failed to fetch") none).myBookings = [sampleBookingReply] ∧
    ∃ stored : Obj,
      (processPayment {} samplePaymentData sampleOkReply none).myBookings = [] ++ [stored] ∧
      objGet stored "price" = objGet samplePaymentData "price" ∧
      objGet stored "qrCode" = objGet sampleBookingReply "qrCode" ∧
      objGet stored "bookingId" = objGet sampleBookingReply "bookingId" := by
  refine ⟨(my_bookings_contract { myBookings := [sampleBookingReply] } samplePaymentData
    (PaymentReply.rejected "Failed to fetch") none).1 rfl, ?_⟩
  obtain ⟨stored, h1, h2, -, h4, -, h6⟩ :=
    (my_bookings_contract {} samplePaymentData sampleOkReply none).2 201 (JVal.bool true)
      sampleBookingReply rfl rfl
  exact ⟨stored, h1, h2, h4 (fun ok code hq => by cases hq), h6 "bookingId" (by decide)⟩

/-! ## Client sign-in form -/

/-- C29 fails: for the answer 401 `Invalid credentials` the handler takes its demo fallback
and writes all four items, marking the user as logged in; the same happens for the answer the
sign-in route of `server.js` gives to these credentials. -/
theorem rejected_signin_logs_in :
    signinSubmit {} "mallory@example.com" 1700000000000
        (signinReplyOf { status := 401, error := some "Invalid credentials" }) =
      { isLoggedIn := some "true", userName := some "Mallory",
        userEmail := some "mallory@example.com",
        token := some "demo-token-1700000000000" } ∧
    (postAuthSignin sampleCrypto memoryEnv
      { email := JVal.str "mallory@example.com", password := JVal.str "guess" }).status = 500 ∧
    (signinSubmit {} "mallory@example.com" 1700000000000
        (signinReplyOf (postAuthSignin sampleCrypto memoryEnv
          { email := JVal.str "mallory@example.com", password := JVal.str "guess" }))
      ).isLoggedIn = some "true" := by
  decide

/-- C29 as amended: the sign-in form handler leaves the four items unchanged when the request
fails or the body of an OK response cannot be read. For an OK response with a user object it
writes `isLoggedIn` `true` and the name, email and token of the response; for an OK response
without user it writes `isLoggedIn` alone; and for every response that is not OK it writes,
as its demo fallback, `isLoggedIn` `true`, a user name made from the typed email, the typed
email, and a token `demo-token-` followed by the clock reading. -/
theorem signin_storage_contract (st : AuthStorage) (email : String) (now : Nat)
    (reply : SigninReply) :
    (reply = SigninReply.rejected ∨ reply = SigninReply.response true SigninBody.unreadable →
      signinSubmit st email now reply = st) ∧
    (∀ user token, reply = SigninReply.response true (SigninBody.withUser user token) →
      signinSubmit st email now reply =
        { isLoggedIn := some "true", userName := some (getProp user "name").toText,
          userEmail := some (getProp user "email").toText, token := some token.toText }) ∧
    (reply = SigninReply.response true SigninBody.noUser →
      signinSubmit st email now reply = { st with isLoggedIn := some "true" }) ∧
    (∀ body, reply = SigninReply.response false body →
      signinSubmit st email now reply =
        { isLoggedIn := some "true", userName := some (demoUserName email),
          userEmail := some email, token := some ("demo-token-" ++ toString now) }) := by
  refine ⟨?_, ?_, ?_, ?_⟩
  · rintro (h | h) <;> subst h <;> rfl
  · intro user token h
    subst h
    rfl
  · intro h
    subst h
    rfl
  · intro body h
    subst h
    cases body <;> rfl

/-- C29 as amended, for a request that fails, for an accepted sign-in and for a 401
answer. -/
theorem signin_storage_contract_witness :
    signinSubmit { userName := some "Asha" } "asha@example.com" 1700000000000
        SigninReply.rejected = { userName := some "Asha" } ∧
    signinSubmit {} "asha@example.com" 1700000000000
        (SigninReply.response true (SigninBody.withUser
          [("id", JVal.str "1"), ("name", JVal.str "Asha K"),
           ("email", JVal.str "asha@example.com")] (JVal.str "jwt"))) =
      { isLoggedIn := some "true", userName := some "Asha K",
        userEmail := some "asha@example.com", token := some "jwt" } ∧
    signinSubmit {} "asha@example.com" 1700000000000
        (SigninReply.response false SigninBody.noUser) =
      { isLoggedIn := some "true", userName := some (demoUserName "asha@example.com"),
        userEmail := some "asha@example.com",
        token := some ("demo-token-" ++ toString 1700000000000) } :=
  ⟨(signin_storage_contract { userName := some "Asha" } "asha@example.com" 1700000000000
      SigninReply.rejected).1 (Or.inl rfl),
   (signin_storage_contract {} "asha@example.com" 1700000000000
      (SigninReply.response true (SigninBody.withUser
        [("id", JVal.str "1"), ("name", JVal.str "Asha K"),
         ("email", JVal.str "asha@example.com")] (JVal.str "jwt")))).2.1 _ _ rfl,
   (signin_storage_contract {} "asha@example.com" 1700000000000
      (SigninReply.response false SigninBody.noUser)).2.2.2 _ rfl⟩

end EventEase
